import Mathlib

/-!
# Elevator controller: destination arbitration, car motion and door animation

A shallow embedding of `physics.c` (request table, car state, getters and setters,
`UpdateDestination`, `MoveCar`, `taskPhysics`), of `doordrv.c` (`taskDoor`,
`GetDoorClosed`) and of the handlers of `btndrv.c` and `clidrv.c` that reach the car and
the door, followed by the properties proved about them.

Conventions of the embedding

* The C globals of a module are the fields of one structure and every C function is a
  pure function on that structure.
* `float` values are rationals: the finite values of the type.  Arbitration only ever
  compares positions with `==`.  `MoveCar` also adds, multiplies and divides: each of
  these results passes through `fl`, the rounding of a real number to `float`, and the
  C library function `sqrtf` is called where the code calls it.  Both `fl` and `sqrtf` are
  parameters of the model: `id` in the place of `fl` is arithmetic without rounding, and
  `fl32` is single precision, rounded to nearest, ties to even.
* Infinities and NaN are not values of the model.  What `sqrtf` returns for a negative
  number is never read: every comparison with it is false, as in C.  A quotient whose
  divisor is 0 has no value in the model, and what is stated about it is stated for a
  divisor that is not 0.
* `dest`, a pointer into `requests[]`, is the index of the slot it points to.
* `uint8_t` values are naturals reduced modulo `256` where the code does arithmetic.
* A receive on a queue is modelled by its outcome: `none` when nothing was waiting,
  `some m` when message `m` was taken.
* A loop that may run for ever takes a bound on its passes and returns `none` when the
  bound does not suffice.
-/

namespace Elevator

/-! ## physics.h / physics.c : data -/

/-- The C enumeration `enum DIR { UP, DOWN, EITHER }`. -/
inductive DIR where
  | UP
  | DOWN
  | EITHER
deriving DecidableEq, Repr

/-- The C record `struct FloorRequest`. -/
structure FloorRequest where
  isRequested : Bool
  dir : DIR
  feet : ℚ
  acronym : String
deriving DecidableEq, Repr

/-- The array `requests[]` of `physics.c`: four slots, indexed `0..3`. -/
structure RequestTable where
  r0 : FloorRequest
  r1 : FloorRequest
  r2 : FloorRequest
  r3 : FloorRequest
deriving DecidableEq, Repr

/-- Reading `requests[i]`. -/
def RequestTable.get (t : RequestTable) : Fin 4 → FloorRequest
  | 0 => t.r0
  | 1 => t.r1
  | 2 => t.r2
  | 3 => t.r3

/-- Writing `requests[i] = r`. -/
def RequestTable.set (t : RequestTable) (i : Fin 4) (r : FloorRequest) : RequestTable :=
  match i with
  | 0 => { t with r0 := r }
  | 1 => { t with r1 := r }
  | 2 => { t with r2 := r }
  | 3 => { t with r3 := r }

/-- The initialiser of `requests[]` (physics.c, lines 33-38). -/
def requests : RequestTable :=
  { r0 := { isRequested := false, dir := .UP, feet := 0, acronym := "GD" }
    r1 := { isRequested := false, dir := .UP, feet := 500, acronym := "P1" }
    r2 := { isRequested := false, dir := .DOWN, feet := 510, acronym := "P2" }
    r3 := { isRequested := false, dir := .DOWN, feet := 0, acronym := "ES" } }

/-- The globals of `physics.c`, together with the two direction lamps on port B
(`BIT_5` is the up lamp, `BIT_4` the down lamp). -/
structure Car where
  cur_loc : ℚ
  dest : Fin 4
  cur_speed : ℚ
  max_speed : ℚ
  accel : ℚ
  going_up : Bool
  accel_up : Bool
  emerg_stop_enabled : Bool
  requests : RequestTable
  portB4 : Bool
  portB5 : Bool
deriving DecidableEq, Repr

/-- The defaults set at the top of `taskPhysics` (lines 268-275); the lamps are cleared
by `main` (line 118). -/
def Car.startup : Car :=
  { cur_loc := 0
    dest := 0
    cur_speed := 0
    max_speed := 50
    accel := 10
    going_up := true
    accel_up := true
    emerg_stop_enabled := false
    requests := Elevator.requests
    portB4 := false
    portB5 := false }

/-! ## physics.c : `SetRequest` -/

/-- The function `SetRequest(requestNum, dir)` (lines 55-65). -/
def SetRequest (requestNum : Fin 4) (dir : DIR) (c : Car) : Car :=
  let r := c.requests.get requestNum
  let r1 : FloorRequest :=
    if r.isRequested = true ∧
        ((r.dir = .UP ∧ dir = .DOWN) ∨ (r.dir = .DOWN ∧ dir = .UP)) then
      { r with dir := .EITHER }
    else
      { r with dir := dir }
  { c with requests := c.requests.set requestNum { r1 with isRequested := true } }

/-- The function `SetEmergStopEnable()` (lines 87-90). -/
def SetEmergStopEnable (c : Car) : Car :=
  { c with emerg_stop_enabled := true }

/-! ## physics.c : `UpdateDestination` -/

/-- The statement pair `dest = &(requests[i]); dest->isRequested = false;`. -/
def Car.serve (i : Fin 4) (c : Car) : Car :=
  { c with
    dest := i
    requests := c.requests.set i { c.requests.get i with isRequested := false } }

/-- The statement pair `dest = &(requests[1]); requests[1].dir = d;`. -/
def Car.retag (d : DIR) (c : Car) : Car :=
  { c with
    dest := 1
    requests := { c.requests with r1 := { c.requests.r1 with dir := d } } }

/-- The block `// Update the direction` (lines 185-193). -/
def UpdateDestination.direction (c : Car) : Car :=
  if c.cur_loc = c.requests.r0.feet then
    { c with going_up := true }
  else if c.cur_loc = c.requests.r1.feet ∧ c.requests.r1.dir = .UP then
    { c with going_up := true }
  else if c.cur_loc = c.requests.r1.feet ∧ c.requests.r1.dir = .DOWN then
    { c with going_up := false }
  else if c.cur_loc = c.requests.r2.feet then
    { c with going_up := false }
  else
    c

/-- Lines 208-212: the branch list taken with `going_up` set and the car at
`requests[0].feet`. -/
def UpdateDestination.upFromGround (c : Car) : Bool × Car :=
  let rq := c.requests
  if rq.r0.isRequested = true then (true, c.serve 0)
  else if rq.r1.isRequested = true ∧ rq.r1.dir = .UP then (true, c.serve 1)
  else if rq.r1.isRequested = true ∧ rq.r1.dir = .EITHER then (true, c.retag .DOWN)
  else if rq.r2.isRequested = true then (true, c.serve 2)
  else if rq.r1.isRequested = true ∧ rq.r1.dir = .DOWN then (true, c.serve 1)
  else (false, c)

/-- Lines 216-220: the branch list taken with `going_up` set and the car at
`requests[1].feet`. -/
def UpdateDestination.upFromMid (c : Car) : Bool × Car :=
  let rq := c.requests
  if rq.r1.isRequested = true ∧ rq.r1.dir = .UP then (true, c.serve 1)
  else if rq.r1.isRequested = true ∧ rq.r1.dir = .EITHER then (true, c.retag .DOWN)
  else if rq.r2.isRequested = true then (true, c.serve 2)
  else if rq.r1.isRequested = true ∧ rq.r1.dir = .DOWN then
    (true, { c.serve 1 with going_up := false })
  else if rq.r0.isRequested = true then
    (true, { c.serve 0 with going_up := false })
  else (false, c)

/-- Lines 227-231: the branch list taken with `going_up` clear and the car at
`requests[1].feet`. -/
def UpdateDestination.downFromMid (c : Car) : Bool × Car :=
  let rq := c.requests
  if rq.r1.isRequested = true ∧ rq.r1.dir = .DOWN then (true, c.serve 1)
  else if rq.r1.isRequested = true ∧ rq.r1.dir = .EITHER then (true, c.retag .UP)
  else if rq.r0.isRequested = true then (true, c.serve 0)
  else if rq.r1.isRequested = true ∧ rq.r1.dir = .UP then
    (true, { c.serve 1 with going_up := true })
  else if rq.r2.isRequested = true then
    (true, { c.serve 2 with going_up := true })
  else (false, c)

/-- Lines 235-239: the branch list taken with `going_up` clear and the car at
`requests[2].feet`. -/
def UpdateDestination.downFromTop (c : Car) : Bool × Car :=
  let rq := c.requests
  if rq.r2.isRequested = true then (true, c.serve 2)
  else if rq.r1.isRequested = true ∧ rq.r1.dir = .DOWN then (true, c.serve 1)
  else if rq.r1.isRequested = true ∧ rq.r1.dir = .EITHER then (true, c.retag .UP)
  else if rq.r0.isRequested = true then (true, c.serve 0)
  else if rq.r1.isRequested = true ∧ rq.r1.dir = .UP then (true, c.serve 1)
  else (false, c)

/-- The scan of lines 195-242: the emergency override, else the branch list chosen by
`going_up` and the position of the car.  The first component is the local `updated`,
which stays false when no branch fires. -/
def UpdateDestination.select (c : Car) : Bool × Car :=
  if c.emerg_stop_enabled = true then
    (true, { c.serve 0 with going_up := false })
  else if c.going_up = true then
    if c.cur_loc = c.requests.r0.feet then UpdateDestination.upFromGround c
    else if c.cur_loc = c.requests.r1.feet then UpdateDestination.upFromMid c
    else (false, c)
  else
    if c.cur_loc = c.requests.r1.feet then UpdateDestination.downFromMid c
    else if c.cur_loc = c.requests.r2.feet then UpdateDestination.downFromTop c
    else (false, c)

/-- The block `// Update UP/DN Leds` (lines 244-254). -/
def UpdateDestination.leds (c : Car) : Car :=
  if c.going_up = true then
    { c with portB5 := true, portB4 := false }
  else
    { c with portB4 := true, portB5 := false }

/-- The function `UpdateDestination` (lines 181-257): the returned flag `updated` and
the globals on return. -/
def UpdateDestination (c : Car) : Bool × Car :=
  let r := UpdateDestination.select (UpdateDestination.direction c)
  (r.1, UpdateDestination.leds r.2)

/-- The retry loop of `taskPhysics` (lines 280-287) seen from the car: the globals after
`n` successive calls of `UpdateDestination`.  The loop body between two calls only waits. -/
def UpdateDestination.attempts : Nat → Car → Car
  | 0, c => c
  | n + 1, c => UpdateDestination.attempts n (UpdateDestination c).2

/-! ## doordrv.h / leddrv.c / doordrv.c : the door task -/

/-- The C enumeration `enum DOOR_MSG { OPEN_CLOSE_SEQ, STAY_OPEN, CLOSE, CLOSED }`. -/
inductive DOOR_MSG where
  | OPEN_CLOSE_SEQ
  | STAY_OPEN
  | CLOSE
  | CLOSED
deriving DecidableEq, Repr

/-- The loop of `taskDoor` in which the task stands: the blocking `do ... while(!opening)`
loop (lines 55-64) or the animation loop (lines 67-160). -/
inductive DoorLoop where
  | idle
  | animation
deriving DecidableEq, Repr

/-- The globals of `doordrv.c`, the locals of `taskDoor` that live across iterations, the
three lamps (bits 0, 1 and 2 of port D) and the messages posted so far on
`door_tx_queue`, oldest first. -/
structure Door where
  opening : Bool
  cur_state : Nat
  next_state : Nat
  stay_opened : Bool
  animation_done : Bool
  led1 : Bool
  led2 : Bool
  led3 : Bool
  door_tx : List DOOR_MSG
  loop : DoorLoop
deriving DecidableEq, Repr

/-- The lamp numbers of `leddrv.h`. -/
def LED1 : Nat := 0

/-- The second lamp. -/
def LED2 : Nat := 1

/-- The third lamp. -/
def LED3 : Nat := 2

/-- The function `setLED(ledNum, value)` of `leddrv.c`: value 0 clears the bit, any other
value sets it.  Bits of port D above bit 2 are not part of the model. -/
def setLED (ledNum : Nat) (value : Nat) (d : Door) : Door :=
  match ledNum with
  | 0 => { d with led1 := decide (value ≠ 0) }
  | 1 => { d with led2 := decide (value ≠ 0) }
  | 2 => { d with led3 := decide (value ≠ 0) }
  | _ => d

/-- The function `GetDoorClosed()` (lines 25-28). -/
def GetDoorClosed (d : Door) : Bool :=
  d.cur_state == 0 && !d.opening

/-- The door task when it reaches its first wait (lines 38-50): everything cleared, the
three lamps lit, nothing posted. -/
def Door.startup : Door :=
  { opening := false
    cur_state := 0
    next_state := 0
    stay_opened := false
    animation_done := false
    led1 := true
    led2 := true
    led3 := true
    door_tx := []
    loop := .idle }

/-- The `switch(msg)` of the blocking loop (lines 59-63). -/
def taskDoor.idle (msg : DOOR_MSG) (d : Door) : Door :=
  match msg with
  | .OPEN_CLOSE_SEQ => { d with opening := true }
  | .STAY_OPEN => { d with opening := true, stay_opened := true }
  | _ => d

/-- The block `// Check for any messages` of the animation loop (lines 69-85); `rx` is
the outcome of the non-blocking receive. -/
def taskDoor.drain (rx : Option DOOR_MSG) (d : Door) : Door :=
  match rx with
  | none => d
  | some .CLOSE =>
    if d.stay_opened = false ∨ (d.stay_opened = true ∧ d.cur_state = 3) then
      { d with opening := false }
    else d
  | some .OPEN_CLOSE_SEQ =>
    let d1 : Door :=
      if d.opening = false ∧ 1 ≤ d.cur_state ∧ d.cur_state ≤ 3 ∧ d.stay_opened = false then
        { d with next_state := (d.next_state + 2) % 256 }
      else d
    { d1 with opening := true }
  | some _ => d

/-- The assignment `cur_state = next_state` and the `switch(cur_state)` that follows it
(lines 87-159). -/
def taskDoor.phase (d0 : Door) : Door :=
  let d : Door := { d0 with cur_state := d0.next_state }
  match d.cur_state with
  | 0 =>
    let e := setLED LED3 1 (setLED LED2 1 (setLED LED1 1 d))
    if e.opening = true then { e with next_state := 1 }
    else { e with animation_done := true }
  | 1 =>
    let e := setLED LED3 0 (setLED LED2 1 (setLED LED1 1 d))
    if e.opening = true then { e with next_state := 2 }
    else { e with next_state := 0 }
  | 2 =>
    let e := setLED LED3 0 (setLED LED2 0 (setLED LED1 1 d))
    if e.opening = true then { e with next_state := 3 }
    else { e with next_state := 1 }
  | 3 =>
    let e := setLED LED3 0 (setLED LED2 0 (setLED LED1 0 d))
    if e.opening = true then
      if e.stay_opened = true then e
      else { e with next_state := 4 }
    else { e with next_state := 2 }
  | 4 => { d with next_state := 3, opening := false }
  | _ => { d with next_state := 0 }

/-- The statements after the animation loop (lines 162-169): post `CLOSED` and reset. -/
def taskDoor.closed (d : Door) : Door :=
  { d with
    door_tx := d.door_tx ++ [DOOR_MSG.CLOSED]
    opening := false
    stay_opened := false
    animation_done := false
    cur_state := 0
    next_state := 0 }

/-- The test of `while(!animation_done)`: run another iteration, or leave the loop,
post `CLOSED` and go back to the blocking loop. -/
def taskDoor.test (d : Door) : Door :=
  if d.animation_done = true then { taskDoor.closed d with loop := .idle }
  else { d with loop := .animation }

/-- One receive of `taskDoor` and what follows it up to the next receive.  In the
blocking loop no message means the task stays blocked; in the animation loop the
receive does not wait and one iteration runs. -/
def taskDoor.step (rx : Option DOOR_MSG) (d : Door) : Door :=
  match d.loop with
  | .idle =>
    match rx with
    | none => d
    | some msg =>
      let d1 := taskDoor.idle msg d
      if d1.opening = true then taskDoor.test d1 else d1
  | .animation => taskDoor.test (taskDoor.phase (taskDoor.drain rx d))

/-- The door task run over the outcomes of its successive receives. -/
def taskDoor.run : List (Option DOOR_MSG) → Door → Door
  | [], d => d
  | rx :: rest, d => taskDoor.run rest (taskDoor.step rx d)

/-- The phases the animation goes through: the value `cur_state` takes in each
iteration of the animation loop, in order. -/
def taskDoor.phases : List (Option DOOR_MSG) → Door → List Nat
  | [], _ => []
  | rx :: rest, d =>
    match d.loop with
    | .idle => taskDoor.phases rest (taskDoor.step rx d)
    | .animation =>
      (taskDoor.phase (taskDoor.drain rx d)).cur_state ::
        taskDoor.phases rest (taskDoor.step rx d)

/-- The door at rest between two animations: blocked in the first loop, phase 0, all
flags clear. -/
def Door.isIdle (d : Door) : Prop :=
  d.loop = .idle ∧ d.cur_state = 0 ∧ d.next_state = 0 ∧ d.opening = false ∧
    d.stay_opened = false ∧ d.animation_done = false

/-- Idleness of a door is decided field by field. -/
instance Door.decIsIdle (d : Door) : Decidable d.isIdle :=
  inferInstanceAs (Decidable (d.loop = .idle ∧ d.cur_state = 0 ∧ d.next_state = 0 ∧
    d.opening = false ∧ d.stay_opened = false ∧ d.animation_done = false))

/-- A drained item that is not the command `CLOSE`. -/
def notClose (rx : Option DOOR_MSG) : Prop :=
  rx ≠ some DOOR_MSG.CLOSE

/-- Whether a drained item is `CLOSE` is decided by comparing messages. -/
instance decNotClose (rx : Option DOOR_MSG) : Decidable (notClose rx) :=
  inferInstanceAs (Decidable (rx ≠ some DOOR_MSG.CLOSE))

/-! ## Vocabulary of the specification -/

/-- An ordered scan list: each entry is a condition on the pending calls together with
the slot it selects.  The result is the slot of the first entry whose condition holds. -/
def firstSatisfied (l : List (Bool × Fin 4)) : Option (Fin 4) :=
  (l.find? (fun e => e.1)).map (fun e => e.2)

/-- The scan order for a car at the ground stop, in the words of the specification:
ground call, mid call tagged Up, mid call tagged Either, top call, mid call tagged
Down. -/
def groundScanOrder (t : RequestTable) : List (Bool × Fin 4) :=
  [ (t.r0.isRequested, 0),
    (t.r1.isRequested && decide (t.r1.dir = .UP), 1),
    (t.r1.isRequested && decide (t.r1.dir = .EITHER), 1),
    (t.r2.isRequested, 2),
    (t.r1.isRequested && decide (t.r1.dir = .DOWN), 1) ]

/-- The scan order for a car at the mid stop heading up, as stated by the specification:
the ground entry is dropped from `groundScanOrder`. -/
def midUpScanOrderSpec (t : RequestTable) : List (Bool × Fin 4) :=
  [ (t.r1.isRequested && decide (t.r1.dir = .UP), 1),
    (t.r1.isRequested && decide (t.r1.dir = .EITHER), 1),
    (t.r2.isRequested, 2),
    (t.r1.isRequested && decide (t.r1.dir = .DOWN), 1) ]

/-- The scan order for a car at the mid stop heading up, with the ground call as a last
entry. -/
def midUpScanOrder (t : RequestTable) : List (Bool × Fin 4) :=
  midUpScanOrderSpec t ++ [ (t.r0.isRequested, 0) ]

/-- Some call is pending at one of the three real stops. -/
def RequestTable.anyRequested (t : RequestTable) : Bool :=
  t.r0.isRequested || t.r1.isRequested || t.r2.isRequested

/-- The car stands at one of the three real stops. -/
def Car.atStop (c : Car) : Prop :=
  c.cur_loc = c.requests.r0.feet ∨ c.cur_loc = c.requests.r1.feet ∨
    c.cur_loc = c.requests.r2.feet

/-- Standing at a stop is decided by comparing positions. -/
instance Car.decAtStop (c : Car) : Decidable c.atStop :=
  inferInstanceAs (Decidable (c.cur_loc = c.requests.r0.feet ∨
    c.cur_loc = c.requests.r1.feet ∨ c.cur_loc = c.requests.r2.feet))

/-- The three real stops stand where the initialiser of `requests[]` puts them; no
statement of the program assigns `feet` of slots 0 to 2. -/
def RequestTable.stopsInPlace (t : RequestTable) : Prop :=
  t.r0.feet = 0 ∧ t.r1.feet = 500 ∧ t.r2.feet = 510

/-- Whether the stops are in place is decided by comparing positions. -/
instance RequestTable.decStopsInPlace (t : RequestTable) : Decidable t.stopsInPlace :=
  inferInstanceAs (Decidable (t.r0.feet = 0 ∧ t.r1.feet = 500 ∧ t.r2.feet = 510))

/-- Exchange of the tags Up and Down. -/
def DIR.mirror : DIR → DIR
  | .UP => .DOWN
  | .DOWN => .UP
  | .EITHER => .EITHER

/-- Exchange of the ground and the top slot. -/
def mirrorSlot : Fin 4 → Fin 4
  | 0 => 2
  | 1 => 1
  | 2 => 0
  | 3 => 3

/-- The mirrored table: the calls of slots 0 and 2 change places and every tag is
mirrored; positions and acronyms stay with their slot. -/
def RequestTable.mirror (t : RequestTable) : RequestTable :=
  { r0 := { t.r0 with isRequested := t.r2.isRequested, dir := t.r2.dir.mirror }
    r1 := { t.r1 with dir := t.r1.dir.mirror }
    r2 := { t.r2 with isRequested := t.r0.isRequested, dir := t.r0.dir.mirror }
    r3 := { t.r3 with dir := t.r3.dir.mirror } }

/-- The mirrored car: ground and top stop change places (position of the car,
destination, calls), Up and Down tags are exchanged and `going_up` is negated. -/
def Car.mirror (c : Car) : Car :=
  { c with
    cur_loc :=
      if c.cur_loc = c.requests.r0.feet then c.requests.r2.feet
      else if c.cur_loc = c.requests.r2.feet then c.requests.r0.feet
      else c.cur_loc
    dest := mirrorSlot c.dest
    going_up := !c.going_up
    requests := c.requests.mirror }

/-! ## Concrete cars used as test points -/

/-- The startup car after `SetEmergStopEnable()`: no call is pending. -/
def Car.emergencyIdle : Car := SetEmergStopEnable Car.startup

/-- A car stopped at the mid stop with calls pending for the mid and the top stop, and
the emergency stop set. -/
def Car.emergencyAtMid : Car :=
  SetEmergStopEnable
    (SetRequest 2 .DOWN (SetRequest 1 .UP { Car.startup with cur_loc := 500, dest := 1 }))

/-- A car at the ground stop with a call pending for the mid stop, tagged Up. -/
def Car.groundCallMidUp : Car := SetRequest 1 .UP Car.startup

/-- A car at the ground stop with a call pending for the mid stop, tagged Either. -/
def Car.groundCallMidEither : Car := SetRequest 1 .DOWN (SetRequest 1 .UP Car.startup)

/-- A car at the ground stop with a call pending for the mid stop, tagged Down. -/
def Car.groundCallMidDown : Car := SetRequest 1 .DOWN Car.startup

/-- A car that has arrived at the mid stop, no call pending. -/
def Car.midIdle : Car := { Car.startup with cur_loc := 500, dest := 1 }

/-- A car at the mid stop, heading up, whose only pending call is for the ground stop. -/
def Car.midCallGround : Car := SetRequest 0 .UP Car.midIdle

/-- The car at the mid stop after the direction block, when a call for the mid stop
tagged Down arrives before the scan. -/
def Car.midLateCallDown : Car := SetRequest 1 .DOWN (UpdateDestination.direction Car.midIdle)

/-- A car at the top stop with calls pending for the ground and the mid stop. -/
def Car.topCalls : Car :=
  SetRequest 1 .UP (SetRequest 0 .UP { Car.startup with cur_loc := 510, dest := 2 })

/-! ## Vocabulary for the door task -/

/-- What holds of the door task between two receives.  In the blocking loop everything
is at rest.  In the animation loop `animation_done` is clear, both phases are at most 4
and, while the door is closing, `next_state` is the phase just below `cur_state`. -/
def Door.inv (d : Door) : Prop :=
  match d.loop with
  | .idle =>
    d.cur_state = 0 ∧ d.next_state = 0 ∧ d.opening = false ∧ d.stay_opened = false ∧
      d.animation_done = false
  | .animation =>
    d.animation_done = false ∧ d.cur_state ≤ 4 ∧ d.next_state ≤ 4 ∧
      (d.opening = false → d.next_state + 1 = d.cur_state)

/-- A held door that was closed from phase 3 and told to open again on its way down:
`STAY_OPEN`, four iterations up to phase 3, `CLOSE`, one more iteration, then
`OPEN_CLOSE_SEQ`. -/
def Door.reopenedUnderHold : Door :=
  taskDoor.run
    [some .STAY_OPEN, none, none, none, none, some .CLOSE, none, some .OPEN_CLOSE_SEQ]
    Door.startup

/-- A door on its way down after the pause: `OPEN_CLOSE_SEQ` and seven iterations with
nothing drained, the last of them in phase 2. -/
def Door.midClose : Door :=
  taskDoor.run (some .OPEN_CLOSE_SEQ :: List.replicate 7 none) Door.startup

/-! ## physics.c : getters, setters and `MoveCar` -/

/-- The function `GetIsMoving()` (lines 45-48). -/
def GetIsMoving (c : Car) : Bool :=
  !(decide (c.cur_loc = (c.requests.get c.dest).feet) && decide (c.cur_speed = 0))

/-- The function `GetGoingUp()` (lines 67-70). -/
def GetGoingUp (c : Car) : Bool :=
  c.going_up

/-- The function `GetCurrentSpeed()` (lines 72-75). -/
def GetCurrentSpeed (c : Car) : ℚ :=
  c.cur_speed

/-- The function `SetMaxSpeed(speed)` (lines 77-80). -/
def SetMaxSpeed (speed : ℚ) (c : Car) : Car :=
  { c with max_speed := speed }

/-- The function `SetAccel(new_accel)` (lines 82-85). -/
def SetAccel (new_accel : ℚ) (c : Car) : Car :=
  { c with accel := new_accel }

/-- The block `// Start slowing down if we're in an emergency stop` of the loop of
`MoveCar` (lines 106-119).  Line 112 rounds four times: the square of the speed, twice
the acceleration, their quotient, and the sum.  For `2.0f * accel` equal to 0 the C
quotient is infinite or not a number; the model has no such value, and what is stated
about `requests[3].feet` is stated for a divisor that is not 0. -/
def MoveCar.retarget (fl : ℚ → ℚ) (c : Car) : Car :=
  if c.emerg_stop_enabled = true then
    if c.going_up = true then
      { c with
        dest := 3
        requests := { c.requests with
          r3 := { c.requests.r3 with
            feet :=
              fl (c.cur_loc + fl (fl (c.cur_speed * c.cur_speed) / fl (2 * c.accel))) } } }
    else
      { c with dest := 0, accel_up := c.going_up }
  else c

/-- Lines 122-125, `// Update location`: `cur_loc` after the half step. -/
def MoveCar.loc1 (fl : ℚ → ℚ) (c : Car) : ℚ :=
  if c.going_up = true then fl (c.cur_loc + fl (c.cur_speed / 2))
  else fl (c.cur_loc - fl (c.cur_speed / 2))

/-- Lines 128-131, `// Update speed`: `cur_speed` after the half step. -/
def MoveCar.speed1 (fl : ℚ → ℚ) (c : Car) : ℚ :=
  if c.going_up = c.accel_up then fl (c.cur_speed + fl (c.accel / 2))
  else fl (c.cur_speed - fl (c.accel / 2))

/-- Lines 133-134: `cur_speed` after the clamp to `max_speed`. -/
def MoveCar.speed2 (fl : ℚ → ℚ) (c : Car) : ℚ :=
  if MoveCar.speed1 fl c > c.max_speed then c.max_speed else MoveCar.speed1 fl c

/-- Lines 137-143: `cur_loc` after the correction made below the maximum speed. -/
def MoveCar.loc2 (fl : ℚ → ℚ) (c : Car) : ℚ :=
  if MoveCar.speed2 fl c ≠ c.max_speed then
    if c.accel_up = true then fl (MoveCar.loc1 fl c + fl (0.125 * c.accel))
    else fl (MoveCar.loc1 fl c + fl ((-0.125) * c.accel))
  else MoveCar.loc1 fl c

/-- Lines 146-149: the argument handed to `sqrtf`. -/
def MoveCar.arg (fl : ℚ → ℚ) (c : Car) : ℚ :=
  if c.going_up = true then
    fl (fl (2 * c.accel) * fl ((c.requests.get c.dest).feet - MoveCar.loc2 fl c))
  else fl (fl (2 * c.accel) * fl (MoveCar.loc2 fl c - (c.requests.get c.dest).feet))

/-- Line 152, the test `cur_speed >= decel_speed`.  The C library function `sqrtf` is a
parameter; applied to a negative number it returns NaN, with which every comparison is
false. -/
def MoveCar.over (fl sqrtf : ℚ → ℚ) (c : Car) : Bool :=
  decide (¬ MoveCar.arg fl c < 0 ∧ MoveCar.speed2 fl c ≥ sqrtf (MoveCar.arg fl c))

/-- Lines 152-159, `// Correct for overshoot`: `cur_speed` afterwards. -/
def MoveCar.speed3 (fl sqrtf : ℚ → ℚ) (c : Car) : ℚ :=
  if MoveCar.over fl sqrtf c = true then sqrtf (MoveCar.arg fl c) else MoveCar.speed2 fl c

/-- Line 162, the test for arrival. -/
def MoveCar.arrived (fl sqrtf : ℚ → ℚ) (c : Car) : Bool :=
  decide (MoveCar.speed3 fl sqrtf c ≤ 0 ∨
    (c.going_up = false ∧ MoveCar.loc2 fl c ≤ (c.requests.get c.dest).feet) ∨
    (c.going_up = true ∧ MoveCar.loc2 fl c ≥ (c.requests.get c.dest).feet))

/-- The rest of the body of the loop of `MoveCar` (lines 121-166): location, speed,
deceleration point, arrival. -/
def MoveCar.advance (fl sqrtf : ℚ → ℚ) (c : Car) : Car :=
  { c with
    cur_loc :=
      if MoveCar.arrived fl sqrtf c = true then (c.requests.get c.dest).feet
      else MoveCar.loc2 fl c
    cur_speed := if MoveCar.arrived fl sqrtf c = true then 0 else MoveCar.speed3 fl sqrtf c
    accel_up :=
      if MoveCar.over fl sqrtf c = true then
        (if c.accel_up = c.going_up then !c.accel_up else c.accel_up)
      else c.accel_up }

/-- One pass through the body of the `while` loop of `MoveCar` (lines 104-170).  The
status line sent on `tx_queue` (lines 169-170) carries `cur_loc` and `cur_speed` of the
result. -/
def MoveCar.tick (fl sqrtf : ℚ → ℚ) (c : Car) : Car :=
  MoveCar.advance fl sqrtf (MoveCar.retarget fl c)

/-- The `while` loop of `MoveCar` (lines 102-171), run for at most `fuel` passes: the
globals when the loop is left, or `none` when the fuel does not suffice. -/
def MoveCar.loop (fl sqrtf : ℚ → ℚ) : Nat → Car → Option Car
  | 0, c => if c.cur_loc = (c.requests.get c.dest).feet then some c else none
  | fuel + 1, c =>
    if c.cur_loc = (c.requests.get c.dest).feet then some c
    else MoveCar.loop fl sqrtf fuel (MoveCar.tick fl sqrtf c)

/-- The function `MoveCar` (lines 95-172), with `fuel` bounding the passes of its loop. -/
def MoveCar (fl sqrtf : ℚ → ℚ) (fuel : Nat) (c : Car) : Option Car :=
  MoveCar.loop fl sqrtf fuel { c with accel_up := c.going_up }

/-! ## physics.c : `taskPhysics` -/

/-- The physics task between two of its delays: the globals, whether it stands inside
the loop of `MoveCar`, and the commands it has posted on `door_rx_queue` so far. -/
structure Physics where
  car : Car
  moving : Bool
  door_rx : List DOOR_MSG
deriving DecidableEq, Repr

/-- The physics task when it first calls `UpdateDestination` (lines 268-275). -/
def Physics.startup : Physics :=
  { car := Car.startup, moving := false, door_rx := [] }

/-- The physics task from one delay to the next (lines 277-320).  In the retry loop this
is one call of `UpdateDestination`, followed on success by the entry of `MoveCar`.
Inside `MoveCar` it is one pass of the loop or, once the car has arrived, the door
command of lines 302-319; the wait for the door to close is taken to end. -/
def taskPhysics.step (fl sqrtf : ℚ → ℚ) (p : Physics) : Physics :=
  if p.moving = true then
    if p.car.cur_loc ≠ (p.car.requests.get p.car.dest).feet then
      { p with car := MoveCar.tick fl sqrtf p.car }
    else if p.car.emerg_stop_enabled = true ∧ p.car.cur_loc = p.car.requests.r0.feet then
      { car := { p.car with emerg_stop_enabled := false }
        moving := false
        door_rx := p.door_rx ++ [DOOR_MSG.STAY_OPEN] }
    else if p.car.emerg_stop_enabled = false then
      { p with moving := false, door_rx := p.door_rx ++ [DOOR_MSG.OPEN_CLOSE_SEQ] }
    else
      { p with moving := false }
  else
    if (UpdateDestination p.car).1 = true then
      { p with
        car := { (UpdateDestination p.car).2 with
          accel_up := (UpdateDestination p.car).2.going_up }
        moving := true }
    else
      { p with car := (UpdateDestination p.car).2 }

/-- What can happen between two delays of the physics task: a floor call
`SetRequest(floor, dir)` for one of the three stops, `SetEmergStopEnable()`,
`SetMaxSpeed(speed)`, `SetAccel(accel)`, or the task itself running to its next delay. -/
inductive PhysicsEvent where
  | call (floor : Fin 3) (dir : DIR)
  | emergStop
  | maxSpeed (speed : ℚ)
  | accel (new_accel : ℚ)
  | run
deriving DecidableEq, Repr

/-- The effect of one event. -/
def PhysicsEvent.apply (fl sqrtf : ℚ → ℚ) (e : PhysicsEvent) (p : Physics) : Physics :=
  match e with
  | .call floor dir => { p with car := SetRequest floor.castSucc dir p.car }
  | .emergStop => { p with car := SetEmergStopEnable p.car }
  | .maxSpeed speed => { p with car := SetMaxSpeed speed p.car }
  | .accel new_accel => { p with car := SetAccel new_accel p.car }
  | .run => taskPhysics.step fl sqrtf p

/-- The physics task and its callers run over a list of events. -/
def taskPhysics.run (fl sqrtf : ℚ → ℚ) : List PhysicsEvent → Physics → Physics
  | [], p => p
  | e :: rest, p => taskPhysics.run fl sqrtf rest (e.apply fl sqrtf p)

/-- Integer square root, bit by bit from bit `k - 1` down: the largest `r` below `2 ^ k`
with `r * r ≤ n`. -/
def isqrtBits (n : Nat) : Nat → Nat → Nat
  | 0, r => r
  | k + 1, r => isqrtBits n k (if (r + 2 ^ k) * (r + 2 ^ k) ≤ n then r + 2 ^ k else r)

/-- A stand-in for the C library function `sqrtf`, for the statements that need one
concrete function: the square root cut off to a multiple of `2⁻²⁰`.  It is exact on the
square of every such multiple below `2 ^ 28`. -/
def sqrtfTrunc (x : ℚ) : ℚ :=
  (isqrtBits ((x * 2 ^ 40).num / (x * 2 ^ 40).den).toNat 48 0 : ℚ) / 2 ^ 20

/-! ## Single precision -/

/-- The position of the leading bit of `n`, looked for from bit `k` up and tried `fuel`
times: the least `j` from `k` on with `n < 2 ^ (j + 1)`. -/
def leadingBit (n : Nat) : Nat → Nat → Nat
  | 0, k => k
  | fuel + 1, k => if n < 2 ^ (k + 1) then k else leadingBit n fuel (k + 1)

/-- The scaling that brings the fraction `p / q` up to 1, looked for from `k` up and
tried `fuel` times: the least `j` from `k` on with `q ≤ p * 2 ^ j`. -/
def scaleUp (p q : Nat) : Nat → Nat → Nat
  | 0, k => k
  | fuel + 1, k => if q ≤ p * 2 ^ k then k else scaleUp p q fuel (k + 1)

/-- The fraction `p / q` rounded to the nearest number with 24 significant bits, ties
to the even one.  With `2 ^ e` the power of two at or below the fraction from 1 up and
`2 ^ (-k)` the one below 1, the fraction is scaled by `2 ^ (23 + k - e)` into
`[2 ^ 23, 2 ^ 24)`, cut off to the integer `n` with remainder `t`, moved up by one when
the remainder is above the half, or equal to it with `n` odd, and scaled back.  The
searches for `e` and `k` are bounded by the numbers themselves, which never binds: the
exponent is not bounded, and overflow and underflow of `float` are not modelled. -/
def round24 (p q : Nat) : ℚ :=
  let e := leadingBit (p / q) (p / q) 0
  let k := scaleUp p q q 0
  let n := p * 2 ^ (23 + k) / (q * 2 ^ e)
  let t := p * 2 ^ (23 + k) % (q * 2 ^ e)
  let m := if q * 2 ^ e < 2 * t ∨ (2 * t = q * 2 ^ e ∧ n % 2 = 1) then n + 1 else n
  mkRat ((m * 2 ^ e : ℕ) : ℤ) (2 ^ (23 + k))

/-- Rounding to single precision, to nearest and ties to even: the magnitude is rounded
by `round24` and the sign is kept. -/
def fl32 (x : ℚ) : ℚ :=
  if x.num < 0 then -round24 x.num.natAbs x.den else round24 x.num.natAbs x.den

/-- The square root rounded to the nearest number with 24 significant bits, which is
what IEEE 754 asks of the single-precision `sqrtf`, for an argument that is a positive
`float`: the argument is scaled by a power of 4 into `[2 ^ 46, 2 ^ 48)`, the integer
root of its integer part is taken and moved up by one when the root lies above the half,
and the result is scaled back.  It is 0 for an argument that is not positive. -/
def sqrtfNearest (x : ℚ) : ℚ :=
  let p := x.num.toNat
  let q := x.den
  let e := leadingBit (p / q) 127 0 / 2
  let k := (scaleUp p q 149 0 + 1) / 2
  let n := p * 4 ^ (23 + k) / (q * 4 ^ e)
  let r := isqrtBits n 24 0
  mkRat (((if r * r + r < n then r + 1 else r) * 2 ^ e : ℕ) : ℤ) (2 ^ (23 + k))

/-! ## btndrv.c and clidrv.c : the handlers that reach the car and the door -/

/-- What a handler hands to the rest of the system: the commands it posts on
`door_rx_queue` with `xQueueOverwrite`, in order, and the line of text it puts on
`tx_queue` or in the write buffer of the console. -/
structure Reply where
  door_posts : List DOOR_MSG
  line : String
deriving DecidableEq, Repr

/-- The block `// Open door inside car` of `taskButtons` (lines 118-128), run when
button SW4 is found pressed. -/
def taskButtons.openDoor (c : Car) : Reply :=
  if GetIsMoving c = false then
    { door_posts := [DOOR_MSG.OPEN_CLOSE_SEQ], line := "Door Opening\r\n" }
  else
    { door_posts := [], line := "Can\x27t open door while car is moving\r\n" }

/-- The console command `prvDoorInterferenceCommand` (clidrv.c, lines 169-187). -/
def prvDoorInterferenceCommand (c : Car) : Reply :=
  if GetIsMoving c = false then
    { door_posts := [DOOR_MSG.OPEN_CLOSE_SEQ], line := "Door Opening\r\n" }
  else
    { door_posts := [], line := "Can\x27t open door while car is moving\r\n" }

/-- The console command `prvSendToFloorCommand` (clidrv.c, lines 224-243); `floor` is
the integer read by `GetIntParam`.  Within the bounds tested, `requests[floor]` is slot
`floor`. -/
def prvSendToFloorCommand (floor : Int) (c : Car) : Car × String :=
  if 0 ≤ floor ∧ floor ≤ 2 then
    (if GetGoingUp c = true then SetRequest (Fin.ofNat floor.toNat) .UP c
      else SetRequest (Fin.ofNat floor.toNat) .DOWN c,
     "Floor Requested\r\n")
  else
    (c, "Floor number has to be between 0 and 2\r\n")

/-! ## A trip seen along its direction of travel -/

/-- The three quantities the loop of `MoveCar` works on when no emergency stop is on, in
arithmetic without rounding, measured along the direction of travel: the distance still to go (negative once the car
is past its destination), the speed, and whether the car is still in its acceleration
phase (`accel_up == going_up`). -/
structure Leg where
  dist : ℚ
  speed : ℚ
  speeding : Bool
deriving DecidableEq, Repr

/-- The leg a car is on. -/
def Car.leg (c : Car) : Leg :=
  { dist :=
      if c.going_up = true then (c.requests.get c.dest).feet - c.cur_loc
      else c.cur_loc - (c.requests.get c.dest).feet
    speed := c.cur_speed
    speeding := decide (c.going_up = c.accel_up) }

/-- The speed on a leg after the half step and the clamp, for acceleration `a` and
maximum speed `top`. -/
def Leg.v2 (a top : ℚ) (g : Leg) : ℚ :=
  if (if g.speeding = true then g.speed + a / 2 else g.speed - a / 2) > top then top
  else (if g.speeding = true then g.speed + a / 2 else g.speed - a / 2)

/-- The distance left on a leg after the half step and the correction. -/
def Leg.r2 (a top : ℚ) (g : Leg) : ℚ :=
  if g.v2 a top ≠ top then
    if g.speeding = true then g.dist - g.speed / 2 - 0.125 * a
    else g.dist - g.speed / 2 + 0.125 * a
  else g.dist - g.speed / 2

/-- Whether the speed has reached the deceleration threshold. -/
def Leg.over (sqrtf : ℚ → ℚ) (a top : ℚ) (g : Leg) : Bool :=
  decide (¬ 2 * a * g.r2 a top < 0 ∧ g.v2 a top ≥ sqrtf (2 * a * g.r2 a top))

/-- The speed on a leg after the correction for overshoot. -/
def Leg.v3 (sqrtf : ℚ → ℚ) (a top : ℚ) (g : Leg) : ℚ :=
  if g.over sqrtf a top = true then sqrtf (2 * a * g.r2 a top) else g.v2 a top

/-- Whether the pass ends the leg. -/
def Leg.arrived (sqrtf : ℚ → ℚ) (a top : ℚ) (g : Leg) : Bool :=
  decide (g.v3 sqrtf a top ≤ 0 ∨ g.r2 a top ≤ 0)

/-- What `MoveCar.advance` does to the leg of a car with acceleration `a` and maximum
speed `top`. -/
def Leg.tick (sqrtf : ℚ → ℚ) (a top : ℚ) (g : Leg) : Leg :=
  { dist := if g.arrived sqrtf a top = true then 0 else g.r2 a top
    speed := if g.arrived sqrtf a top = true then 0 else g.v3 sqrtf a top
    speeding := g.speeding && !g.over sqrtf a top }

/-- A bound on the passes of the loop still to come on a leg, for positive `a` and
`top`: while speeding, the passes needed to cover the distance at the least speed
`min (a / 2) top`, one more from a slower start, and the passes a full deceleration
takes; while slowing, the passes until the speed is used up. -/
def Leg.ticksLeft (a top : ℚ) (g : Leg) : Nat :=
  if g.speeding = true then
    ⌈2 * g.dist / min (a / 2) top⌉₊ + ⌈2 * top / a⌉₊ + 2 +
      (if g.speed < min (a / 2) top then 1 else 0)
  else ⌈2 * g.speed / a⌉₊

/-- A bound on the passes of the loop still to come in single precision, for an
acceleration and a maximum speed of 1/1000 at least: the distance still to go along the
direction of travel in units of 2⁻¹⁵ ft, rounded up, and four more while the car, in
its acceleration phase, is slower than 1/2001. -/
def MoveCar.passesLeft (c : Car) : Nat :=
  ⌈(if c.going_up = true then (c.requests.get c.dest).feet - c.cur_loc
      else c.cur_loc - (c.requests.get c.dest).feet) * 32768⌉₊ +
    (if c.accel_up = c.going_up ∧ c.cur_speed < 1 / 2001 then 4 else 0)

/-! ## Concrete trips used as test points -/

/-- The physics task after a call for the mid stop and one run: the car stands at the
ground stop, inside `MoveCar`, bound for the mid stop. -/
def Physics.boundForMid : Physics :=
  taskPhysics.run fl32 sqrtfNearest [.call 1 .UP, .run] Physics.startup

/-- The same trip after `SetMaxSpeed(-5)`. -/
def Physics.negativeTop : Physics :=
  taskPhysics.run fl32 sqrtfNearest [.call 1 .UP, .run, .maxSpeed (-5)] Physics.startup

/-- A trip to the top stop with `SetMaxSpeed(2000)` and `SetAccel(1600)` before its
first pass, then `SetAccel(100)` and an emergency stop before its second. -/
def fastThenEmergency : List PhysicsEvent :=
  [.call 2 .DOWN, .run, .maxSpeed 2000, .accel 1600, .run, .accel 100, .emergStop]

/-- A car at the ground stop, heading up, whose mid stop is already called Up. -/
def Car.midAlreadyCalled : Car := SetRequest 1 .UP Car.startup

/-- The same trip after `SetAccel(5.4)` at rest, the argument rounded to single
precision as `strtof` does: the call, the arbitration that starts the trip, 21 passes
of the loop of `MoveCar`, an emergency stop, and the 18 passes that follow. -/
def slowThenEmergency : List PhysicsEvent :=
  .accel (fl32 (27 / 5)) :: .call 2 .DOWN :: .run ::
    (List.replicate 21 .run ++ .emergStop :: List.replicate 18 .run)

/-- A car at rest at stop `src` with the default settings, inside `MoveCar` and bound for
stop `dst`, heading up when `dst` is the higher of the two. -/
def Car.trip (src dst : Fin 3) : Car :=
  { Car.startup with
    cur_loc := (Elevator.requests.get src.castSucc).feet
    dest := dst.castSucc
    going_up := decide (src < dst) }

/-- A car at rest at the mid stop, bound for the top stop, after `SetMaxSpeed(2⁻¹⁶)`. -/
def Car.creeping : Car :=
  { Car.trip 1 2 with max_speed := 1 / 65536 }

/-- An emergency stop on the way to the top stop at the default settings: the call, the
arbitration that starts the trip, three passes of the loop of `MoveCar`, the emergency
stop, and ten more runs of the physics task. -/
def emergencyAtDefault : List PhysicsEvent :=
  .call 2 .DOWN :: .run :: .run :: .run :: .run :: .emergStop :: List.replicate 10 .run

/-- The four positions of the table lie in the shaft: the three stops are in place and
the stopping point of slot 3 lies between the ground and the top stop. -/
def RequestTable.inShaft (t : RequestTable) : Prop :=
  t.stopsInPlace ∧ 0 ≤ t.r3.feet ∧ t.r3.feet ≤ 510

/-- What is asked of a pass of the loop of `MoveCar` started at `c`: if the pass observes
the emergency stop while the car is heading up, the divisor of line 112 is not 0 and the
stopping point that line stores lies between the ground and the top stop. -/
def MoveCar.stopInShaft (fl : ℚ → ℚ) (c : Car) : Bool :=
  decide (c.emerg_stop_enabled = true ∧ c.going_up = true →
    fl (2 * c.accel) ≠ 0 ∧ 0 ≤ (MoveCar.retarget fl c).requests.r3.feet ∧
      (MoveCar.retarget fl c).requests.r3.feet ≤ 510)

/-- Every pass of the loop of `MoveCar` made during the events, from `p` on, meets
`MoveCar.stopInShaft`. -/
def taskPhysics.stopsInShaft (fl sqrtf : ℚ → ℚ) : List PhysicsEvent → Physics → Bool
  | [], _ => true
  | e :: rest, p =>
    (if e = .run ∧ p.moving = true ∧
        p.car.cur_loc ≠ (p.car.requests.get p.car.dest).feet then
      MoveCar.stopInShaft fl p.car else true) &&
    taskPhysics.stopsInShaft fl sqrtf rest (e.apply fl sqrtf p)

/-- The car has not left the shaft at the end it is heading for: the positions of the
table lie in the shaft, a car heading up is at or below the top stop, a car heading down
is at or above the ground stop, and a car outside the loop of `MoveCar` lies between the
two. -/
def Physics.inShaft (p : Physics) : Prop :=
  p.car.requests.inShaft ∧
  (p.car.going_up = true → p.car.cur_loc ≤ 510) ∧
  (p.car.going_up = false → 0 ≤ p.car.cur_loc) ∧
  (p.moving = false → 0 ≤ p.car.cur_loc ∧ p.car.cur_loc ≤ 510)

/-- The second part of a pass, with the rounding `fl`, keeps a car that is bound for a
position in the shaft and moves at a speed that is not negative between the ground and
the top stop. -/
def MoveCar.keepsInShaft (fl sqrtf : ℚ → ℚ) : Prop :=
  ∀ c : Car, 0 ≤ c.cur_loc → c.cur_loc ≤ 510 → 0 ≤ c.cur_speed →
    0 ≤ (c.requests.get c.dest).feet → (c.requests.get c.dest).feet ≤ 510 →
    0 ≤ (MoveCar.advance fl sqrtf c).cur_loc ∧ (MoveCar.advance fl sqrtf c).cur_loc ≤ 510

/-- The car is where the shaft is: the positions of the table lie in the shaft, the
position of the car lies between the ground and the top stop, and the speed is not
negative. -/
def Car.inShaft (c : Car) : Prop :=
  c.requests.inShaft ∧ 0 ≤ c.cur_loc ∧ c.cur_loc ≤ 510 ∧ 0 ≤ c.cur_speed

/-! ## btndrv.c and clidrv.c : the floor calls -/

/-- The function `SendToFloor(floor)` of `btndrv.c` (lines 74-80). -/
def SendToFloor (floor : Fin 4) (c : Car) : Car :=
  if GetGoingUp c = true then SetRequest floor .UP c else SetRequest floor .DOWN c

/-- The console command `prvGDCallCommand` (clidrv.c, lines 79-88): the globals of
`physics.c` afterwards and the line written to the console. -/
def prvGDCallCommand (c : Car) : Car × String :=
  (SetRequest 0 .UP c, "Floor GD Requested\r\n")

/-- The console command `prvP1DNCallCommand` (clidrv.c, lines 93-102). -/
def prvP1DNCallCommand (c : Car) : Car × String :=
  (SetRequest 1 .DOWN c, "Floor P1 DN Requested\r\n")

/-- The console command `prvP1UPCallCommand` (clidrv.c, lines 107-116). -/
def prvP1UPCallCommand (c : Car) : Car × String :=
  (SetRequest 1 .UP c, "Floor P1 UP Requested\r\n")

/-- The console command `prvP2CallCommand` (clidrv.c, lines 121-130). -/
def prvP2CallCommand (c : Car) : Car × String :=
  (SetRequest 2 .DOWN c, "Floor P2 Requested\r\n")

/-- What reaches the request table: the four call commands of the console, its
send-to-floor command with the integer it was given, the three floor buttons of the car
(`SW1` is P2, `SW2` is P1, `SW3` is GD; `taskButtons`, lines 91-114), a call of
`UpdateDestination`, and a pass of the loop of `MoveCar`. -/
inductive CallEvent where
  | GDCall
  | P1DNCall
  | P1UPCall
  | P2Call
  | sendToFloor (floor : Int)
  | SW1
  | SW2
  | SW3
  | arbitrate
  | pass
deriving DecidableEq, Repr

/-- The effect of one event on the globals of `physics.c`. -/
def CallEvent.apply (fl sqrtf : ℚ → ℚ) (e : CallEvent) (c : Car) : Car :=
  match e with
  | .GDCall => (prvGDCallCommand c).1
  | .P1DNCall => (prvP1DNCallCommand c).1
  | .P1UPCall => (prvP1UPCallCommand c).1
  | .P2Call => (prvP2CallCommand c).1
  | .sendToFloor floor => (prvSendToFloorCommand floor c).1
  | .SW1 => SendToFloor 2 c
  | .SW2 => SendToFloor 1 c
  | .SW3 => SendToFloor 0 c
  | .arbitrate => (UpdateDestination c).2
  | .pass => MoveCar.tick fl sqrtf c

/-- The globals of `physics.c` after a list of events. -/
def CallEvent.run (fl sqrtf : ℚ → ℚ) : List CallEvent → Car → Car
  | [], c => c
  | e :: rest, c => CallEvent.run fl sqrtf rest (e.apply fl sqrtf c)

/-- A record requested with the direction opposite to `dir`: the case in which
`SetRequest` stores `EITHER`. -/
def FloorRequest.opposes (r : FloorRequest) (dir : DIR) : Prop :=
  r.isRequested = true ∧ ((r.dir = .UP ∧ dir = .DOWN) ∨ (r.dir = .DOWN ∧ dir = .UP))

/-- Opposition of a record and a direction is decided field by field. -/
instance FloorRequest.decOpposes (r : FloorRequest) (dir : DIR) : Decidable (r.opposes dir) :=
  inferInstanceAs (Decidable (r.isRequested = true ∧
    ((r.dir = .UP ∧ dir = .DOWN) ∨ (r.dir = .DOWN ∧ dir = .UP))))

/-- The call `SetRequest(i, dir)` that an event makes, if it makes one: the call
commands of the console with their fixed slots and tags, the send-to-floor command and
the floor buttons with the heading of the car for a tag. -/
def CallEvent.request (e : CallEvent) (c : Car) : Option (Fin 4 × DIR) :=
  match e with
  | .GDCall => some (0, .UP)
  | .P1DNCall => some (1, .DOWN)
  | .P1UPCall => some (1, .UP)
  | .P2Call => some (2, .DOWN)
  | .sendToFloor floor =>
    if 0 ≤ floor ∧ floor ≤ 2 then
      some (Fin.ofNat floor.toNat, if GetGoingUp c = true then .UP else .DOWN)
    else none
  | .SW1 => some (2, if GetGoingUp c = true then .UP else .DOWN)
  | .SW2 => some (1, if GetGoingUp c = true then .UP else .DOWN)
  | .SW3 => some (0, if GetGoingUp c = true then .UP else .DOWN)
  | .arbitrate => none
  | .pass => none

/-- The event is a floor call for the ground stop or for the top stop, made while the
record of that stop is requested with the opposite tag. -/
def CallEvent.clashes (e : CallEvent) (c : Car) : Bool :=
  match e.request c with
  | some (i, dir) => decide ((i = 0 ∨ i = 2) ∧ (c.requests.get i).opposes dir)
  | none => false

/-- No event of the list clashes, each taken in the state that the events before it
leave. -/
def CallEvent.noClash (fl sqrtf : ℚ → ℚ) : List CallEvent → Car → Bool
  | [], _ => true
  | e :: rest, c => !e.clashes c && CallEvent.noClash fl sqrtf rest (e.apply fl sqrtf c)

/-! ## Vocabulary for the lamps of the door -/

/-- The three door lamps, `LED1` first. -/
def Door.lamps (d : Door) : Bool × Bool × Bool :=
  (d.led1, d.led2, d.led3)

/-- The lamp table of the specification: the pattern for each of the phases 0 to 4, and
none for any other number. -/
def lampsFor : Nat → Option (Bool × Bool × Bool)
  | 0 => some (true, true, true)
  | 1 => some (true, true, false)
  | 2 => some (true, false, false)
  | 3 => some (false, false, false)
  | 4 => some (false, false, false)
  | _ => none

/-- What holds of the lamps between two receives: they show the pattern of the current
phase, and phase 4 is due next only from phase 3. -/
def Door.lampsInv (d : Door) : Prop :=
  lampsFor d.cur_state = some d.lamps ∧ (d.next_state = 4 → d.cur_state = 3)

/-- The condition of line 80 under which `next_state += 2` runs when `OPEN_CLOSE_SEQ`
is drained. -/
def Door.reverses (d : Door) : Prop :=
  d.opening = false ∧ 1 ≤ d.cur_state ∧ d.cur_state ≤ 3 ∧ d.stay_opened = false

/-- The condition of line 80 is decided field by field. -/
instance Door.decReverses (d : Door) : Decidable d.reverses :=
  inferInstanceAs (Decidable (d.opening = false ∧ 1 ≤ d.cur_state ∧ d.cur_state ≤ 3 ∧
    d.stay_opened = false))

/-- A door closing from phase 3 after the pause: `OPEN_CLOSE_SEQ` and six iterations
with nothing drained, the last of them in phase 3 on the way down. -/
def Door.closingFromOpen : Door :=
  taskDoor.run (some .OPEN_CLOSE_SEQ :: List.replicate 6 none) Door.startup

/-! # Properties -/

/-! ## Frame lemmas for the three blocks of `UpdateDestination` -/

@[simp]
theorem direction_requests (c : Car) :
    (UpdateDestination.direction c).requests = c.requests := by
  unfold UpdateDestination.direction
  split_ifs <;> rfl

@[simp]
theorem direction_cur_loc (c : Car) :
    (UpdateDestination.direction c).cur_loc = c.cur_loc := by
  unfold UpdateDestination.direction
  split_ifs <;> rfl

@[simp]
theorem direction_dest (c : Car) :
    (UpdateDestination.direction c).dest = c.dest := by
  unfold UpdateDestination.direction
  split_ifs <;> rfl

@[simp]
theorem direction_emerg (c : Car) :
    (UpdateDestination.direction c).emerg_stop_enabled = c.emerg_stop_enabled := by
  unfold UpdateDestination.direction
  split_ifs <;> rfl

@[simp]
theorem leds_requests (c : Car) :
    (UpdateDestination.leds c).requests = c.requests := by
  unfold UpdateDestination.leds
  split_ifs <;> rfl

@[simp]
theorem leds_dest (c : Car) : (UpdateDestination.leds c).dest = c.dest := by
  unfold UpdateDestination.leds
  split_ifs <;> rfl

@[simp]
theorem leds_going_up (c : Car) :
    (UpdateDestination.leds c).going_up = c.going_up := by
  unfold UpdateDestination.leds
  split_ifs <;> rfl

@[simp]
theorem leds_cur_loc (c : Car) :
    (UpdateDestination.leds c).cur_loc = c.cur_loc := by
  unfold UpdateDestination.leds
  split_ifs <;> rfl

@[simp]
theorem leds_emerg (c : Car) :
    (UpdateDestination.leds c).emerg_stop_enabled = c.emerg_stop_enabled := by
  unfold UpdateDestination.leds
  split_ifs <;> rfl

/-- With the emergency stop set the scan is the override of lines 195-201. -/
theorem select_emergency (c : Car) (h : c.emerg_stop_enabled = true) :
    UpdateDestination.select c = (true, { c.serve 0 with going_up := false }) := by
  unfold UpdateDestination.select
  simp [h]

/-- With the emergency stop clear the scan is one of the four branch lists, chosen by
`going_up` and the position of the car, or finds the car at none of the positions it
tests. -/
theorem select_cases (c : Car) (h : c.emerg_stop_enabled = false) :
    (c.going_up = true ∧ c.cur_loc = c.requests.r0.feet ∧
      UpdateDestination.select c = UpdateDestination.upFromGround c) ∨
    (c.going_up = true ∧ c.cur_loc ≠ c.requests.r0.feet ∧ c.cur_loc = c.requests.r1.feet ∧
      UpdateDestination.select c = UpdateDestination.upFromMid c) ∨
    (c.going_up = false ∧ c.cur_loc = c.requests.r1.feet ∧
      UpdateDestination.select c = UpdateDestination.downFromMid c) ∨
    (c.going_up = false ∧ c.cur_loc ≠ c.requests.r1.feet ∧ c.cur_loc = c.requests.r2.feet ∧
      UpdateDestination.select c = UpdateDestination.downFromTop c) ∨
    UpdateDestination.select c = (false, c) := by
  unfold UpdateDestination.select
  rw [if_neg (by simp [h])]
  cases hg : c.going_up <;> split_ifs <;> simp_all

/-- With the emergency stop clear the scan is the choice among the branch lists. -/
theorem select_clear (c : Car) (h : c.emerg_stop_enabled = false) :
    UpdateDestination.select c =
      if c.going_up = true then
        if c.cur_loc = c.requests.r0.feet then UpdateDestination.upFromGround c
        else if c.cur_loc = c.requests.r1.feet then UpdateDestination.upFromMid c
        else (false, c)
      else
        if c.cur_loc = c.requests.r1.feet then UpdateDestination.downFromMid c
        else if c.cur_loc = c.requests.r2.feet then UpdateDestination.downFromTop c
        else (false, c) := by
  unfold UpdateDestination.select
  rw [if_neg (by simp [h])]

/-- The direction block only writes `going_up`. -/
theorem direction_eq (c : Car) :
    UpdateDestination.direction c =
      { c with going_up := (UpdateDestination.direction c).going_up } := by
  unfold UpdateDestination.direction
  split_ifs <;> rfl

/-- At the position of slot 0 the direction block sets `going_up`. -/
theorem direction_going_up_ground (c : Car) (h0 : c.cur_loc = c.requests.r0.feet) :
    (UpdateDestination.direction c).going_up = true := by
  unfold UpdateDestination.direction
  rw [if_pos h0]

/-- At the position of slot 2, and of no other slot, the direction block clears
`going_up`. -/
theorem direction_going_up_top (c : Car) (h0 : c.cur_loc ≠ c.requests.r0.feet)
    (h1 : c.cur_loc ≠ c.requests.r1.feet) (h2 : c.cur_loc = c.requests.r2.feet) :
    (UpdateDestination.direction c).going_up = false := by
  unfold UpdateDestination.direction
  rw [if_neg h0, if_neg (fun h => h1 h.1), if_neg (fun h => h1 h.1), if_pos h2]

/-- With the emergency stop clear, a successful scan points `dest` at a record that was
requested. -/
theorem select_requested (c : Car) (h : c.emerg_stop_enabled = false)
    (hu : (UpdateDestination.select c).1 = true) :
    (c.requests.get (UpdateDestination.select c).2.dest).isRequested = true := by
  rcases select_cases c h with ⟨-, -, hs⟩ | ⟨-, -, -, hs⟩ | ⟨-, -, hs⟩ | ⟨-, -, -, hs⟩ | hs <;>
    rw [hs] at hu ⊢ <;>
    obtain ⟨loc, dest, sp, ms, ac, gu, au, es,
      ⟨⟨q0, d0, f0, a0⟩, ⟨q1, d1, f1, a1⟩, ⟨q2, d2, f2, a2⟩, r3⟩, b4, b5⟩ := c <;>
    cases q0 <;> cases q1 <;> cases q2 <;> cases d1 <;>
    simp [UpdateDestination.upFromGround, UpdateDestination.upFromMid,
      UpdateDestination.downFromMid, UpdateDestination.downFromTop, Car.serve, Car.retag,
      RequestTable.get, RequestTable.set] at hu ⊢

/-- With the emergency stop clear, a successful scan writes one field of the table: the
tag of slot 1 on an Either branch, the flag of the selected slot otherwise. -/
theorem select_table_effect (c : Car) (h : c.emerg_stop_enabled = false)
    (hu : (UpdateDestination.select c).1 = true) :
    ((UpdateDestination.select c).2.dest = 1 ∧ c.requests.r1.dir = .EITHER →
      c.requests.r1.isRequested = true ∧
      (UpdateDestination.select c).2.going_up = c.going_up ∧
      (UpdateDestination.select c).2.requests =
        { c.requests with
          r1 := { c.requests.r1 with dir := if c.going_up = true then .DOWN else .UP } }) ∧
    (¬ ((UpdateDestination.select c).2.dest = 1 ∧ c.requests.r1.dir = .EITHER) →
      (c.requests.get (UpdateDestination.select c).2.dest).isRequested = true ∧
      (UpdateDestination.select c).2.requests =
        c.requests.set (UpdateDestination.select c).2.dest
          { c.requests.get (UpdateDestination.select c).2.dest with
            isRequested := false }) := by
  rcases select_cases c h with ⟨hg, -, hs⟩ | ⟨hg, -, -, hs⟩ | ⟨hg, -, hs⟩ | ⟨hg, -, -, hs⟩ | hs <;>
    rw [hs] at hu ⊢ <;>
    obtain ⟨loc, dest, sp, ms, ac, gu, au, es,
      ⟨⟨q0, d0, f0, a0⟩, ⟨q1, d1, f1, a1⟩, ⟨q2, d2, f2, a2⟩, r3⟩, b4, b5⟩ := c <;>
    cases q0 <;> cases q1 <;> cases q2 <;> cases d1 <;>
    simp_all [UpdateDestination.upFromGround, UpdateDestination.upFromMid,
      UpdateDestination.downFromMid, UpdateDestination.downFromTop, Car.serve, Car.retag,
      RequestTable.get, RequestTable.set]

/-! ## Emergency override -/

/-- C1: when `emerg_stop_enabled` is set, `UpdateDestination` returns true, points the
destination at slot 0, leaves slot 0 not requested with `going_up` false, and does not
touch slots 1, 2 and 3 (nor the direction of slot 0), whatever calls are pending. -/
theorem UpdateDestination_emergency (c : Car) (h : c.emerg_stop_enabled = true) :
    (UpdateDestination c).1 = true ∧
    (UpdateDestination c).2.dest = 0 ∧
    (UpdateDestination c).2.requests.r0.isRequested = false ∧
    (UpdateDestination c).2.going_up = false ∧
    (UpdateDestination c).2.requests.r0.dir = c.requests.r0.dir ∧
    (UpdateDestination c).2.requests.r1 = c.requests.r1 ∧
    (UpdateDestination c).2.requests.r2 = c.requests.r2 ∧
    (UpdateDestination c).2.requests.r3 = c.requests.r3 := by
  have hd : (UpdateDestination.direction c).emerg_stop_enabled = true := by simpa using h
  simp [UpdateDestination, select_emergency _ hd, Car.serve, RequestTable.set,
    RequestTable.get]

/-- Witness for C1: the override at a car stopped at the mid stop with two calls
pending. -/
theorem UpdateDestination_emergency_witness :
    Car.emergencyAtMid.emerg_stop_enabled = true ∧
    ((UpdateDestination Car.emergencyAtMid).1 = true ∧
    (UpdateDestination Car.emergencyAtMid).2.dest = 0 ∧
    (UpdateDestination Car.emergencyAtMid).2.requests.r0.isRequested = false ∧
    (UpdateDestination Car.emergencyAtMid).2.going_up = false ∧
    (UpdateDestination Car.emergencyAtMid).2.requests.r0.dir =
      Car.emergencyAtMid.requests.r0.dir ∧
    (UpdateDestination Car.emergencyAtMid).2.requests.r1 = Car.emergencyAtMid.requests.r1 ∧
    (UpdateDestination Car.emergencyAtMid).2.requests.r2 = Car.emergencyAtMid.requests.r2 ∧
    (UpdateDestination Car.emergencyAtMid).2.requests.r3 =
      Car.emergencyAtMid.requests.r3) :=
  ⟨rfl, UpdateDestination_emergency Car.emergencyAtMid rfl⟩

/-! ## Only requested records are selected -/

/-- C2, as stated, fails: with the emergency stop set and no call pending,
`UpdateDestination` returns true and selects slot 0, whose `isRequested` was false. -/
theorem UpdateDestination_emergency_selects_unrequested :
    (UpdateDestination Car.emergencyIdle).1 = true ∧
    (Car.emergencyIdle.requests.get (UpdateDestination Car.emergencyIdle).2.dest).isRequested
      = false := by
  decide

/-- C2 (amended): with `emerg_stop_enabled` clear, whenever `UpdateDestination` returns
true the record it points `dest` at had `isRequested` set before the call. -/
theorem UpdateDestination_selects_requested (c : Car) (h : c.emerg_stop_enabled = false)
    (hu : (UpdateDestination c).1 = true) :
    (c.requests.get (UpdateDestination c).2.dest).isRequested = true := by
  have hd : (UpdateDestination.direction c).emerg_stop_enabled = false := by simpa using h
  have hs := select_requested _ hd hu
  simpa [UpdateDestination] using hs

/-- Witness for C2 (amended): the startup car with a call pending for the mid stop. -/
theorem UpdateDestination_selects_requested_witness :
    Car.groundCallMidUp.emerg_stop_enabled = false ∧
    (UpdateDestination Car.groundCallMidUp).1 = true ∧
    (Car.groundCallMidUp.requests.get
      (UpdateDestination Car.groundCallMidUp).2.dest).isRequested = true :=
  ⟨rfl, by decide, UpdateDestination_selects_requested Car.groundCallMidUp rfl (by decide)⟩

/-! ## The scan order at the ground stop -/

/-- C3: with `emerg_stop_enabled` clear and the car at the ground stop,
`UpdateDestination` succeeds exactly when some entry of the ordered list
`groundScanOrder` is satisfied, and then points `dest` at the slot of the first
satisfied entry; when no entry is satisfied `dest` keeps its value. -/
theorem UpdateDestination_ground_scan (c : Car) (h : c.emerg_stop_enabled = false)
    (h0 : c.cur_loc = c.requests.r0.feet) :
    (UpdateDestination c).1 = (firstSatisfied (groundScanOrder c.requests)).isSome ∧
    (UpdateDestination c).2.dest =
      (firstSatisfied (groundScanOrder c.requests)).getD c.dest := by
  have hs : UpdateDestination.select (UpdateDestination.direction c) =
      UpdateDestination.upFromGround (UpdateDestination.direction c) := by
    unfold UpdateDestination.select
    rw [if_neg (by simp [h]), if_pos (direction_going_up_ground c h0),
      if_pos (by simpa using h0)]
  unfold UpdateDestination
  rw [hs, direction_eq c]
  generalize (UpdateDestination.direction c).going_up = g
  obtain ⟨loc, dest, sp, ms, ac, gu, au, es,
    ⟨⟨q0, d0, f0, a0⟩, ⟨q1, d1, f1, a1⟩, ⟨q2, d2, f2, a2⟩, r3⟩, b4, b5⟩ := c
  cases q0 <;> cases q1 <;> cases q2 <;> cases d1 <;>
    simp [UpdateDestination.upFromGround, Car.serve, Car.retag, firstSatisfied,
      groundScanOrder]

/-- Witness for C3: at the ground stop with the mid stop called Down and no other call,
the last entry of the list is the first satisfied one. -/
theorem UpdateDestination_ground_scan_witness :
    Car.groundCallMidDown.emerg_stop_enabled = false ∧
    Car.groundCallMidDown.cur_loc = Car.groundCallMidDown.requests.r0.feet ∧
    (UpdateDestination Car.groundCallMidDown).1 =
      (firstSatisfied (groundScanOrder Car.groundCallMidDown.requests)).isSome ∧
    (UpdateDestination Car.groundCallMidDown).2.dest =
      (firstSatisfied (groundScanOrder Car.groundCallMidDown.requests)).getD
        Car.groundCallMidDown.dest :=
  ⟨rfl, rfl, UpdateDestination_ground_scan Car.groundCallMidDown rfl rfl⟩

/-! ## What a successful arbitration writes -/

/-- C4: with `emerg_stop_enabled` clear, a successful `UpdateDestination` writes exactly
one field of the request table.  On an Either branch (slot 1 selected while tagged
Either) the tag of slot 1 becomes Down when scanning upward and Up when scanning
downward, its flag stays set, and nothing else changes.  On every other branch the flag
of the selected slot goes from true to false and nothing else changes. -/
theorem UpdateDestination_table_effect (c : Car) (h : c.emerg_stop_enabled = false)
    (hu : (UpdateDestination c).1 = true) :
    ((UpdateDestination c).2.dest = 1 ∧ c.requests.r1.dir = .EITHER →
      c.requests.r1.isRequested = true ∧
      (UpdateDestination c).2.requests =
        { c.requests with
          r1 := { c.requests.r1 with
            dir := if (UpdateDestination.direction c).going_up = true then .DOWN
              else .UP } }) ∧
    (¬ ((UpdateDestination c).2.dest = 1 ∧ c.requests.r1.dir = .EITHER) →
      (c.requests.get (UpdateDestination c).2.dest).isRequested = true ∧
      (UpdateDestination c).2.requests =
        c.requests.set (UpdateDestination c).2.dest
          { c.requests.get (UpdateDestination c).2.dest with isRequested := false }) := by
  have hd : (UpdateDestination.direction c).emerg_stop_enabled = false := by simpa using h
  have hs := select_table_effect _ hd hu
  simp only [direction_requests] at hs
  simp only [UpdateDestination, leds_dest, leds_requests]
  exact ⟨fun hx => ⟨(hs.1 hx).1, (hs.1 hx).2.2⟩, hs.2⟩

/-- Witness for C4: the mid stop called in both directions, car at the ground stop. -/
theorem UpdateDestination_table_effect_witness :
    Car.groundCallMidEither.emerg_stop_enabled = false ∧
    (UpdateDestination Car.groundCallMidEither).1 = true ∧
    (((UpdateDestination Car.groundCallMidEither).2.dest = 1 ∧
        Car.groundCallMidEither.requests.r1.dir = .EITHER →
      Car.groundCallMidEither.requests.r1.isRequested = true ∧
      (UpdateDestination Car.groundCallMidEither).2.requests =
        { Car.groundCallMidEither.requests with
          r1 := { Car.groundCallMidEither.requests.r1 with
            dir := if (UpdateDestination.direction Car.groundCallMidEither).going_up = true
              then .DOWN else .UP } }) ∧
    (¬ ((UpdateDestination Car.groundCallMidEither).2.dest = 1 ∧
        Car.groundCallMidEither.requests.r1.dir = .EITHER) →
      (Car.groundCallMidEither.requests.get
        (UpdateDestination Car.groundCallMidEither).2.dest).isRequested = true ∧
      (UpdateDestination Car.groundCallMidEither).2.requests =
        Car.groundCallMidEither.requests.set (UpdateDestination Car.groundCallMidEither).2.dest
          { Car.groundCallMidEither.requests.get
              (UpdateDestination Car.groundCallMidEither).2.dest with
            isRequested := false })) :=
  ⟨rfl, by decide, UpdateDestination_table_effect Car.groundCallMidEither rfl (by decide)⟩

/-! ## Success and failure of arbitration -/

/-- With the emergency stop clear and the car at a real stop, the scan that follows the
direction block runs one of the four branch lists. -/
theorem select_direction_atStop (c : Car) (h : c.emerg_stop_enabled = false)
    (hs : c.atStop) :
    UpdateDestination.select (UpdateDestination.direction c) =
        UpdateDestination.upFromGround (UpdateDestination.direction c) ∨
    UpdateDestination.select (UpdateDestination.direction c) =
        UpdateDestination.upFromMid (UpdateDestination.direction c) ∨
    UpdateDestination.select (UpdateDestination.direction c) =
        UpdateDestination.downFromMid (UpdateDestination.direction c) ∨
    UpdateDestination.select (UpdateDestination.direction c) =
        UpdateDestination.downFromTop (UpdateDestination.direction c) := by
  unfold UpdateDestination.select
  rw [if_neg (by simp [h])]
  simp only [direction_cur_loc, direction_requests]
  by_cases h0 : c.cur_loc = c.requests.r0.feet
  · rw [if_pos (direction_going_up_ground c h0), if_pos h0]
    exact Or.inl rfl
  · by_cases h1 : c.cur_loc = c.requests.r1.feet
    · by_cases hg : (UpdateDestination.direction c).going_up = true
      · rw [if_pos hg, if_neg h0, if_pos h1]
        exact Or.inr (Or.inl rfl)
      · rw [if_neg hg, if_pos h1]
        exact Or.inr (Or.inr (Or.inl rfl))
    · have h2 : c.cur_loc = c.requests.r2.feet := (hs.resolve_left h0).resolve_left h1
      rw [if_neg (by simp [direction_going_up_top c h0 h1 h2]), if_neg h1, if_pos h2]
      exact Or.inr (Or.inr (Or.inr rfl))

/-- Each branch list succeeds exactly when a call is pending at a real stop, and
otherwise returns the car as it found it. -/
theorem branch_lists_total (c : Car) (f : Car → Bool × Car)
    (hf : f = UpdateDestination.upFromGround ∨ f = UpdateDestination.upFromMid ∨
      f = UpdateDestination.downFromMid ∨ f = UpdateDestination.downFromTop) :
    (f c).1 = c.requests.anyRequested ∧ (c.requests.anyRequested = false → f c = (false, c)) := by
  obtain ⟨loc, dest, sp, ms, ac, gu, au, es,
    ⟨⟨q0, d0, f0, a0⟩, ⟨q1, d1, f1, a1⟩, ⟨q2, d2, f2, a2⟩, r3⟩, b4, b5⟩ := c
  rcases hf with rfl | rfl | rfl | rfl <;>
    cases q0 <;> cases q1 <;> cases q2 <;> cases d1 <;>
    simp [UpdateDestination.upFromGround, UpdateDestination.upFromMid,
      UpdateDestination.downFromMid, UpdateDestination.downFromTop,
      RequestTable.anyRequested]

/-- With the emergency stop clear and the car at a real stop, the scan that follows the
direction block succeeds exactly when a call is pending, and otherwise changes nothing. -/
theorem select_direction_total (c : Car) (h : c.emerg_stop_enabled = false)
    (hs : c.atStop) :
    (UpdateDestination.select (UpdateDestination.direction c)).1 =
        c.requests.anyRequested ∧
    (c.requests.anyRequested = false →
      UpdateDestination.select (UpdateDestination.direction c) =
        (false, UpdateDestination.direction c)) := by
  have ht := fun f hf => branch_lists_total (UpdateDestination.direction c) f hf
  simp only [direction_requests] at ht
  rcases select_direction_atStop c h hs with e | e | e | e <;> rw [e]
  · exact ht _ (Or.inl rfl)
  · exact ht _ (Or.inr (Or.inl rfl))
  · exact ht _ (Or.inr (Or.inr (Or.inl rfl)))
  · exact ht _ (Or.inr (Or.inr (Or.inr rfl)))

/-- A failed attempt leaves the destination, the table, the position and the emergency
flag as they were. -/
theorem failed_attempt (c : Car) (h : c.emerg_stop_enabled = false) (hs : c.atStop)
    (hn : c.requests.anyRequested = false) :
    (UpdateDestination c).1 = false ∧ (UpdateDestination c).2.dest = c.dest ∧
    (UpdateDestination c).2.requests = c.requests ∧
    (UpdateDestination c).2.emerg_stop_enabled = false ∧ (UpdateDestination c).2.atStop := by
  have e := (select_direction_total c h hs).2 hn
  unfold UpdateDestination
  rw [e]
  refine ⟨rfl, by simp, by simp, by simpa using h, ?_⟩
  unfold Car.atStop
  simpa using hs

/-- While no call is pending every further attempt fails and changes neither the
destination nor the table. -/
theorem attempts_fail (n : Nat) (c : Car) (h : c.emerg_stop_enabled = false)
    (hs : c.atStop) (hn : c.requests.anyRequested = false) :
    (UpdateDestination (UpdateDestination.attempts n c)).1 = false ∧
    (UpdateDestination (UpdateDestination.attempts n c)).2.dest = c.dest ∧
    (UpdateDestination (UpdateDestination.attempts n c)).2.requests = c.requests := by
  induction n generalizing c with
  | zero =>
    have hf := failed_attempt c h hs hn
    exact ⟨hf.1, hf.2.1, hf.2.2.1⟩
  | succ k ih =>
    have hf := failed_attempt c h hs hn
    have hk := ih (UpdateDestination c).2 hf.2.2.2.1 hf.2.2.2.2 (by rw [hf.2.2.1]; exact hn)
    rw [hf.2.1, hf.2.2.1] at hk
    exact hk

/-- C5: with `emerg_stop_enabled` clear and the car at one of the three real stops,
`UpdateDestination` returns true if and only if one of slots 0 to 2 is requested; when
none is, every one of any number of repeated attempts returns false and leaves the
destination and the whole request table unchanged. -/
theorem UpdateDestination_succeeds_iff_requested (c : Car)
    (h : c.emerg_stop_enabled = false) (hs : c.atStop) :
    ((UpdateDestination c).1 = true ↔ c.requests.anyRequested = true) ∧
    (c.requests.anyRequested = false → ∀ n : Nat,
      (UpdateDestination (UpdateDestination.attempts n c)).1 = false ∧
      (UpdateDestination (UpdateDestination.attempts n c)).2.dest = c.dest ∧
      (UpdateDestination (UpdateDestination.attempts n c)).2.requests = c.requests) := by
  refine ⟨?_, fun hn n => attempts_fail n c h hs hn⟩
  have e := (select_direction_total c h hs).1
  unfold UpdateDestination
  rw [e]

/-- Witness for C5: the idle car at the ground stop, `going_up` set, no call pending. -/
theorem UpdateDestination_succeeds_iff_requested_witness :
    Car.startup.emerg_stop_enabled = false ∧ Car.startup.atStop ∧
    (((UpdateDestination Car.startup).1 = true ↔
        Car.startup.requests.anyRequested = true) ∧
    (Car.startup.requests.anyRequested = false → ∀ n : Nat,
      (UpdateDestination (UpdateDestination.attempts n Car.startup)).1 = false ∧
      (UpdateDestination (UpdateDestination.attempts n Car.startup)).2.dest =
        Car.startup.dest ∧
      (UpdateDestination (UpdateDestination.attempts n Car.startup)).2.requests =
        Car.startup.requests)) :=
  ⟨rfl, Or.inl rfl, UpdateDestination_succeeds_iff_requested Car.startup rfl (Or.inl rfl)⟩

/-! ## The downward scan mirrors the upward scan -/

/-- The branch lists are mirror images of one another: the list run at the top stop on
the mirrored car is the list run at the ground stop, and the two lists of the mid stop
change places. -/
theorem branch_lists_mirror (c : Car) :
    UpdateDestination.downFromTop c.mirror =
      ((UpdateDestination.upFromGround c).1, (UpdateDestination.upFromGround c).2.mirror) ∧
    UpdateDestination.upFromGround c.mirror =
      ((UpdateDestination.downFromTop c).1, (UpdateDestination.downFromTop c).2.mirror) ∧
    UpdateDestination.downFromMid c.mirror =
      ((UpdateDestination.upFromMid c).1, (UpdateDestination.upFromMid c).2.mirror) ∧
    UpdateDestination.upFromMid c.mirror =
      ((UpdateDestination.downFromMid c).1, (UpdateDestination.downFromMid c).2.mirror) := by
  obtain ⟨loc, dest, sp, ms, ac, gu, au, es,
    ⟨⟨q0, d0, f0, a0⟩, ⟨q1, d1, f1, a1⟩, ⟨q2, d2, f2, a2⟩, r3⟩, b4, b5⟩ := c
  cases q0 <;> cases q1 <;> cases q2 <;> cases d1 <;>
    simp [UpdateDestination.upFromGround, UpdateDestination.upFromMid,
      UpdateDestination.downFromMid, UpdateDestination.downFromTop,
      Car.mirror, RequestTable.mirror, DIR.mirror, mirrorSlot,
      Car.serve, Car.retag, RequestTable.get, RequestTable.set]

/-- At a real stop of a table whose stops are in place, the direction block commutes
with the mirror. -/
theorem direction_mirror (c : Car) (hp : c.requests.stopsInPlace) (hs : c.atStop) :
    UpdateDestination.direction c.mirror = (UpdateDestination.direction c).mirror := by
  obtain ⟨loc, dest, sp, ms, ac, gu, au, es,
    ⟨⟨q0, d0, f0, a0⟩, ⟨q1, d1, f1, a1⟩, ⟨q2, d2, f2, a2⟩, r3⟩, b4, b5⟩ := c
  obtain ⟨e0, e1, e2⟩ := hp
  simp only at e0 e1 e2
  subst e0 e1 e2
  unfold Car.atStop at hs
  simp only at hs
  rcases hs with rfl | rfl | rfl <;> cases d1 <;>
    simp [UpdateDestination.direction, Car.mirror, RequestTable.mirror, DIR.mirror]

/-- With the emergency stop clear, the scan commutes with the mirror at a real stop of
a table whose stops are in place. -/
theorem select_mirror (c : Car) (hp : c.requests.stopsInPlace)
    (h : c.emerg_stop_enabled = false) (hs : c.atStop) :
    UpdateDestination.select c.mirror =
      ((UpdateDestination.select c).1, (UpdateDestination.select c).2.mirror) := by
  obtain ⟨m1, m2, m3, m4⟩ := branch_lists_mirror c
  have hm : c.mirror.emerg_stop_enabled = false := h
  have hg : c.mirror.going_up = !c.going_up := rfl
  have hr0 : c.mirror.requests.r0.feet = 0 := hp.1
  have hr1 : c.mirror.requests.r1.feet = 500 := hp.2.1
  have hr2 : c.mirror.requests.r2.feet = 510 := hp.2.2
  have hl : c.mirror.cur_loc =
      if c.cur_loc = 0 then 510 else if c.cur_loc = 510 then 0 else c.cur_loc := by
    simp [Car.mirror, hp.1, hp.2.2]
  obtain ⟨p0, p1, p2⟩ := hp
  rw [select_clear c h, select_clear c.mirror hm, hg, hr0, hr1, hr2, hl, p0, p1, p2,
    m1, m2, m3, m4]
  unfold Car.atStop at hs
  rw [p0, p1, p2] at hs
  rcases hs with e | e | e <;> rw [e] <;> cases c.going_up <;> simp

/-- C6: for every car with `emerg_stop_enabled` clear, standing at a real stop of a
table whose stops are in place, `UpdateDestination` on the mirrored car returns the same
flag as on the car itself, and leaves the mirrored destination, the mirrored request
table and the negated `going_up`. -/
theorem UpdateDestination_mirror (c : Car) (hp : c.requests.stopsInPlace)
    (h : c.emerg_stop_enabled = false) (hs : c.atStop) :
    (UpdateDestination c.mirror).1 = (UpdateDestination c).1 ∧
    (UpdateDestination c.mirror).2.dest = mirrorSlot (UpdateDestination c).2.dest ∧
    (UpdateDestination c.mirror).2.requests = (UpdateDestination c).2.requests.mirror ∧
    (UpdateDestination c.mirror).2.going_up = !(UpdateDestination c).2.going_up := by
  have hp1 : (UpdateDestination.direction c).requests.stopsInPlace := by simpa using hp
  have hs1 : (UpdateDestination.direction c).atStop := by
    unfold Car.atStop
    simpa using hs
  have e := select_mirror (UpdateDestination.direction c) hp1 (by simpa using h) hs1
  unfold UpdateDestination
  rw [direction_mirror c hp hs, e]
  simp [Car.mirror]

/-- Witness for C6: a car at the top stop with calls pending below it. -/
theorem UpdateDestination_mirror_witness :
    Car.topCalls.requests.stopsInPlace ∧ Car.topCalls.emerg_stop_enabled = false ∧
    Car.topCalls.atStop ∧
    (UpdateDestination Car.topCalls.mirror).1 = (UpdateDestination Car.topCalls).1 ∧
    (UpdateDestination Car.topCalls.mirror).2.dest =
      mirrorSlot (UpdateDestination Car.topCalls).2.dest ∧
    (UpdateDestination Car.topCalls.mirror).2.requests =
      (UpdateDestination Car.topCalls).2.requests.mirror ∧
    (UpdateDestination Car.topCalls.mirror).2.going_up =
      !(UpdateDestination Car.topCalls).2.going_up :=
  ⟨⟨rfl, rfl, rfl⟩, rfl, Or.inr (Or.inr rfl),
    UpdateDestination_mirror Car.topCalls ⟨rfl, rfl, rfl⟩ rfl (Or.inr (Or.inr rfl))⟩

/-! ## The scan order at the mid stop, heading up -/

/-- C7, as stated, fails: the car stands at the mid stop, `going_up` is set after the
direction block, and the ground call is the only pending call.  The list without the
ground entry selects nothing, yet `UpdateDestination` returns true and moves `dest`
from slot 1 to slot 0. -/
theorem UpdateDestination_mid_up_selects_ground :
    Car.midCallGround.emerg_stop_enabled = false ∧
    Car.midCallGround.cur_loc = Car.midCallGround.requests.r1.feet ∧
    Car.midCallGround.cur_loc ≠ Car.midCallGround.requests.r0.feet ∧
    (UpdateDestination.direction Car.midCallGround).going_up = true ∧
    Car.midCallGround.requests.r0.isRequested = true ∧
    Car.midCallGround.requests.r1.isRequested = false ∧
    Car.midCallGround.requests.r2.isRequested = false ∧
    firstSatisfied (midUpScanOrderSpec Car.midCallGround.requests) = none ∧
    Car.midCallGround.dest = 1 ∧
    (UpdateDestination Car.midCallGround).1 = true ∧
    (UpdateDestination Car.midCallGround).2.dest = 0 := by
  decide

/-- C7 (amended): with `emerg_stop_enabled` clear, the car at the mid stop and
`going_up` set after the direction block, `UpdateDestination` scans the entries
mid tagged Up, mid tagged Either, top, mid tagged Down, ground, in that order: it
succeeds exactly when one of them is satisfied and points `dest` at the slot of the
first satisfied one.  The ground entry is the last one, so the ground stop is selected
only when no other entry is satisfied, and selecting it clears `going_up`. -/
theorem UpdateDestination_mid_up_scan (c : Car) (h : c.emerg_stop_enabled = false)
    (h1 : c.cur_loc = c.requests.r1.feet) (h0 : c.cur_loc ≠ c.requests.r0.feet)
    (hg : (UpdateDestination.direction c).going_up = true) :
    (UpdateDestination c).1 = (firstSatisfied (midUpScanOrder c.requests)).isSome ∧
    (UpdateDestination c).2.dest =
      (firstSatisfied (midUpScanOrder c.requests)).getD c.dest ∧
    (firstSatisfied (midUpScanOrder c.requests) = some 0 →
      firstSatisfied (midUpScanOrderSpec c.requests) = none ∧
      (UpdateDestination c).2.going_up = false) := by
  have hs : UpdateDestination.select (UpdateDestination.direction c) =
      UpdateDestination.upFromMid (UpdateDestination.direction c) := by
    rw [select_clear _ (by simpa using h), if_pos hg, if_neg (by simpa using h0),
      if_pos (by simpa using h1)]
  unfold UpdateDestination
  rw [hs, direction_eq c, hg]
  obtain ⟨loc, dest, sp, ms, ac, gu, au, es,
    ⟨⟨q0, d0, f0, a0⟩, ⟨q1, d1, f1, a1⟩, ⟨q2, d2, f2, a2⟩, r3⟩, b4, b5⟩ := c
  cases q0 <;> cases q1 <;> cases q2 <;> cases d1 <;>
    simp [UpdateDestination.upFromMid, Car.serve, Car.retag, firstSatisfied,
      midUpScanOrder, midUpScanOrderSpec]

/-- Witness for C7 (amended): the car at the mid stop whose only pending call is the
ground call. -/
theorem UpdateDestination_mid_up_scan_witness :
    Car.midCallGround.emerg_stop_enabled = false ∧
    Car.midCallGround.cur_loc = Car.midCallGround.requests.r1.feet ∧
    Car.midCallGround.cur_loc ≠ Car.midCallGround.requests.r0.feet ∧
    (UpdateDestination.direction Car.midCallGround).going_up = true ∧
    ((UpdateDestination Car.midCallGround).1 =
      (firstSatisfied (midUpScanOrder Car.midCallGround.requests)).isSome ∧
    (UpdateDestination Car.midCallGround).2.dest =
      (firstSatisfied (midUpScanOrder Car.midCallGround.requests)).getD
        Car.midCallGround.dest ∧
    (firstSatisfied (midUpScanOrder Car.midCallGround.requests) = some 0 →
      firstSatisfied (midUpScanOrderSpec Car.midCallGround.requests) = none ∧
      (UpdateDestination Car.midCallGround).2.going_up = false)) :=
  ⟨rfl, rfl, by decide, by decide,
    UpdateDestination_mid_up_scan Car.midCallGround rfl rfl (by decide) (by decide)⟩

/-! ## The mid stop called Down, seen from an upward scan -/

/-- C8, as stated, fails: at the ground stop with the mid stop called Down and nothing
else pending, the upward scan selects the mid stop through its last entry and `going_up`
is still set when `UpdateDestination` returns. -/
theorem UpdateDestination_ground_mid_down_stays_up :
    Car.groundCallMidDown.emerg_stop_enabled = false ∧
    Car.groundCallMidDown.cur_loc = Car.groundCallMidDown.requests.r0.feet ∧
    (UpdateDestination.direction Car.groundCallMidDown).going_up = true ∧
    Car.groundCallMidDown.requests.r0.isRequested = false ∧
    Car.groundCallMidDown.requests.r1.isRequested = true ∧
    Car.groundCallMidDown.requests.r1.dir = .DOWN ∧
    Car.groundCallMidDown.requests.r2.isRequested = false ∧
    (UpdateDestination Car.groundCallMidDown).1 = true ∧
    (UpdateDestination Car.groundCallMidDown).2.dest = 1 ∧
    (UpdateDestination Car.groundCallMidDown).2.going_up = true := by
  decide

/-- C8 (amended): with `emerg_stop_enabled` clear and `going_up` set when the scan
starts, let the upward scan reach its entry for the mid stop tagged Down: slot 1 is
requested and tagged Down, slot 2 is not requested and, at the ground stop, neither is
slot 0.  Then the scan succeeds and selects slot 1, and on return `going_up` is false
when the car stands at the mid stop, and still true when it stands at the ground stop. -/
theorem select_mid_down_going_up (c : Car) (h : c.emerg_stop_enabled = false)
    (hg : c.going_up = true) (h1 : c.requests.r1.isRequested = true)
    (hd : c.requests.r1.dir = .DOWN) (h2 : c.requests.r2.isRequested = false)
    (hpos : (c.cur_loc = c.requests.r0.feet ∧ c.requests.r0.isRequested = false) ∨
      (c.cur_loc ≠ c.requests.r0.feet ∧ c.cur_loc = c.requests.r1.feet)) :
    (UpdateDestination.select c).1 = true ∧
    (UpdateDestination.leds (UpdateDestination.select c).2).dest = 1 ∧
    ((UpdateDestination.leds (UpdateDestination.select c).2).going_up = true ↔
      c.cur_loc = c.requests.r0.feet) := by
  rw [select_clear c h, if_pos hg]
  rcases hpos with ⟨p0, q0⟩ | ⟨p0, p1⟩
  · rw [if_pos p0]
    simp [UpdateDestination.upFromGround, h1, hd, h2, q0, p0, Car.serve, hg]
  · rw [if_neg p0, if_pos p1]
    simp [UpdateDestination.upFromMid, h1, hd, h2, p0, Car.serve]

/-- Witness for C8 (amended): the car at the mid stop after the direction block has set
`going_up`, with a call for the mid stop tagged Down arrived since. -/
theorem select_mid_down_going_up_witness :
    Car.midLateCallDown.emerg_stop_enabled = false ∧
    Car.midLateCallDown.going_up = true ∧
    Car.midLateCallDown.requests.r1.isRequested = true ∧
    Car.midLateCallDown.requests.r1.dir = .DOWN ∧
    Car.midLateCallDown.requests.r2.isRequested = false ∧
    (Car.midLateCallDown.cur_loc ≠ Car.midLateCallDown.requests.r0.feet ∧
      Car.midLateCallDown.cur_loc = Car.midLateCallDown.requests.r1.feet) ∧
    ((UpdateDestination.select Car.midLateCallDown).1 = true ∧
    (UpdateDestination.leds (UpdateDestination.select Car.midLateCallDown).2).dest = 1 ∧
    ((UpdateDestination.leds (UpdateDestination.select Car.midLateCallDown).2).going_up
        = true ↔
      Car.midLateCallDown.cur_loc = Car.midLateCallDown.requests.r0.feet)) :=
  ⟨rfl, rfl, rfl, rfl, rfl, by decide,
    select_mid_down_going_up Car.midLateCallDown rfl rfl rfl rfl rfl (Or.inr (by decide))⟩

/-! ## The door: open, pause, close -/

/-- Running the door task over two lists of receives in a row. -/
theorem run_append (a b : List (Option DOOR_MSG)) (d : Door) :
    taskDoor.run (a ++ b) d = taskDoor.run b (taskDoor.run a d) := by
  induction a generalizing d with
  | nil => rfl
  | cons rx rest ih => exact ih (taskDoor.step rx d)

/-- The phases of two lists of receives in a row. -/
theorem phases_append (a b : List (Option DOOR_MSG)) (d : Door) :
    taskDoor.phases (a ++ b) d =
      taskDoor.phases a d ++ taskDoor.phases b (taskDoor.run a d) := by
  induction a generalizing d with
  | nil => rfl
  | cons rx rest ih =>
    cases hl : d.loop <;> simp [taskDoor.phases, taskDoor.run, hl, ih]

/-- A task blocked in the first loop stays as it is while no message arrives. -/
theorem run_idle_none (n : Nat) (d : Door) (hl : d.loop = .idle) :
    taskDoor.run (List.replicate n none) d = d ∧
    taskDoor.phases (List.replicate n none) d = [] := by
  induction n with
  | zero => exact ⟨rfl, rfl⟩
  | succ k ih =>
    have hs : taskDoor.step none d = d := by simp [taskDoor.step, hl]
    simpa [List.replicate, taskDoor.run, taskDoor.phases, hl, hs] using ih

/-- C9: from the idle door, `OPEN_CLOSE_SEQ` followed by no further command takes the
animation through the phases 0,1,2,3,4,3,2,1,0 in that order.  Nothing is posted during
the first eight iterations; the ninth ends the animation, posts one `CLOSED`, and leaves
the door idle with its three lamps lit, where it stays however long no command
arrives. -/
theorem taskDoor_open_close_seq (d : Door) (hd : d.isIdle) (n : Nat) :
    taskDoor.phases (some DOOR_MSG.OPEN_CLOSE_SEQ :: List.replicate (9 + n) none) d
      = [0, 1, 2, 3, 4, 3, 2, 1, 0] ∧
    (taskDoor.run (some DOOR_MSG.OPEN_CLOSE_SEQ :: List.replicate 8 none) d).door_tx
      = d.door_tx ∧
    (taskDoor.run (some DOOR_MSG.OPEN_CLOSE_SEQ :: List.replicate 8 none) d).loop
      = .animation ∧
    taskDoor.run (some DOOR_MSG.OPEN_CLOSE_SEQ :: List.replicate (9 + n) none) d =
      { d with led1 := true, led2 := true, led3 := true,
               door_tx := d.door_tx ++ [DOOR_MSG.CLOSED] } ∧
    (taskDoor.run (some DOOR_MSG.OPEN_CLOSE_SEQ :: List.replicate (9 + n) none) d).isIdle ∧
    GetDoorClosed
      (taskDoor.run (some DOOR_MSG.OPEN_CLOSE_SEQ :: List.replicate (9 + n) none) d)
        = true := by
  obtain ⟨op, cs, ns, so, ad, l1, l2, l3, tx, lp⟩ := d
  obtain ⟨e1, e2, e3, e4, e5, e6⟩ := hd
  simp only at e1 e2 e3 e4 e5 e6
  subst e1 e2 e3 e4 e5 e6
  have hsplit : some DOOR_MSG.OPEN_CLOSE_SEQ :: List.replicate (9 + n) none =
      (some DOOR_MSG.OPEN_CLOSE_SEQ :: List.replicate 9 none) ++ List.replicate n none := by
    rw [List.replicate_add]
    rfl
  have h9 : taskDoor.run (some DOOR_MSG.OPEN_CLOSE_SEQ :: List.replicate 9 none)
      { opening := false, cur_state := 0, next_state := 0, stay_opened := false,
        animation_done := false, led1 := l1, led2 := l2, led3 := l3, door_tx := tx,
        loop := .idle } =
      { opening := false, cur_state := 0, next_state := 0, stay_opened := false,
        animation_done := false, led1 := true, led2 := true, led3 := true,
        door_tx := tx ++ [DOOR_MSG.CLOSED], loop := .idle } := by
    simp [List.replicate, taskDoor.run, taskDoor.step, taskDoor.idle,
      taskDoor.test, taskDoor.phase, taskDoor.drain, taskDoor.closed, setLED, LED1, LED2,
      LED3]
  have hrest := run_idle_none n
      { opening := false, cur_state := 0, next_state := 0, stay_opened := false,
        animation_done := false, led1 := true, led2 := true, led3 := true,
        door_tx := tx ++ [DOOR_MSG.CLOSED], loop := .idle } rfl
  rw [hsplit, phases_append, run_append, h9, hrest.1, hrest.2]
  refine ⟨?_, ?_, ?_, rfl, ⟨rfl, rfl, rfl, rfl, rfl, rfl⟩, rfl⟩ <;>
    simp [List.replicate, taskDoor.phases, taskDoor.run, taskDoor.step, taskDoor.idle,
      taskDoor.test, taskDoor.phase, taskDoor.drain, taskDoor.closed, setLED, LED1, LED2,
      LED3]

/-- Witness for C9: the door task as it starts. -/
theorem taskDoor_open_close_seq_witness :
    Door.startup.isIdle ∧
    (taskDoor.phases (some DOOR_MSG.OPEN_CLOSE_SEQ :: List.replicate (9 + 5) none)
        Door.startup = [0, 1, 2, 3, 4, 3, 2, 1, 0] ∧
    (taskDoor.run (some DOOR_MSG.OPEN_CLOSE_SEQ :: List.replicate 8 none)
        Door.startup).door_tx = Door.startup.door_tx ∧
    (taskDoor.run (some DOOR_MSG.OPEN_CLOSE_SEQ :: List.replicate 8 none)
        Door.startup).loop = .animation ∧
    taskDoor.run (some DOOR_MSG.OPEN_CLOSE_SEQ :: List.replicate (9 + 5) none)
        Door.startup =
      { Door.startup with led1 := true, led2 := true, led3 := true,
                          door_tx := Door.startup.door_tx ++ [DOOR_MSG.CLOSED] } ∧
    (taskDoor.run (some DOOR_MSG.OPEN_CLOSE_SEQ :: List.replicate (9 + 5) none)
        Door.startup).isIdle ∧
    GetDoorClosed
      (taskDoor.run (some DOOR_MSG.OPEN_CLOSE_SEQ :: List.replicate (9 + 5) none)
        Door.startup) = true) :=
  ⟨⟨rfl, rfl, rfl, rfl, rfl, rfl⟩,
    taskDoor_open_close_seq Door.startup ⟨rfl, rfl, rfl, rfl, rfl, rfl⟩ 5⟩

/-! ## The door held open -/

/-- While the door is opening, draining anything but `CLOSE` changes nothing. -/
theorem drain_opening (rx : Option DOOR_MSG) (d : Door) (hn : notClose rx)
    (ho : d.opening = true) : taskDoor.drain rx d = d := by
  obtain ⟨op, cs, ns, so, ad, l1, l2, l3, tx, lp⟩ := d
  simp only at ho
  subst ho
  rcases rx with _ | m
  · rfl
  · cases m
    · simp [taskDoor.drain]
    · rfl
    · exact absurd rfl hn
    · rfl

/-- An iteration of the animation loop of an opening door that drains no `CLOSE`. -/
theorem step_opening (rx : Option DOOR_MSG) (d : Door) (hl : d.loop = .animation)
    (ho : d.opening = true) (hn : notClose rx) :
    taskDoor.step rx d = taskDoor.test (taskDoor.phase d) := by
  unfold taskDoor.step
  rw [hl, drain_opening rx d hn ho]

/-- The held door (fully open, `stay_opened` set, lamps dark, animation running) is left
as it is by any run of iterations that drains no `CLOSE`, and each of them is in
phase 3. -/
theorem hold_fixed (rest : List (Option DOOR_MSG)) (tx : List DOOR_MSG)
    (hrest : ∀ rx ∈ rest, notClose rx) :
    taskDoor.run rest
      { opening := true, cur_state := 3, next_state := 3, stay_opened := true,
        animation_done := false, led1 := false, led2 := false, led3 := false,
        door_tx := tx, loop := .animation } =
      { opening := true, cur_state := 3, next_state := 3, stay_opened := true,
        animation_done := false, led1 := false, led2 := false, led3 := false,
        door_tx := tx, loop := .animation } ∧
    taskDoor.phases rest
      { opening := true, cur_state := 3, next_state := 3, stay_opened := true,
        animation_done := false, led1 := false, led2 := false, led3 := false,
        door_tx := tx, loop := .animation } = List.replicate rest.length 3 := by
  induction rest with
  | nil => exact ⟨rfl, rfl⟩
  | cons rx t ih =>
    have hn : notClose rx := hrest rx (List.mem_cons_self rx t)
    have ht := ih (fun x hx => hrest x (List.mem_cons_of_mem rx hx))
    have hs := step_opening rx
      { opening := true, cur_state := 3, next_state := 3, stay_opened := true,
        animation_done := false, led1 := false, led2 := false, led3 := false,
        door_tx := tx, loop := .animation } rfl rfl hn
    have hd := drain_opening rx
      { opening := true, cur_state := 3, next_state := 3, stay_opened := true,
        animation_done := false, led1 := false, led2 := false, led3 := false,
        door_tx := tx, loop := .animation } hn rfl
    have hp : taskDoor.test (taskDoor.phase
      { opening := true, cur_state := 3, next_state := 3, stay_opened := true,
        animation_done := false, led1 := false, led2 := false, led3 := false,
        door_tx := tx, loop := .animation }) =
      { opening := true, cur_state := 3, next_state := 3, stay_opened := true,
        animation_done := false, led1 := false, led2 := false, led3 := false,
        door_tx := tx, loop := .animation } := by
      simp [taskDoor.test, taskDoor.phase, setLED, LED1, LED2, LED3]
    constructor
    · simp only [taskDoor.run]
      rw [hs, hp]
      exact ht.1
    · simp only [taskDoor.phases]
      rw [hs, hp, hd, ht.2]
      simp [taskDoor.phase, setLED, LED1, LED2, LED3, List.replicate]

/-- C10: after `STAY_OPEN` is received by the idle door, and as long as no `CLOSE` is
drained, the first four iterations of the animation take the door through the phases
0,1,2,3 and every further iteration, however many there are, finds it in phase 3 again:
phase 4 is never entered, `opening` stays set, the animation keeps running and nothing
is posted on `door_tx_queue`. -/
theorem taskDoor_hold_open (d : Door) (hd : d.isIdle)
    (pre rest : List (Option DOOR_MSG)) (hlen : pre.length = 4)
    (hpre : ∀ rx ∈ pre, notClose rx) (hrest : ∀ rx ∈ rest, notClose rx) :
    taskDoor.phases (some DOOR_MSG.STAY_OPEN :: (pre ++ rest)) d =
      [0, 1, 2, 3] ++ List.replicate rest.length 3 ∧
    4 ∉ taskDoor.phases (some DOOR_MSG.STAY_OPEN :: (pre ++ rest)) d ∧
    taskDoor.run (some DOOR_MSG.STAY_OPEN :: (pre ++ rest)) d =
      { d with opening := true, stay_opened := true, cur_state := 3, next_state := 3,
               led1 := false, led2 := false, led3 := false, loop := .animation } ∧
    (taskDoor.run (some DOOR_MSG.STAY_OPEN :: (pre ++ rest)) d).door_tx = d.door_tx := by
  obtain ⟨op, cs, ns, so, ad, l1, l2, l3, tx, lp⟩ := d
  obtain ⟨e1, e2, e3, e4, e5, e6⟩ := hd
  simp only at e1 e2 e3 e4 e5 e6
  subst e1 e2 e3 e4 e5 e6
  rcases pre with _ | ⟨a, _ | ⟨b, _ | ⟨c, _ | ⟨e, _ | ⟨x, t⟩⟩⟩⟩⟩ <;>
    simp at hlen
  have ha : notClose a := hpre a (by simp)
  have hb : notClose b := hpre b (by simp)
  have hc : notClose c := hpre c (by simp)
  have he : notClose e := hpre e (by simp)
  obtain ⟨hr, hph⟩ := hold_fixed rest tx hrest
  have s0 : taskDoor.step (some DOOR_MSG.STAY_OPEN)
      { opening := false, cur_state := 0, next_state := 0, stay_opened := false,
        animation_done := false, led1 := l1, led2 := l2, led3 := l3, door_tx := tx,
        loop := .idle } =
      { opening := true, cur_state := 0, next_state := 0, stay_opened := true,
        animation_done := false, led1 := l1, led2 := l2, led3 := l3, door_tx := tx,
        loop := .animation } := by
    simp [taskDoor.step, taskDoor.idle, taskDoor.test]
  have s1 := step_opening a
      { opening := true, cur_state := 0, next_state := 0, stay_opened := true,
        animation_done := false, led1 := l1, led2 := l2, led3 := l3, door_tx := tx,
        loop := .animation } rfl rfl ha
  have d1 := drain_opening a
      { opening := true, cur_state := 0, next_state := 0, stay_opened := true,
        animation_done := false, led1 := l1, led2 := l2, led3 := l3, door_tx := tx,
        loop := .animation } ha rfl
  have p1 : taskDoor.test (taskDoor.phase
      { opening := true, cur_state := 0, next_state := 0, stay_opened := true,
        animation_done := false, led1 := l1, led2 := l2, led3 := l3, door_tx := tx,
        loop := .animation }) =
      { opening := true, cur_state := 0, next_state := 1, stay_opened := true,
        animation_done := false, led1 := true, led2 := true, led3 := true, door_tx := tx,
        loop := .animation } := by
    simp [taskDoor.test, taskDoor.phase, setLED, LED1, LED2, LED3]
  have s2 := step_opening b
      { opening := true, cur_state := 0, next_state := 1, stay_opened := true,
        animation_done := false, led1 := true, led2 := true, led3 := true, door_tx := tx,
        loop := .animation } rfl rfl hb
  have d2 := drain_opening b
      { opening := true, cur_state := 0, next_state := 1, stay_opened := true,
        animation_done := false, led1 := true, led2 := true, led3 := true, door_tx := tx,
        loop := .animation } hb rfl
  have p2 : taskDoor.test (taskDoor.phase
      { opening := true, cur_state := 0, next_state := 1, stay_opened := true,
        animation_done := false, led1 := true, led2 := true, led3 := true, door_tx := tx,
        loop := .animation }) =
      { opening := true, cur_state := 1, next_state := 2, stay_opened := true,
        animation_done := false, led1 := true, led2 := true, led3 := false, door_tx := tx,
        loop := .animation } := by
    simp [taskDoor.test, taskDoor.phase, setLED, LED1, LED2, LED3]
  have s3 := step_opening c
      { opening := true, cur_state := 1, next_state := 2, stay_opened := true,
        animation_done := false, led1 := true, led2 := true, led3 := false, door_tx := tx,
        loop := .animation } rfl rfl hc
  have d3 := drain_opening c
      { opening := true, cur_state := 1, next_state := 2, stay_opened := true,
        animation_done := false, led1 := true, led2 := true, led3 := false, door_tx := tx,
        loop := .animation } hc rfl
  have p3 : taskDoor.test (taskDoor.phase
      { opening := true, cur_state := 1, next_state := 2, stay_opened := true,
        animation_done := false, led1 := true, led2 := true, led3 := false, door_tx := tx,
        loop := .animation }) =
      { opening := true, cur_state := 2, next_state := 3, stay_opened := true,
        animation_done := false, led1 := true, led2 := false, led3 := false,
        door_tx := tx, loop := .animation } := by
    simp [taskDoor.test, taskDoor.phase, setLED, LED1, LED2, LED3]
  have s4 := step_opening e
      { opening := true, cur_state := 2, next_state := 3, stay_opened := true,
        animation_done := false, led1 := true, led2 := false, led3 := false,
        door_tx := tx, loop := .animation } rfl rfl he
  have d4 := drain_opening e
      { opening := true, cur_state := 2, next_state := 3, stay_opened := true,
        animation_done := false, led1 := true, led2 := false, led3 := false,
        door_tx := tx, loop := .animation } he rfl
  have p4 : taskDoor.test (taskDoor.phase
      { opening := true, cur_state := 2, next_state := 3, stay_opened := true,
        animation_done := false, led1 := true, led2 := false, led3 := false,
        door_tx := tx, loop := .animation }) =
      { opening := true, cur_state := 3, next_state := 3, stay_opened := true,
        animation_done := false, led1 := false, led2 := false, led3 := false,
        door_tx := tx, loop := .animation } := by
    simp [taskDoor.test, taskDoor.phase, setLED, LED1, LED2, LED3]
  have hl : some DOOR_MSG.STAY_OPEN :: ([a, b, c, e] ++ rest) =
      some DOOR_MSG.STAY_OPEN :: a :: b :: c :: e :: rest := rfl
  have hrun : taskDoor.run (some DOOR_MSG.STAY_OPEN :: ([a, b, c, e] ++ rest))
      { opening := false, cur_state := 0, next_state := 0, stay_opened := false,
        animation_done := false, led1 := l1, led2 := l2, led3 := l3, door_tx := tx,
        loop := .idle } =
      { opening := true, cur_state := 3, next_state := 3, stay_opened := true,
        animation_done := false, led1 := false, led2 := false, led3 := false,
        door_tx := tx, loop := .animation } := by
    rw [hl]
    simp only [taskDoor.run]
    rw [s0, s1, p1, s2, p2, s3, p3, s4, p4, hr]
  have hphases : taskDoor.phases (some DOOR_MSG.STAY_OPEN :: ([a, b, c, e] ++ rest))
      { opening := false, cur_state := 0, next_state := 0, stay_opened := false,
        animation_done := false, led1 := l1, led2 := l2, led3 := l3, door_tx := tx,
        loop := .idle } = [0, 1, 2, 3] ++ List.replicate rest.length 3 := by
    rw [hl]
    simp only [taskDoor.phases]
    rw [s0]
    simp only []
    rw [d1, s1, p1]
    simp only []
    rw [d2, s2, p2]
    simp only []
    rw [d3, s3, p3]
    simp only []
    rw [d4, s4, p4, hph]
    simp [taskDoor.phase, setLED, LED1, LED2, LED3]
  refine ⟨hphases, ?_, hrun, ?_⟩
  · rw [hphases]
    simp [List.mem_replicate]
  · rw [hrun]

/-- Witness for C10: the door task as it starts, held open, with `OPEN_CLOSE_SEQ`
commands arriving on the way up and during the hold. -/
theorem taskDoor_hold_open_witness :
    Door.startup.isIdle ∧
    [none, some DOOR_MSG.OPEN_CLOSE_SEQ, none, none].length = 4 ∧
    (∀ rx ∈ [none, some DOOR_MSG.OPEN_CLOSE_SEQ, none, none], notClose rx) ∧
    (∀ rx ∈ [none, some DOOR_MSG.OPEN_CLOSE_SEQ, none], notClose rx) ∧
    (taskDoor.phases (some DOOR_MSG.STAY_OPEN ::
        ([none, some DOOR_MSG.OPEN_CLOSE_SEQ, none, none] ++
          [none, some DOOR_MSG.OPEN_CLOSE_SEQ, none])) Door.startup =
      [0, 1, 2, 3] ++
        List.replicate [none, some DOOR_MSG.OPEN_CLOSE_SEQ, none].length 3 ∧
    4 ∉ taskDoor.phases (some DOOR_MSG.STAY_OPEN ::
        ([none, some DOOR_MSG.OPEN_CLOSE_SEQ, none, none] ++
          [none, some DOOR_MSG.OPEN_CLOSE_SEQ, none])) Door.startup ∧
    taskDoor.run (some DOOR_MSG.STAY_OPEN ::
        ([none, some DOOR_MSG.OPEN_CLOSE_SEQ, none, none] ++
          [none, some DOOR_MSG.OPEN_CLOSE_SEQ, none])) Door.startup =
      { Door.startup with
        opening := true, stay_opened := true, cur_state := 3, next_state := 3,
        led1 := false, led2 := false, led3 := false, loop := .animation } ∧
    (taskDoor.run (some DOOR_MSG.STAY_OPEN ::
        ([none, some DOOR_MSG.OPEN_CLOSE_SEQ, none, none] ++
          [none, some DOOR_MSG.OPEN_CLOSE_SEQ, none])) Door.startup).door_tx =
      Door.startup.door_tx) :=
  ⟨⟨rfl, rfl, rfl, rfl, rfl, rfl⟩, rfl, by simp [notClose], by simp [notClose],
    taskDoor_hold_open Door.startup ⟨rfl, rfl, rfl, rfl, rfl, rfl⟩
      [none, some DOOR_MSG.OPEN_CLOSE_SEQ, none, none]
      [none, some DOOR_MSG.OPEN_CLOSE_SEQ, none] rfl (by simp [notClose])
      (by simp [notClose])⟩

/-! ## What holds of the door task between two receives -/

/-- An idle door satisfies the invariant. -/
theorem inv_of_isIdle (d : Door) (hd : d.isIdle) : d.inv := by
  obtain ⟨e1, e2, e3, e4, e5, e6⟩ := hd
  unfold Door.inv
  rw [e1]
  exact ⟨e2, e3, e4, e5, e6⟩

/-- Draining a message in the animation loop keeps `next_state` at most 4 and touches
neither `cur_state` nor `animation_done` nor the loop. -/
theorem drain_facts (rx : Option DOOR_MSG) (d : Door) (hn : d.next_state ≤ 4)
    (ho : d.opening = false → d.next_state + 1 = d.cur_state) :
    (taskDoor.drain rx d).next_state ≤ 4 ∧
    (taskDoor.drain rx d).cur_state = d.cur_state ∧
    (taskDoor.drain rx d).animation_done = d.animation_done ∧
    (taskDoor.drain rx d).door_tx = d.door_tx ∧
    (taskDoor.drain rx d).stay_opened = d.stay_opened ∧
    (taskDoor.drain rx d).loop = d.loop := by
  obtain ⟨op, cs, ns, so, ad, l1, l2, l3, tx, lp⟩ := d
  simp only at hn ho
  rcases rx with _ | m
  · exact ⟨hn, rfl, rfl, rfl, rfl, rfl⟩
  · cases m
    · simp only [taskDoor.drain]
      split_ifs with hc
      · obtain ⟨h1, -, h3, -⟩ := hc
        have := ho h1
        refine ⟨?_, rfl, rfl, rfl, rfl, rfl⟩
        show (ns + 2) % 256 ≤ 4
        omega
      · exact ⟨hn, rfl, rfl, rfl, rfl, rfl⟩
    · exact ⟨hn, rfl, rfl, rfl, rfl, rfl⟩
    · simp only [taskDoor.drain]
      split_ifs <;> exact ⟨hn, rfl, rfl, rfl, rfl, rfl⟩
    · exact ⟨hn, rfl, rfl, rfl, rfl, rfl⟩

/-- The phase switch, entered with `next_state` at most 4: the phase it runs is that
value, the next one is at most 4 again, `animation_done` can only be set in phase 0 of
a closing door, and a closing door is sent one phase down. -/
theorem phase_facts (d : Door) (hn : d.next_state ≤ 4) (ha : d.animation_done = false) :
    (taskDoor.phase d).cur_state = d.next_state ∧
    (taskDoor.phase d).next_state ≤ 4 ∧
    ((taskDoor.phase d).animation_done = true →
      (taskDoor.phase d).cur_state = 0 ∧ (taskDoor.phase d).opening = false) ∧
    ((taskDoor.phase d).animation_done = false → (taskDoor.phase d).opening = false →
      (taskDoor.phase d).next_state + 1 = (taskDoor.phase d).cur_state) ∧
    (taskDoor.phase d).door_tx = d.door_tx ∧
    (taskDoor.phase d).loop = d.loop := by
  obtain ⟨op, cs, ns, so, ad, l1, l2, l3, tx, lp⟩ := d
  simp only at hn ha
  subst ha
  interval_cases ns <;> cases op <;> cases so <;>
    simp [taskDoor.phase, setLED, LED1, LED2, LED3]

/-- The test of the animation loop either goes on with the animation or posts `CLOSED`
and leaves the door at rest. -/
theorem test_facts (d : Door) :
    (d.animation_done = false ∧ taskDoor.test d = { d with loop := .animation }) ∨
    (d.animation_done = true ∧
      taskDoor.test d =
        { d with door_tx := d.door_tx ++ [DOOR_MSG.CLOSED], opening := false,
                 stay_opened := false, animation_done := false, cur_state := 0,
                 next_state := 0, loop := .idle }) := by
  unfold taskDoor.test taskDoor.closed
  cases h : d.animation_done <;> simp

/-- One receive of the door task keeps the invariant. -/
theorem inv_step (rx : Option DOOR_MSG) (d : Door) (hd : d.inv) :
    (taskDoor.step rx d).inv := by
  cases hl : d.loop
  · unfold Door.inv at hd
    rw [hl] at hd
    obtain ⟨e1, e2, e3, e4, e5⟩ := hd
    obtain ⟨op, cs, ns, so, ad, l1, l2, l3, tx, lp⟩ := d
    simp only at e1 e2 e3 e4 e5 hl
    subst e1 e2 e3 e4 e5 hl
    rcases rx with _ | m
    · simp [taskDoor.step, Door.inv]
    · cases m <;> simp [taskDoor.step, taskDoor.idle, taskDoor.test, Door.inv]
  · unfold Door.inv at hd
    rw [hl] at hd
    obtain ⟨e1, h4, hn, ho⟩ := hd
    obtain ⟨g1, g2, g3, g4, g5, g6⟩ := drain_facts rx d hn ho
    obtain ⟨p1, p2, p3, p4, p5, p6⟩ := phase_facts (taskDoor.drain rx d) g1 (by rw [g3, e1])
    unfold taskDoor.step
    rw [hl]
    simp only
    rcases test_facts (taskDoor.phase (taskDoor.drain rx d)) with ⟨ta, te⟩ | ⟨ta, te⟩
    · rw [te]
      simp only [Door.inv]
      exact ⟨ta, by rw [p1]; exact g1, p2, p4 ta⟩
    · rw [te]
      simp [Door.inv]

/-- Every run of the door task keeps the invariant. -/
theorem inv_run (rxs : List (Option DOOR_MSG)) (d : Door) (hd : d.inv) :
    (taskDoor.run rxs d).inv := by
  induction rxs generalizing d with
  | nil => exact hd
  | cons rx rest ih => exact ih (taskDoor.step rx d) (inv_step rx d hd)

/-! ## Closing a held door -/

/-- Phase 3 is the current phase only if some iteration of the run was in phase 3, or
the run started there. -/
theorem cur_state_three (rxs : List (Option DOOR_MSG)) (d0 : Door)
    (h : (taskDoor.run rxs d0).cur_state = 3) :
    3 ∈ taskDoor.phases rxs d0 ∨ d0.cur_state = 3 := by
  induction rxs generalizing d0 with
  | nil => exact Or.inr h
  | cons rx rest ih =>
    rcases ih (taskDoor.step rx d0) h with hm | hc
    · left
      cases hl : d0.loop <;> simp [taskDoor.phases, hl, hm]
    · cases hl : d0.loop
      · right
        unfold taskDoor.step at hc
        rw [hl] at hc
        rcases rx with _ | m
        · exact hc
        · simp only at hc
          have hi : (taskDoor.idle m d0).cur_state = d0.cur_state := by
            cases m <;> rfl
          split_ifs at hc
          · rcases test_facts (taskDoor.idle m d0) with ⟨-, te⟩ | ⟨-, te⟩
            · rw [te] at hc
              exact hi ▸ hc
            · rw [te] at hc
              simp at hc
          · exact hi ▸ hc
      · left
        unfold taskDoor.step at hc
        rw [hl] at hc
        simp only at hc
        rcases test_facts (taskDoor.phase (taskDoor.drain rx d0)) with ⟨-, te⟩ | ⟨-, te⟩
        · rw [te] at hc
          simp only at hc
          simp [taskDoor.phases, hl, hc]
        · rw [te] at hc
          simp at hc

/-- C11, as stated, fails: the held door `Door.reopenedUnderHold` has been in phase 3
during the animation still running (nothing has been posted since it began), it is
opening again and stands in phase 1; a `CLOSE` drained now leaves `opening` set. -/
theorem taskDoor_close_discarded_after_phase_3 :
    Door.reopenedUnderHold.loop = .animation ∧
    Door.reopenedUnderHold.stay_opened = true ∧
    Door.reopenedUnderHold.opening = true ∧
    Door.reopenedUnderHold.cur_state = 1 ∧
    Door.reopenedUnderHold.door_tx = [] ∧
    3 ∈ taskDoor.phases
      [some .STAY_OPEN, none, none, none, none, some .CLOSE, none, some .OPEN_CLOSE_SEQ]
      Door.startup ∧
    (taskDoor.drain (some .CLOSE) Door.reopenedUnderHold).opening = true := by
  decide

/-- C11 (amended): in the animation loop of a door that was idle before the run `rxs`,
a drained `CLOSE` clears `opening`, and does nothing else, exactly when `stay_opened`
is clear or the current phase `cur_state` is 3; otherwise it is discarded.  In
particular, under `stay_opened`, a `CLOSE` drained before any iteration was in phase 3
changes nothing, and the iteration that drains it runs as if nothing had arrived. -/
theorem taskDoor_close (d0 : Door) (h0 : d0.isIdle) (rxs : List (Option DOOR_MSG))
    (hl : (taskDoor.run rxs d0).loop = .animation) :
    (((taskDoor.run rxs d0).stay_opened = false ∨ (taskDoor.run rxs d0).cur_state = 3) →
      taskDoor.drain (some .CLOSE) (taskDoor.run rxs d0) =
        { taskDoor.run rxs d0 with opening := false }) ∧
    (¬ ((taskDoor.run rxs d0).stay_opened = false ∨ (taskDoor.run rxs d0).cur_state = 3) →
      taskDoor.drain (some .CLOSE) (taskDoor.run rxs d0) = taskDoor.run rxs d0) ∧
    ((taskDoor.run rxs d0).stay_opened = true → 3 ∉ taskDoor.phases rxs d0 →
      taskDoor.drain (some .CLOSE) (taskDoor.run rxs d0) = taskDoor.run rxs d0 ∧
      taskDoor.step (some .CLOSE) (taskDoor.run rxs d0) =
        taskDoor.step none (taskDoor.run rxs d0)) := by
  have key : ∀ d : Door,
      (d.stay_opened = false ∨ d.cur_state = 3 →
        taskDoor.drain (some .CLOSE) d = { d with opening := false }) ∧
      (¬ (d.stay_opened = false ∨ d.cur_state = 3) →
        taskDoor.drain (some .CLOSE) d = d) := by
    intro d
    unfold taskDoor.drain
    constructor
    · intro h
      rw [if_pos]
      rcases h with h | h
      · exact Or.inl h
      · cases hs : d.stay_opened
        · exact Or.inl rfl
        · exact Or.inr ⟨rfl, h⟩
    · intro h
      rw [if_neg]
      rintro (h1 | ⟨-, h2⟩)
      · exact h (Or.inl h1)
      · exact h (Or.inr h2)
  refine ⟨(key _).1, (key _).2, ?_⟩
  intro hs h3
  have hc : (taskDoor.run rxs d0).cur_state ≠ 3 := by
    intro h
    rcases cur_state_three rxs d0 h with hm | hz
    · exact h3 hm
    · rw [h0.2.1] at hz
      exact absurd hz (by decide)
  have hd : taskDoor.drain (some .CLOSE) (taskDoor.run rxs d0) = taskDoor.run rxs d0 := by
    apply (key _).2
    rintro (h1 | h2)
    · rw [hs] at h1
      exact absurd h1 (by decide)
    · exact hc h2
  refine ⟨hd, ?_⟩
  unfold taskDoor.step
  rw [hl]
  simp only
  rw [hd]
  rfl

/-- Witness for C11 (amended): the held door on its way up, two iterations after
`STAY_OPEN`. -/
theorem taskDoor_close_witness :
    Door.startup.isIdle ∧
    (taskDoor.run [some .STAY_OPEN, none, none] Door.startup).loop = .animation ∧
    ((((taskDoor.run [some .STAY_OPEN, none, none] Door.startup).stay_opened = false ∨
        (taskDoor.run [some .STAY_OPEN, none, none] Door.startup).cur_state = 3) →
      taskDoor.drain (some .CLOSE) (taskDoor.run [some .STAY_OPEN, none, none] Door.startup) =
        { taskDoor.run [some .STAY_OPEN, none, none] Door.startup with opening := false }) ∧
    (¬ ((taskDoor.run [some .STAY_OPEN, none, none] Door.startup).stay_opened = false ∨
        (taskDoor.run [some .STAY_OPEN, none, none] Door.startup).cur_state = 3) →
      taskDoor.drain (some .CLOSE) (taskDoor.run [some .STAY_OPEN, none, none] Door.startup) =
        taskDoor.run [some .STAY_OPEN, none, none] Door.startup) ∧
    ((taskDoor.run [some .STAY_OPEN, none, none] Door.startup).stay_opened = true →
      3 ∉ taskDoor.phases [some .STAY_OPEN, none, none] Door.startup →
      taskDoor.drain (some .CLOSE) (taskDoor.run [some .STAY_OPEN, none, none] Door.startup) =
        taskDoor.run [some .STAY_OPEN, none, none] Door.startup ∧
      taskDoor.step (some .CLOSE) (taskDoor.run [some .STAY_OPEN, none, none] Door.startup) =
        taskDoor.step none (taskDoor.run [some .STAY_OPEN, none, none] Door.startup))) :=
  ⟨by decide, by decide,
    taskDoor_close Door.startup (by decide) [some .STAY_OPEN, none, none] (by decide)⟩

/-! ## Reversal of a closing door -/

/-- C12, as stated, fails: `Door.midClose` is a door in phase 2 on its way down, not
held; when `OPEN_CLOSE_SEQ` is drained, `next_state` goes from 1 to 3 and the phase the
door enters is 3, not 4. -/
theorem taskDoor_reversal_from_phase_2_enters_3 :
    Door.midClose.loop = .animation ∧
    Door.midClose.cur_state = 2 ∧
    Door.midClose.next_state = 1 ∧
    Door.midClose.opening = false ∧
    Door.midClose.stay_opened = false ∧
    (taskDoor.drain (some .OPEN_CLOSE_SEQ) Door.midClose).next_state = 3 ∧
    taskDoor.phases [some .OPEN_CLOSE_SEQ] Door.midClose = [3] ∧
    (taskDoor.step (some .OPEN_CLOSE_SEQ) Door.midClose).opening = true := by
  decide

/-- C12 (amended): when the door is mid-close in phase 2 (`opening` and `stay_opened`
both clear) in a run that started from an idle door, and `OPEN_CLOSE_SEQ` is drained,
`opening` becomes true and the next phase the door enters is 3: `next_state` goes from
1 to 3, where plain opening from phase 2 would lead as well.  Phase 4 follows one
iteration later if nothing else is drained. -/
theorem taskDoor_reversal_from_phase_2 (d0 : Door) (h0 : d0.isIdle)
    (rxs : List (Option DOOR_MSG)) (hl : (taskDoor.run rxs d0).loop = .animation)
    (hc : (taskDoor.run rxs d0).cur_state = 2)
    (ho : (taskDoor.run rxs d0).opening = false)
    (hs : (taskDoor.run rxs d0).stay_opened = false) :
    (taskDoor.run rxs d0).next_state = 1 ∧
    (taskDoor.drain (some .OPEN_CLOSE_SEQ) (taskDoor.run rxs d0)).next_state = 3 ∧
    (taskDoor.step (some .OPEN_CLOSE_SEQ) (taskDoor.run rxs d0)).opening = true ∧
    taskDoor.phases [some .OPEN_CLOSE_SEQ, none] (taskDoor.run rxs d0) = [3, 4] := by
  have hi := inv_run rxs d0 (inv_of_isIdle d0 h0)
  generalize taskDoor.run rxs d0 = d at hl hc ho hs hi
  unfold Door.inv at hi
  rw [hl] at hi
  obtain ⟨ha, -, -, hn⟩ := hi
  have hn1 := hn ho
  obtain ⟨op, cs, ns, so, ad, l1, l2, l3, tx, lp⟩ := d
  simp only at hl hc ho hs ha hn1
  subst hl hc ho hs ha
  have : ns = 1 := by omega
  subst this
  simp [taskDoor.phases, taskDoor.step, taskDoor.drain, taskDoor.phase, taskDoor.test,
    setLED, LED1, LED2, LED3]

/-- Witness for C12 (amended): the door `Door.midClose`, reached from the starting door
by `OPEN_CLOSE_SEQ` and seven iterations. -/
theorem taskDoor_reversal_from_phase_2_witness :
    Door.startup.isIdle ∧
    (taskDoor.run (some .OPEN_CLOSE_SEQ :: List.replicate 7 none) Door.startup).loop
      = .animation ∧
    (taskDoor.run (some .OPEN_CLOSE_SEQ :: List.replicate 7 none) Door.startup).cur_state
      = 2 ∧
    (taskDoor.run (some .OPEN_CLOSE_SEQ :: List.replicate 7 none) Door.startup).opening
      = false ∧
    (taskDoor.run (some .OPEN_CLOSE_SEQ :: List.replicate 7 none) Door.startup).stay_opened
      = false ∧
    ((taskDoor.run (some .OPEN_CLOSE_SEQ :: List.replicate 7 none) Door.startup).next_state
      = 1 ∧
    (taskDoor.drain (some .OPEN_CLOSE_SEQ)
      (taskDoor.run (some .OPEN_CLOSE_SEQ :: List.replicate 7 none) Door.startup)).next_state
      = 3 ∧
    (taskDoor.step (some .OPEN_CLOSE_SEQ)
      (taskDoor.run (some .OPEN_CLOSE_SEQ :: List.replicate 7 none) Door.startup)).opening
      = true ∧
    taskDoor.phases [some .OPEN_CLOSE_SEQ, none]
      (taskDoor.run (some .OPEN_CLOSE_SEQ :: List.replicate 7 none) Door.startup)
      = [3, 4]) :=
  ⟨by decide, by decide, by decide, by decide, by decide,
    taskDoor_reversal_from_phase_2 Door.startup (by decide)
      (some .OPEN_CLOSE_SEQ :: List.replicate 7 none) (by decide) (by decide) (by decide)
      (by decide)⟩

/-! ## When `CLOSED` is posted -/

/-- C13: in every run of the door task from an idle door, a receive either posts
nothing or is an iteration of the animation loop in phase 0 with `opening` clear, which
posts exactly one `CLOSED`; right after it the door is in phase 0 with `opening`,
`stay_opened` and `animation_done` clear, blocked in the first loop, and
`GetDoorClosed` returns true. -/
theorem taskDoor_closed_from_phase_0 (d0 : Door) (h0 : d0.isIdle)
    (rxs : List (Option DOOR_MSG)) (rx : Option DOOR_MSG) :
    (taskDoor.step rx (taskDoor.run rxs d0)).door_tx = (taskDoor.run rxs d0).door_tx ∨
    ((taskDoor.run rxs d0).loop = .animation ∧
      (taskDoor.phase (taskDoor.drain rx (taskDoor.run rxs d0))).cur_state = 0 ∧
      (taskDoor.phase (taskDoor.drain rx (taskDoor.run rxs d0))).opening = false ∧
      (taskDoor.step rx (taskDoor.run rxs d0)).door_tx =
        (taskDoor.run rxs d0).door_tx ++ [DOOR_MSG.CLOSED] ∧
      (taskDoor.step rx (taskDoor.run rxs d0)).cur_state = 0 ∧
      (taskDoor.step rx (taskDoor.run rxs d0)).opening = false ∧
      (taskDoor.step rx (taskDoor.run rxs d0)).stay_opened = false ∧
      (taskDoor.step rx (taskDoor.run rxs d0)).animation_done = false ∧
      (taskDoor.step rx (taskDoor.run rxs d0)).loop = .idle ∧
      GetDoorClosed (taskDoor.step rx (taskDoor.run rxs d0)) = true) := by
  have hi := inv_run rxs d0 (inv_of_isIdle d0 h0)
  generalize taskDoor.run rxs d0 = d at hi
  cases hl : d.loop
  · left
    unfold Door.inv at hi
    rw [hl] at hi
    obtain ⟨e1, e2, e3, e4, e5⟩ := hi
    obtain ⟨op, cs, ns, so, ad, l1, l2, l3, tx, lp⟩ := d
    simp only at e1 e2 e3 e4 e5 hl
    subst e1 e2 e3 e4 e5 hl
    rcases rx with _ | m
    · rfl
    · cases m <;> simp [taskDoor.step, taskDoor.idle, taskDoor.test]
  · unfold Door.inv at hi
    rw [hl] at hi
    obtain ⟨e1, -, hn, ho⟩ := hi
    obtain ⟨g1, -, g3, g4, -, -⟩ := drain_facts rx d hn ho
    obtain ⟨-, -, p3, -, p5, -⟩ := phase_facts (taskDoor.drain rx d) g1 (by rw [g3, e1])
    unfold taskDoor.step
    rw [hl]
    simp only
    rcases test_facts (taskDoor.phase (taskDoor.drain rx d)) with ⟨-, te⟩ | ⟨ta, te⟩
    · left
      rw [te]
      show (taskDoor.phase (taskDoor.drain rx d)).door_tx = d.door_tx
      rw [p5, g4]
    · right
      rw [te]
      refine ⟨trivial, (p3 ta).1, (p3 ta).2, ?_, rfl, rfl, rfl, rfl, rfl, rfl⟩
      show (taskDoor.phase (taskDoor.drain rx d)).door_tx ++ [DOOR_MSG.CLOSED] = _
      rw [p5, g4]

/-- Witness for C13: the ninth iteration after `OPEN_CLOSE_SEQ`, the one that posts
`CLOSED`. -/
theorem taskDoor_closed_from_phase_0_witness :
    Door.startup.isIdle ∧
    ((taskDoor.step none
        (taskDoor.run (some .OPEN_CLOSE_SEQ :: List.replicate 8 none) Door.startup)).door_tx
      = (taskDoor.run (some .OPEN_CLOSE_SEQ :: List.replicate 8 none) Door.startup).door_tx ∨
    ((taskDoor.run (some .OPEN_CLOSE_SEQ :: List.replicate 8 none) Door.startup).loop
        = .animation ∧
      (taskDoor.phase (taskDoor.drain none
        (taskDoor.run (some .OPEN_CLOSE_SEQ :: List.replicate 8 none)
          Door.startup))).cur_state = 0 ∧
      (taskDoor.phase (taskDoor.drain none
        (taskDoor.run (some .OPEN_CLOSE_SEQ :: List.replicate 8 none)
          Door.startup))).opening = false ∧
      (taskDoor.step none
        (taskDoor.run (some .OPEN_CLOSE_SEQ :: List.replicate 8 none) Door.startup)).door_tx
        = (taskDoor.run (some .OPEN_CLOSE_SEQ :: List.replicate 8 none)
            Door.startup).door_tx ++ [DOOR_MSG.CLOSED] ∧
      (taskDoor.step none
        (taskDoor.run (some .OPEN_CLOSE_SEQ :: List.replicate 8 none)
          Door.startup)).cur_state = 0 ∧
      (taskDoor.step none
        (taskDoor.run (some .OPEN_CLOSE_SEQ :: List.replicate 8 none)
          Door.startup)).opening = false ∧
      (taskDoor.step none
        (taskDoor.run (some .OPEN_CLOSE_SEQ :: List.replicate 8 none)
          Door.startup)).stay_opened = false ∧
      (taskDoor.step none
        (taskDoor.run (some .OPEN_CLOSE_SEQ :: List.replicate 8 none)
          Door.startup)).animation_done = false ∧
      (taskDoor.step none
        (taskDoor.run (some .OPEN_CLOSE_SEQ :: List.replicate 8 none)
          Door.startup)).loop = .idle ∧
      GetDoorClosed (taskDoor.step none
        (taskDoor.run (some .OPEN_CLOSE_SEQ :: List.replicate 8 none) Door.startup))
        = true)) :=
  ⟨by decide, taskDoor_closed_from_phase_0 Door.startup (by decide)
    (some .OPEN_CLOSE_SEQ :: List.replicate 8 none) none⟩

/-! ## Rounding to single precision -/

/-- The leading bit found lies at or above the start of the search. -/
theorem leadingBit_ge (n fuel k : Nat) : k ≤ leadingBit n fuel k := by
  induction fuel generalizing k with
  | zero => exact le_refl _
  | succ f ih =>
    unfold leadingBit
    split_ifs
    · exact le_refl _
    · exact le_trans (Nat.le_succ k) (ih (k + 1))

/-- A leading bit found above the start of the search is a power of two at or below
the number. -/
theorem leadingBit_le (n fuel k : Nat) (h : k < leadingBit n fuel k) :
    2 ^ leadingBit n fuel k ≤ n := by
  induction fuel generalizing k with
  | zero => exact absurd h (lt_irrefl _)
  | succ f ih =>
    unfold leadingBit at h ⊢
    split_ifs at h ⊢ with hc
    · exact absurd h (lt_irrefl _)
    · rcases Nat.eq_or_lt_of_le (leadingBit_ge n f (k + 1)) with he | hl
      · rw [← he]
        exact not_lt.mp hc
      · exact ih (k + 1) hl

/-- With enough fuel the number lies below the next power of two. -/
theorem leadingBit_lt (n fuel k : Nat) (h : n < 2 ^ (k + fuel)) :
    n < 2 ^ (leadingBit n fuel k + 1) := by
  induction fuel generalizing k with
  | zero =>
    unfold leadingBit
    exact lt_of_lt_of_le h (Nat.pow_le_pow_right (by norm_num) (by omega))
  | succ f ih =>
    unfold leadingBit
    split_ifs with hc
    · exact hc
    · exact ih (k + 1) (by rw [show k + 1 + f = k + (f + 1) by omega]; exact h)

/-- The search for the scaling stops at once when none is needed. -/
theorem scaleUp_zero (p q fuel k : Nat) (h : q ≤ p * 2 ^ k) : scaleUp p q fuel k = k := by
  cases fuel with
  | zero => rfl
  | succ f =>
    unfold scaleUp
    rw [if_pos h]

/-- With enough fuel the scaling found brings the fraction up to 1. -/
theorem scaleUp_le (p q fuel k : Nat) (h : q ≤ p * 2 ^ (k + fuel)) :
    q ≤ p * 2 ^ scaleUp p q fuel k := by
  induction fuel generalizing k with
  | zero =>
    unfold scaleUp
    exact h
  | succ f ih =>
    unfold scaleUp
    split_ifs with hc
    · exact hc
    · exact ih (k + 1) (by rw [show k + 1 + f = k + (f + 1) by omega]; exact h)

/-- Rounding a quotient to the nearest integer leaves at most half the divisor between
the product and the dividend. -/
theorem round_half (N D : Nat) (hD : 0 < D) :
    2 * |(((if D < 2 * (N % D) ∨ (2 * (N % D) = D ∧ N / D % 2 = 1) then N / D + 1
      else N / D : ℕ) : ℤ)) * D - N| ≤ D := by
  have hdm : D * (N / D) + N % D = N := Nat.div_add_mod N D
  have hlt : N % D < D := Nat.mod_lt N hD
  have hz : (N : ℤ) = D * (N / D : ℕ) + (N % D : ℕ) := by exact_mod_cast hdm.symm
  split_ifs with hc
  · have : ((N / D + 1 : ℕ) : ℤ) * D - N = (D : ℤ) - (N % D : ℕ) := by
      push_cast at hz ⊢
      linarith
    rw [this, abs_of_nonneg (by omega)]
    rcases hc with hc | ⟨hc, -⟩ <;> omega
  · have : ((N / D : ℕ) : ℤ) * D - N = -((N % D : ℕ) : ℤ) := by
      push_cast at hz ⊢
      linarith
    rw [this, abs_neg, abs_of_nonneg (by omega)]
    push_neg at hc
    omega

/-- The rounded magnitude of a fraction: its value in the integers of the definition,
and its distance from the fraction. -/
theorem round24_spec (p q : Nat) (hq : 0 < q) :
    ∃ m : Nat,
      round24 p q = (m : ℚ) * 2 ^ leadingBit (p / q) (p / q) 0 / 2 ^ (23 + scaleUp p q q 0) ∧
      |(m : ℚ) * 2 ^ leadingBit (p / q) (p / q) 0 / 2 ^ (23 + scaleUp p q q 0) - (p : ℚ) / q| ≤
        2 ^ leadingBit (p / q) (p / q) 0 / 2 ^ (24 + scaleUp p q q 0) := by
  generalize he : leadingBit (p / q) (p / q) 0 = e
  generalize hk : scaleUp p q q 0 = k
  have hD : 0 < q * 2 ^ e := Nat.mul_pos hq (Nat.pos_pow_of_pos _ (by norm_num))
  have hm := round_half (p * 2 ^ (23 + k)) (q * 2 ^ e) hD
  generalize hmdef : (if q * 2 ^ e < 2 * (p * 2 ^ (23 + k) % (q * 2 ^ e)) ∨
      (2 * (p * 2 ^ (23 + k) % (q * 2 ^ e)) = q * 2 ^ e ∧
        p * 2 ^ (23 + k) / (q * 2 ^ e) % 2 = 1) then p * 2 ^ (23 + k) / (q * 2 ^ e) + 1
      else p * 2 ^ (23 + k) / (q * 2 ^ e)) = m at hm
  refine ⟨m, ?_, ?_⟩
  · unfold round24
    simp only [he, hk, hmdef]
    rw [Rat.mkRat_eq_div]
    push_cast
    rfl
  · have hqQ : (0 : ℚ) < q := by exact_mod_cast hq
    have h1 : (m : ℚ) * 2 ^ e / 2 ^ (23 + k) - (p : ℚ) / q =
        ((m : ℚ) * ((q : ℚ) * 2 ^ e) - (p : ℚ) * 2 ^ (23 + k)) / (q * 2 ^ (23 + k)) := by
      field_simp
      ring
    have h2 : (2 : ℚ) * |(m : ℚ) * ((q : ℚ) * 2 ^ e) - (p : ℚ) * 2 ^ (23 + k)| ≤
        (q : ℚ) * 2 ^ e := by
      exact_mod_cast hm
    have h3 : (2 : ℚ) ^ (24 + k) = 2 * 2 ^ (23 + k) := by
      rw [show 24 + k = (23 + k) + 1 by omega, pow_succ]
      ring
    rw [h1, abs_div, abs_of_pos (by positivity : (0 : ℚ) < q * 2 ^ (23 + k)),
      div_le_div_iff₀ (by positivity) (by positivity), h3]
    calc |(m : ℚ) * ((q : ℚ) * 2 ^ e) - (p : ℚ) * 2 ^ (23 + k)| * (2 * 2 ^ (23 + k))
        = (2 * |(m : ℚ) * ((q : ℚ) * 2 ^ e) - (p : ℚ) * 2 ^ (23 + k)|) * 2 ^ (23 + k) := by
          ring
      _ ≤ ((q : ℚ) * 2 ^ e) * 2 ^ (23 + k) :=
          mul_le_mul_of_nonneg_right h2 (by positivity)
      _ = 2 ^ e * (q * 2 ^ (23 + k)) := by ring

/-- A fraction that is not negative is its numerator over its denominator. -/
theorem natAbs_div_den (x : ℚ) (hx : 0 ≤ x) : ((x.num.natAbs : ℕ) : ℚ) / x.den = x := by
  have h0 : 0 ≤ x.num := Rat.num_nonneg.mpr hx
  have h1 : ((x.num.natAbs : ℕ) : ℤ) = x.num := Int.natAbs_of_nonneg h0
  have h2 : ((x.num.natAbs : ℕ) : ℚ) = ((x.num : ℤ) : ℚ) := by
    rw [← Int.cast_natCast, h1]
  rw [h2]
  exact Rat.num_div_den x

/-- The rounded magnitude of 0 is 0. -/
theorem round24_zero (q : Nat) (hq : 0 < q) : round24 0 q = 0 := by
  have hD : ∀ e : Nat, 0 < q * 2 ^ e := fun e => Nat.mul_pos hq (Nat.pos_pow_of_pos _ (by norm_num))
  unfold round24
  simp only [Nat.zero_mul, Nat.zero_div, Nat.zero_mod, Nat.mul_zero]
  have h : ¬ (q * 2 ^ leadingBit 0 0 0 < 0 ∨ (0 = q * 2 ^ leadingBit 0 0 0 ∧ 0 % 2 = 1)) := by
    rintro (h | ⟨h, -⟩)
    · exact absurd h (Nat.not_lt_zero _)
    · exact absurd h.symm (ne_of_gt (hD _))
  rw [if_neg h]
  simp

/-- The rounded magnitude of a positive fraction differs from it by at most the
fraction over `2 ^ 24`. -/
theorem round24_rel (p q : Nat) (hq : 0 < q) (hp : 0 < p) :
    |round24 p q - (p : ℚ) / q| ≤ (p : ℚ) / q / 2 ^ 24 := by
  obtain ⟨m, h1, h2⟩ := round24_spec p q hq
  rw [h1]
  refine le_trans h2 ?_
  have hqQ : (0 : ℚ) < q := by exact_mod_cast hq
  have hpQ : (0 : ℚ) < p := by exact_mod_cast hp
  have hnorm : (2 : ℚ) ^ leadingBit (p / q) (p / q) 0 / 2 ^ scaleUp p q q 0 ≤ (p : ℚ) / q := by
    rcases Nat.eq_zero_or_pos (leadingBit (p / q) (p / q) 0) with he | he
    · rw [he, pow_zero]
      have hk : q ≤ p * 2 ^ scaleUp p q q 0 := by
        apply scaleUp_le
        rw [Nat.zero_add]
        calc q ≤ 2 ^ q := (Nat.lt_two_pow q).le
          _ ≤ p * 2 ^ q := Nat.le_mul_of_pos_left _ hp
      rw [div_le_div_iff₀ (by positivity) hqQ]
      have : (q : ℚ) ≤ (p : ℚ) * 2 ^ scaleUp p q q 0 := by exact_mod_cast hk
      linarith
    · have h2e : 2 ^ leadingBit (p / q) (p / q) 0 ≤ p / q := leadingBit_le _ _ 0 he
      have h1le : 1 ≤ p / q := le_trans (Nat.one_le_two_pow) h2e
      have hqp : q ≤ p := by
        by_contra hc
        rw [Nat.div_eq_of_lt (not_le.mp hc)] at h1le
        exact absurd h1le (by norm_num)
      rw [scaleUp_zero p q q 0 (by simpa using hqp), pow_zero, div_one]
      calc (2 : ℚ) ^ leadingBit (p / q) (p / q) 0 ≤ ((p / q : ℕ) : ℚ) := by exact_mod_cast h2e
        _ ≤ (p : ℚ) / q := Nat.cast_div_le
  calc (2 : ℚ) ^ leadingBit (p / q) (p / q) 0 / 2 ^ (24 + scaleUp p q q 0)
      = 2 ^ leadingBit (p / q) (p / q) 0 / 2 ^ scaleUp p q q 0 / 2 ^ 24 := by
        rw [pow_add]
        field_simp
        ring
    _ ≤ (p : ℚ) / q / 2 ^ 24 := div_le_div_of_nonneg_right hnorm (by positivity)

/-- Rounding to single precision commutes with negation. -/
theorem fl32_neg (x : ℚ) : fl32 (-x) = -fl32 x := by
  unfold fl32
  rw [Rat.neg_num, Rat.neg_den, Int.natAbs_neg]
  rcases lt_trichotomy x.num 0 with h | h | h
  · rw [if_neg (by omega), if_pos h, neg_neg]
  · rw [if_neg (by omega), if_neg (by omega), h, Int.natAbs_zero,
      round24_zero _ x.den_pos, neg_zero]
  · rw [if_pos (by omega), if_neg (by omega)]

/-- Rounding to single precision changes a number by at most its magnitude over
`2 ^ 24`. -/
theorem fl32_rel (x : ℚ) : |fl32 x - x| ≤ |x| / 2 ^ 24 := by
  have key : ∀ y : ℚ, 0 ≤ y → |fl32 y - y| ≤ |y| / 2 ^ 24 := by
    intro y hy
    have hn : ¬ y.num < 0 := not_lt.mpr (Rat.num_nonneg.mpr hy)
    have hfl : fl32 y = round24 y.num.natAbs y.den := by
      unfold fl32
      rw [if_neg hn]
    rcases Nat.eq_zero_or_pos y.num.natAbs with h0 | hpos
    · have hy0 : y = 0 := by
        rw [← Rat.num_eq_zero]
        exact Int.natAbs_eq_zero.mp h0
      rw [hfl, h0, round24_zero _ y.den_pos, hy0]
      simp
    · have h := round24_rel y.num.natAbs y.den y.den_pos hpos
      rw [natAbs_div_den y hy] at h
      rw [hfl, abs_of_nonneg hy]
      exact h
  rcases le_total 0 x with hx | hx
  · exact key x hx
  · have h := key (-x) (by linarith)
    rw [fl32_neg, abs_neg] at h
    have e : -fl32 x - -x = -(fl32 x - x) := by ring
    rw [e, abs_neg] at h
    exact h

/-- Rounding to single precision keeps the sign of a number. -/
theorem fl32_nonneg (x : ℚ) (hx : 0 ≤ x) : 0 ≤ fl32 x := by
  have h := fl32_rel x
  rw [abs_of_nonneg hx] at h
  have h1 := (abs_le.mp h).1
  have : x / 2 ^ 24 ≤ x := div_le_self hx (by norm_num)
  linarith

/-- Rounding to single precision keeps the sign of a number. -/
theorem fl32_nonpos (x : ℚ) (hx : x ≤ 0) : fl32 x ≤ 0 := by
  have h := fl32_nonneg (-x) (by linarith)
  rw [fl32_neg] at h
  linarith

/-- Between 256 and 512 rounding to single precision gives a multiple of `2⁻¹⁵` at most
`2⁻¹⁶` away. -/
theorem fl32_grid (x : ℚ) (h1 : 256 ≤ x) (h2 : x < 512) :
    ∃ m : Nat, fl32 x = (m : ℚ) / 2 ^ 15 ∧ |fl32 x - x| ≤ 1 / 2 ^ 16 := by
  have hx : 0 ≤ x := by linarith
  have hn : ¬ x.num < 0 := not_lt.mpr (Rat.num_nonneg.mpr hx)
  have hfl : fl32 x = round24 x.num.natAbs x.den := by
    unfold fl32
    rw [if_neg hn]
  have hpq := natAbs_div_den x hx
  generalize x.num.natAbs = p at hfl hpq
  have hq : 0 < x.den := x.den_pos
  generalize x.den = q at hfl hpq hq
  have hqQ : (0 : ℚ) < q := by exact_mod_cast hq
  have hp1 : 256 * q ≤ p := by
    have : (256 : ℚ) * q ≤ p := by
      rw [← hpq, le_div_iff₀ hqQ] at h1
      exact h1
    exact_mod_cast this
  have hp2 : p < 512 * q := by
    have : (p : ℚ) < 512 * q := by
      rw [← hpq, div_lt_iff₀ hqQ] at h2
      exact h2
    exact_mod_cast this
  have hn1 : 256 ≤ p / q := (Nat.le_div_iff_mul_le hq).mpr hp1
  have hn2 : p / q < 512 := (Nat.div_lt_iff_lt_mul hq).mpr hp2
  have hk : scaleUp p q q 0 = 0 :=
    scaleUp_zero p q q 0 (by rw [pow_zero, Nat.mul_one]; nlinarith)
  have he : leadingBit (p / q) (p / q) 0 = 8 := by
    have hlt := leadingBit_lt (p / q) (p / q) 0 (by rw [Nat.zero_add]; exact Nat.lt_two_pow _)
    have hpos : 0 < leadingBit (p / q) (p / q) 0 := by
      by_contra hc
      have h0 : leadingBit (p / q) (p / q) 0 = 0 := by omega
      rw [h0] at hlt
      norm_num at hlt
      omega
    have hle := leadingBit_le (p / q) (p / q) 0 hpos
    have a1 : 2 ^ leadingBit (p / q) (p / q) 0 < 2 ^ 9 := lt_of_le_of_lt hle (by norm_num; exact hn2)
    have a2 : 2 ^ 8 < 2 ^ (leadingBit (p / q) (p / q) 0 + 1) :=
      lt_of_le_of_lt (by norm_num; exact hn1) hlt
    have b1 := (Nat.pow_lt_pow_iff_right (by norm_num : 1 < 2)).mp a1
    have b2 := (Nat.pow_lt_pow_iff_right (by norm_num : 1 < 2)).mp a2
    omega
  obtain ⟨m, s1, s2⟩ := round24_spec p q hq
  rw [he, hk] at s1 s2
  rw [hpq] at s2
  refine ⟨m, ?_, ?_⟩
  · rw [hfl, s1]
    norm_num
    ring
  · rw [hfl, s1]
    refine le_trans s2 ?_
    norm_num

/-- Rounding to single precision takes no number at or below 510 above 510: it gives
510 or at most `510 - 2⁻¹⁵`, and it gives 510 only from `510 - 2⁻¹⁶` on. -/
theorem fl32_below_top (x : ℚ) (h : x ≤ 510) :
    fl32 x ≤ 510 ∧ (fl32 x = 510 ∨ fl32 x ≤ 510 - 1 / 2 ^ 15) ∧
      (fl32 x = 510 → 510 - 1 / 2 ^ 16 ≤ x) := by
  by_cases h256 : 256 ≤ x
  · obtain ⟨m, g1, g2⟩ := fl32_grid x h256 (by linarith)
    have g3 := abs_le.mp g2
    have hm : (m : ℚ) ≤ 16711680 + 1 / 2 := by
      have : (m : ℚ) / 2 ^ 15 ≤ 510 + 1 / 2 ^ 16 := by
        rw [← g1]
        linarith [g3.2]
      rw [div_le_iff₀ (by positivity)] at this
      norm_num at this ⊢
      linarith
    have hm1 : m ≤ 16711680 := by
      by_contra hc
      have : (16711681 : ℚ) ≤ m := by exact_mod_cast (not_le.mp hc)
      linarith
    have hmQ : (m : ℚ) ≤ 16711680 := by exact_mod_cast hm1
    refine ⟨?_, ?_, ?_⟩
    · rw [g1, div_le_iff₀ (by positivity)]
      norm_num
      exact hm1
    · rcases Nat.eq_or_lt_of_le hm1 with he | hl
      · left
        rw [g1, he]
        norm_num
      · right
        have : (m : ℚ) ≤ 16711679 := by exact_mod_cast (Nat.lt_succ_iff.mp hl)
        rw [g1, div_le_iff₀ (by positivity)]
        norm_num
        linarith
    · intro he
      rw [he] at g3
      linarith [g3.1]
  · have hlt : x < 256 := not_le.mp h256
    have hb : fl32 x ≤ 257 := by
      rcases le_total x 0 with hx | hx
      · linarith [fl32_nonpos x hx]
      · have h1 := fl32_rel x
        rw [abs_of_nonneg hx] at h1
        have h2 := (abs_le.mp h1).2
        have : x / 2 ^ 24 ≤ 1 := by
          rw [div_le_iff₀ (by positivity)]
          norm_num
          linarith
        linarith
    refine ⟨by linarith, Or.inr (by norm_num; linarith), ?_⟩
    intro he
    rw [he] at hb
    norm_num at hb

/-- Rounding to single precision takes a number less than `2⁻¹⁶` above 510 back to
510 or below. -/
theorem fl32_above_top (x : ℚ) (h1 : 510 ≤ x) (h2 : x < 510 + 1 / 2 ^ 16) : fl32 x ≤ 510 := by
  obtain ⟨m, g1, g2⟩ := fl32_grid x (by linarith) (by norm_num at h2 ⊢; linarith)
  have g3 := abs_le.mp g2
  have hm : (m : ℚ) < 16711681 := by
    have : (m : ℚ) / 2 ^ 15 < 510 + 1 / 2 ^ 15 := by
      rw [← g1]
      have : (1 : ℚ) / 2 ^ 15 = 1 / 2 ^ 16 + 1 / 2 ^ 16 := by norm_num
      linarith [g3.2]
    rw [div_lt_iff₀ (by positivity)] at this
    norm_num at this ⊢
    linarith
  have hm1 : m < 16711681 := by exact_mod_cast hm
  have hmQ : (m : ℚ) ≤ 16711680 := by exact_mod_cast (Nat.lt_succ_iff.mp hm1)
  rw [g1, div_le_iff₀ (by positivity)]
  norm_num
  omega

/-- The two bounds on the rounding of a number that is not negative. -/
theorem fl32_bounds (x : ℚ) (hx : 0 ≤ x) :
    x - x / 2 ^ 24 ≤ fl32 x ∧ fl32 x ≤ x + x / 2 ^ 24 := by
  have h := fl32_rel x
  rw [abs_of_nonneg hx] at h
  have h1 := abs_le.mp h
  constructor <;> linarith [h1.1, h1.2]

/-- The upper bound on the rounding of a number that is not positive. -/
theorem fl32_le_of_nonpos (x : ℚ) (hx : x ≤ 0) : fl32 x ≤ x - x / 2 ^ 24 := by
  have h := fl32_rel x
  rw [abs_of_nonpos hx] at h
  have h1 := abs_le.mp h
  have : -x / 2 ^ 24 = -(x / 2 ^ 24) := by ring
  linarith [h1.2]

/-- The lower bound on the rounding of a number that is not positive. -/
theorem fl32_ge_of_nonpos (x : ℚ) (hx : x ≤ 0) : x + x / 2 ^ 24 ≤ fl32 x := by
  have h := fl32_rel x
  rw [abs_of_nonpos hx] at h
  have h1 := abs_le.mp h
  have : -x / 2 ^ 24 = -(x / 2 ^ 24) := by ring
  linarith [h1.1]

/-- The half step up and the correction `e`, in single precision, leave a position that
is not negative, for a start that is not negative, a speed above half of `B / 2` and a
correction of at least `-B / 8`, both up to rounding. -/
theorem fl32_near_ground (loc v B e : ℚ) (h0 : 0 ≤ loc) (hB : 0 ≤ B)
    (hv : B / 2 - B / 2 / 2 ^ 24 < v) (he : -(B / 8 + B / 8 / 2 ^ 24) ≤ e) :
    0 ≤ fl32 (fl32 (loc + fl32 (v / 2)) + e) := by
  have hv0 : 0 ≤ v := by
    have : 0 ≤ B / 2 - B / 2 / 2 ^ 24 := by
      have : B / 2 / 2 ^ 24 ≤ B / 2 := div_le_self (by linarith) (by norm_num)
      linarith
    linarith
  obtain ⟨s1, -⟩ := fl32_bounds (v / 2) (by linarith)
  have hs0 : 0 ≤ fl32 (v / 2) := fl32_nonneg _ (by linarith)
  obtain ⟨l1, -⟩ := fl32_bounds (loc + fl32 (v / 2)) (by linarith)
  apply fl32_nonneg
  norm_num at hv he s1 l1 ⊢
  linarith

/-- The half step down and the correction `t`, in single precision, leave a position at
or below 510, for a start at or below 510, a speed above half of `B / 2` and a
correction of at most `B / 8`, both up to rounding. -/
theorem fl32_near_top (loc v B t : ℚ) (h1 : loc ≤ 510) (hB : 0 ≤ B)
    (hv : B / 2 - B / 2 / 2 ^ 24 < v) (ht : t ≤ B / 8 + B / 8 / 2 ^ 24) :
    fl32 (fl32 (loc - fl32 (v / 2)) + t) ≤ 510 := by
  have hv0 : 0 ≤ v := by
    have : 0 ≤ B / 2 - B / 2 / 2 ^ 24 := by
      have : B / 2 / 2 ^ 24 ≤ B / 2 := div_le_self (by linarith) (by norm_num)
      linarith
    linarith
  obtain ⟨s1, -⟩ := fl32_bounds (v / 2) (by linarith)
  have hs0 : 0 ≤ fl32 (v / 2) := fl32_nonneg _ (by linarith)
  generalize fl32 (v / 2) = s at s1 hs0
  have hz : loc - s ≤ 510 := by linarith
  obtain ⟨u1, u3, u4⟩ := fl32_below_top (loc - s) hz
  by_cases hsum : fl32 (loc - s) + t ≤ 510
  · exact (fl32_below_top _ hsum).1
  · have hgt : 510 < fl32 (loc - s) + t := not_le.mp hsum
    rcases u3 with e510 | elow
    · have hz2 := u4 e510
      rw [e510] at hgt ⊢
      apply fl32_above_top
      · linarith
      · norm_num at hv ht s1 hz2 ⊢
        linarith
    · exfalso
      rcases le_total (loc - s) 0 with hneg | hpos
      · have hy := fl32_le_of_nonpos (loc - s) hneg
        norm_num at hv ht s1 hy elow hgt
        linarith
      · obtain ⟨-, hy⟩ := fl32_bounds (loc - s) hpos
        norm_num at hv ht s1 hy elow hgt
        linarith

/-! ## The loop of `MoveCar` -/

/-- The second part of a pass writes `cur_loc`, `cur_speed` and `accel_up` only. -/
theorem advance_frame (fl sqrtf : ℚ → ℚ) (c : Car) :
    (MoveCar.advance fl sqrtf c).dest = c.dest ∧
    (MoveCar.advance fl sqrtf c).requests = c.requests ∧
    (MoveCar.advance fl sqrtf c).emerg_stop_enabled = c.emerg_stop_enabled ∧
    (MoveCar.advance fl sqrtf c).accel = c.accel ∧
    (MoveCar.advance fl sqrtf c).max_speed = c.max_speed ∧
    (MoveCar.advance fl sqrtf c).going_up = c.going_up :=
  ⟨rfl, rfl, rfl, rfl, rfl, rfl⟩

/-- Without an emergency stop the first part of a pass does nothing. -/
theorem retarget_clear (fl : ℚ → ℚ) (c : Car) (h : c.emerg_stop_enabled = false) :
    MoveCar.retarget fl c = c := by
  unfold MoveCar.retarget
  rw [if_neg (by simp [h])]

/-- The first part of a pass touches neither the kinematic values nor slots 0 to 2. -/
theorem retarget_frame (fl : ℚ → ℚ) (c : Car) :
    (MoveCar.retarget fl c).max_speed = c.max_speed ∧
    (MoveCar.retarget fl c).accel = c.accel ∧
    (MoveCar.retarget fl c).cur_loc = c.cur_loc ∧
    (MoveCar.retarget fl c).cur_speed = c.cur_speed ∧
    (MoveCar.retarget fl c).going_up = c.going_up ∧
    (MoveCar.retarget fl c).emerg_stop_enabled = c.emerg_stop_enabled ∧
    (MoveCar.retarget fl c).requests.r0 = c.requests.r0 ∧
    (MoveCar.retarget fl c).requests.r1 = c.requests.r1 ∧
    (MoveCar.retarget fl c).requests.r2 = c.requests.r2 := by
  unfold MoveCar.retarget
  split_ifs <;> exact ⟨rfl, rfl, rfl, rfl, rfl, rfl, rfl, rfl, rfl⟩

/-- The destination of the car stays where it is over the second part of a pass. -/
theorem advance_feet (fl sqrtf : ℚ → ℚ) (c : Car) :
    ((MoveCar.advance fl sqrtf c).requests.get (MoveCar.advance fl sqrtf c).dest).feet =
      (c.requests.get c.dest).feet := rfl

/-- The correction for overshoot never raises the speed, and the clamp keeps it at or
below the maximum: whatever the rounding and whatever `sqrtf` returns. -/
theorem speed3_le (fl sqrtf : ℚ → ℚ) (c : Car) :
    MoveCar.speed3 fl sqrtf c ≤ MoveCar.speed2 fl c ∧ MoveCar.speed2 fl c ≤ c.max_speed := by
  constructor
  · unfold MoveCar.speed3
    split_ifs with h
    · unfold MoveCar.over at h
      simp only [decide_eq_true_eq] at h
      exact h.2
    · exact le_refl _
  · unfold MoveCar.speed2
    split_ifs with h
    · exact le_refl _
    · exact not_lt.mp h

/-- A pass that does not arrive leaves a positive speed and a car short of its
destination in its direction of travel: whatever the rounding and whatever `sqrtf`
returns. -/
theorem not_arrived_pass (fl sqrtf : ℚ → ℚ) (c : Car)
    (h : MoveCar.arrived fl sqrtf c = false) :
    0 < MoveCar.speed3 fl sqrtf c ∧
    (c.going_up = false → (c.requests.get c.dest).feet < MoveCar.loc2 fl c) ∧
    (c.going_up = true → MoveCar.loc2 fl c < (c.requests.get c.dest).feet) := by
  unfold MoveCar.arrived at h
  rw [decide_eq_false_iff_not] at h
  push_neg at h
  exact h

/-- The speed the second part of a pass leaves, for a maximum speed that is not
negative. -/
theorem advance_speed_bounds (fl sqrtf : ℚ → ℚ) (c : Car) (h : 0 ≤ c.max_speed) :
    0 ≤ (MoveCar.advance fl sqrtf c).cur_speed ∧
    (MoveCar.advance fl sqrtf c).cur_speed ≤ c.max_speed := by
  have e : (MoveCar.advance fl sqrtf c).cur_speed =
      if MoveCar.arrived fl sqrtf c = true then 0 else MoveCar.speed3 fl sqrtf c := rfl
  rw [e]
  cases ha : MoveCar.arrived fl sqrtf c
  · simp only [Bool.false_eq_true, if_false]
    obtain ⟨h3, -⟩ := not_arrived_pass fl sqrtf c ha
    obtain ⟨h32, h2⟩ := speed3_le fl sqrtf c
    exact ⟨le_of_lt h3, le_trans h32 h2⟩
  · simp only [if_true]
    exact ⟨le_refl _, h⟩

/-- The speed the second part of a pass leaves is never negative. -/
theorem advance_speed_nonneg (fl sqrtf : ℚ → ℚ) (c : Car) :
    0 ≤ (MoveCar.advance fl sqrtf c).cur_speed := by
  have e : (MoveCar.advance fl sqrtf c).cur_speed =
      if MoveCar.arrived fl sqrtf c = true then 0 else MoveCar.speed3 fl sqrtf c := rfl
  rw [e]
  cases ha : MoveCar.arrived fl sqrtf c
  · simp only [Bool.false_eq_true, if_false]
    exact le_of_lt (not_arrived_pass fl sqrtf c ha).1
  · simp only [if_true]
    exact le_refl _

/-- A pass that arrives leaves the car at its destination, at rest. -/
theorem advance_arrived (fl sqrtf : ℚ → ℚ) (c : Car)
    (h : MoveCar.arrived fl sqrtf c = true) :
    (MoveCar.advance fl sqrtf c).cur_loc = (c.requests.get c.dest).feet ∧
    (MoveCar.advance fl sqrtf c).cur_speed = 0 := by
  have e1 : (MoveCar.advance fl sqrtf c).cur_loc =
      if MoveCar.arrived fl sqrtf c = true then (c.requests.get c.dest).feet
      else MoveCar.loc2 fl c := rfl
  have e2 : (MoveCar.advance fl sqrtf c).cur_speed =
      if MoveCar.arrived fl sqrtf c = true then 0 else MoveCar.speed3 fl sqrtf c := rfl
  rw [e1, e2, h]
  exact ⟨rfl, rfl⟩

/-- More fuel does not change what the loop returns. -/
theorem loop_mono (fl sqrtf : ℚ → ℚ) (n : Nat) (c r : Car)
    (h : MoveCar.loop fl sqrtf n c = some r) : MoveCar.loop fl sqrtf (n + 1) c = some r := by
  induction n generalizing c with
  | zero =>
    unfold MoveCar.loop at h ⊢
    split_ifs at h ⊢ with hc
    exact h
  | succ k ih =>
    unfold MoveCar.loop at h
    rw [MoveCar.loop]
    split_ifs at h ⊢ with hc
    · exact h
    · exact ih _ h

/-- More fuel does not change what the loop returns. -/
theorem loop_mono_le (fl sqrtf : ℚ → ℚ) (n m : Nat) (c r : Car) (hnm : n ≤ m)
    (h : MoveCar.loop fl sqrtf n c = some r) : MoveCar.loop fl sqrtf m c = some r := by
  induction hnm with
  | refl => exact h
  | step _ ih => exact loop_mono fl sqrtf _ c r ih

/-- A car that a pass leaves as it was, away from its destination, never leaves the
loop. -/
theorem loop_stuck (fl sqrtf : ℚ → ℚ) (c : Car) (hfix : MoveCar.tick fl sqrtf c = c)
    (hne : c.cur_loc ≠ (c.requests.get c.dest).feet) (n : Nat) :
    MoveCar.loop fl sqrtf n c = none := by
  induction n with
  | zero =>
    unfold MoveCar.loop
    exact if_neg hne
  | succ k ih =>
    rw [MoveCar.loop, if_neg hne, hfix]
    exact ih

/-! ## A pass in arithmetic without rounding -/

/-- The car is at its destination exactly when no distance is left on its leg. -/
theorem leg_dist_zero (c : Car) :
    c.leg.dist = 0 ↔ c.cur_loc = (c.requests.get c.dest).feet := by
  unfold Car.leg
  simp only
  split_ifs
  · constructor <;> intro h <;> linarith
  · constructor <;> intro h <;> linarith

/-- The speed after the clamp, seen on the leg. -/
theorem speed2_leg (c : Car) : MoveCar.speed2 id c = c.leg.v2 c.accel c.max_speed := by
  unfold MoveCar.speed2 MoveCar.speed1 Leg.v2 Car.leg
  simp

/-- The location after the correction, seen on the leg. -/
theorem loc2_leg (c : Car) :
    c.leg.r2 c.accel c.max_speed =
      if c.going_up = true then (c.requests.get c.dest).feet - MoveCar.loc2 id c
      else MoveCar.loc2 id c - (c.requests.get c.dest).feet := by
  unfold MoveCar.loc2 Leg.r2
  rw [← speed2_leg]
  unfold MoveCar.loc1 Car.leg
  cases c.going_up <;> cases c.accel_up <;> simp <;> split_ifs <;> ring

/-- The argument of `sqrtf`, seen on the leg. -/
theorem arg_leg (c : Car) : MoveCar.arg id c = 2 * c.accel * c.leg.r2 c.accel c.max_speed := by
  rw [loc2_leg]
  unfold MoveCar.arg
  split_ifs <;> rfl

/-- The overshoot test, seen on the leg. -/
theorem over_leg (sqrtf : ℚ → ℚ) (c : Car) :
    MoveCar.over id sqrtf c = c.leg.over sqrtf c.accel c.max_speed := by
  unfold MoveCar.over Leg.over
  rw [arg_leg, speed2_leg]

/-- The speed after the correction for overshoot, seen on the leg. -/
theorem speed3_leg (sqrtf : ℚ → ℚ) (c : Car) :
    MoveCar.speed3 id sqrtf c = c.leg.v3 sqrtf c.accel c.max_speed := by
  unfold MoveCar.speed3 Leg.v3
  rw [over_leg, arg_leg, speed2_leg]

/-- The arrival test, seen on the leg. -/
theorem arrived_leg (sqrtf : ℚ → ℚ) (c : Car) :
    MoveCar.arrived id sqrtf c = c.leg.arrived sqrtf c.accel c.max_speed := by
  unfold MoveCar.arrived Leg.arrived
  rw [speed3_leg, loc2_leg]
  cases c.going_up <;> simp

/-- The second part of a pass, seen on the leg of the car. -/
theorem advance_leg (sqrtf : ℚ → ℚ) (c : Car) :
    (MoveCar.advance id sqrtf c).leg = Leg.tick sqrtf c.accel c.max_speed c.leg := by
  have h1 := arrived_leg sqrtf c
  have h2 := over_leg sqrtf c
  have h3 := speed3_leg sqrtf c
  have h4 := loc2_leg c
  unfold Leg.tick
  rw [← h1, ← h2, ← h3, h4]
  unfold MoveCar.advance Car.leg
  cases c.going_up <;> cases c.accel_up <;> cases MoveCar.arrived id sqrtf c <;>
    cases MoveCar.over id sqrtf c <;> simp [RequestTable.get]

/-! ## One pass on a leg -/

/-- The correction for overshoot never raises the speed. -/
theorem v3_le_v2 (sqrtf : ℚ → ℚ) (a top : ℚ) (g : Leg) :
    g.v3 sqrtf a top ≤ g.v2 a top := by
  unfold Leg.v3
  split_ifs with h
  · unfold Leg.over at h
    simp only [decide_eq_true_eq] at h
    exact h.2
  · exact le_refl _

/-- A pass that does not end the leg leaves a positive speed and a positive distance. -/
theorem not_arrived (sqrtf : ℚ → ℚ) (a top : ℚ) (g : Leg)
    (h : g.arrived sqrtf a top = false) : 0 < g.v3 sqrtf a top ∧ 0 < g.r2 a top := by
  unfold Leg.arrived at h
  simp only [decide_eq_false_iff_not, not_or, not_le] at h
  exact h

/-- The speed after the clamp, while speeding. -/
theorem v2_speeding (a top : ℚ) (g : Leg) (hs : g.speeding = true) :
    g.v2 a top = min (g.speed + a / 2) top := by
  unfold Leg.v2
  rw [hs]
  simp only [if_true]
  split_ifs with h
  · exact (min_eq_right (le_of_lt h)).symm
  · exact (min_eq_left (not_lt.mp h)).symm

/-- The speed after the clamp, while slowing. -/
theorem v2_slowing (a top : ℚ) (g : Leg) (hs : g.speeding = false) :
    g.v2 a top = min (g.speed - a / 2) top := by
  unfold Leg.v2
  rw [hs]
  simp only [Bool.false_eq_true, if_false]
  split_ifs with h
  · exact (min_eq_right (le_of_lt h)).symm
  · exact (min_eq_left (not_lt.mp h)).symm

/-- The clamp keeps the speed at or below the maximum. -/
theorem v2_le_top (a top : ℚ) (g : Leg) : g.v2 a top ≤ top := by
  cases hs : g.speeding
  · rw [v2_slowing a top g hs]
    exact min_le_right _ _
  · rw [v2_speeding a top g hs]
    exact min_le_right _ _

/-- A pass that does not end the leg never lengthens it, given a speed that is not
negative at its start; and it shortens it by half that speed at least. -/
theorem r2_le (sqrtf : ℚ → ℚ) (a top : ℚ) (g : Leg) (hv : 0 ≤ g.speed)
    (h : g.arrived sqrtf a top = false) :
    g.r2 a top ≤ g.dist ∧ (0 < a → g.speeding = true → g.r2 a top ≤ g.dist - g.speed / 2) := by
  obtain ⟨h3, -⟩ := not_arrived sqrtf a top g h
  have h32 := v3_le_v2 sqrtf a top g
  have hpos : 0 < g.v2 a top := lt_of_lt_of_le h3 h32
  unfold Leg.r2
  cases hs : g.speeding
  · have e := v2_slowing a top g hs
    simp only [Bool.false_eq_true, if_false]
    split_ifs with hne
    · have : g.v2 a top = g.speed - a / 2 := by
        rw [e]
        rcases min_choice (g.speed - a / 2) top with hm | hm
        · exact hm
        · exact absurd (e.trans hm) hne
      rw [this] at hpos
      constructor
      · norm_num
        linarith
      · intro _ hc
        exact absurd hc (by decide)
    · constructor
      · linarith
      · intro _ hc
        exact absurd hc (by decide)
  · have e := v2_speeding a top g hs
    simp only [if_true]
    split_ifs with hne
    · have : g.v2 a top = g.speed + a / 2 := by
        rw [e]
        rcases min_choice (g.speed + a / 2) top with hm | hm
        · exact hm
        · exact absurd (e.trans hm) hne
      rw [this] at hpos
      constructor
      · norm_num
        linarith
      · intro ha _
        norm_num
        linarith
    · constructor
      · linarith
      · intro _ _
        exact le_refl _

/-! ## The speed after a pass -/

/-- C14, as stated, fails: after `SetMaxSpeed(-5)` the first pass of a trip from the
ground stop to the mid stop, in single precision, clamps the speed to -5 and the arrival
test then sets it to 0, which is above the maximum speed. -/
theorem MoveCar_tick_speed_above_negative_max :
    Physics.negativeTop.moving = true ∧
    Physics.negativeTop.car.cur_loc ≠
      (Physics.negativeTop.car.requests.get Physics.negativeTop.car.dest).feet ∧
    Physics.negativeTop.car.max_speed = -5 ∧
    MoveCar.speed2 fl32 Physics.negativeTop.car = -5 ∧
    (MoveCar.tick fl32 sqrtfNearest Physics.negativeTop.car).cur_speed = 0 ∧
    ¬ ((MoveCar.tick fl32 sqrtfNearest Physics.negativeTop.car).cur_speed ≤
      (MoveCar.tick fl32 sqrtfNearest Physics.negativeTop.car).max_speed) := by
  decide!

/-- C14 (amended): after every pass of the loop of `MoveCar`, for every car at the start
of the pass with finite values in its variables, every finite acceleration and every
finite maximum speed that is not negative, the speed of the car is at least 0 and at
most the maximum speed.  This holds whatever the rounding `fl` of the operations and
whatever `sqrtf` returns: the bounds come from the clamp of line 133, the comparison of
line 152 and the arrival test of line 162. -/
theorem MoveCar_tick_speed_bounds (fl sqrtf : ℚ → ℚ) (c : Car) (h : 0 ≤ c.max_speed) :
    0 ≤ (MoveCar.tick fl sqrtf c).cur_speed ∧
    (MoveCar.tick fl sqrtf c).cur_speed ≤ (MoveCar.tick fl sqrtf c).max_speed := by
  obtain ⟨hm, -⟩ := retarget_frame fl c
  have hb := advance_speed_bounds fl sqrtf (MoveCar.retarget fl c) (by rw [hm]; exact h)
  have hf := (advance_frame fl sqrtf (MoveCar.retarget fl c)).2.2.2.2.1
  unfold MoveCar.tick
  rw [hf]
  exact hb

/-- Witness for C14 (amended): the first pass of a trip from the ground stop to the mid
stop at the default settings, in single precision. -/
theorem MoveCar_tick_speed_bounds_witness :
    0 ≤ Physics.boundForMid.car.max_speed ∧
    (0 ≤ (MoveCar.tick fl32 sqrtfNearest Physics.boundForMid.car).cur_speed ∧
    (MoveCar.tick fl32 sqrtfNearest Physics.boundForMid.car).cur_speed ≤
      (MoveCar.tick fl32 sqrtfNearest Physics.boundForMid.car).max_speed) :=
  ⟨by decide!,
    MoveCar_tick_speed_bounds fl32 sqrtfNearest Physics.boundForMid.car (by decide!)⟩

/-! ## The position of the car -/

/-- A floor call leaves every position, the destination, the direction and the
kinematic values alone. -/
theorem SetRequest_frame (i : Fin 4) (dir : DIR) (c : Car) :
    (SetRequest i dir c).requests.r0.feet = c.requests.r0.feet ∧
    (SetRequest i dir c).requests.r1.feet = c.requests.r1.feet ∧
    (SetRequest i dir c).requests.r2.feet = c.requests.r2.feet ∧
    (SetRequest i dir c).requests.r3.feet = c.requests.r3.feet ∧
    (SetRequest i dir c).dest = c.dest ∧
    (SetRequest i dir c).cur_loc = c.cur_loc ∧
    (SetRequest i dir c).cur_speed = c.cur_speed ∧
    (SetRequest i dir c).emerg_stop_enabled = c.emerg_stop_enabled ∧
    (SetRequest i dir c).going_up = c.going_up := by
  fin_cases i <;>
    simp [SetRequest, RequestTable.set, RequestTable.get] <;>
    split_ifs <;> simp

/-- The scan leaves every position and the speed alone. -/
theorem select_kinematics (c : Car) :
    (UpdateDestination.select c).2.cur_loc = c.cur_loc ∧
    (UpdateDestination.select c).2.cur_speed = c.cur_speed ∧
    (UpdateDestination.select c).2.requests.r0.feet = c.requests.r0.feet ∧
    (UpdateDestination.select c).2.requests.r1.feet = c.requests.r1.feet ∧
    (UpdateDestination.select c).2.requests.r2.feet = c.requests.r2.feet ∧
    (UpdateDestination.select c).2.requests.r3.feet = c.requests.r3.feet := by
  cases h : c.emerg_stop_enabled
  · rcases select_cases c h with ⟨-, -, hs⟩ | ⟨-, -, -, hs⟩ | ⟨-, -, hs⟩ | ⟨-, -, -, hs⟩ | hs <;>
      rw [hs] <;>
      obtain ⟨loc, dest, sp, ms, ac, gu, au, es,
        ⟨⟨q0, d0, f0, a0⟩, ⟨q1, d1, f1, a1⟩, ⟨q2, d2, f2, a2⟩, r3⟩, b4, b5⟩ := c <;>
      simp only at h <;> subst h <;>
      cases q0 <;> cases q1 <;> cases q2 <;> cases d1 <;>
      simp [UpdateDestination.upFromGround, UpdateDestination.upFromMid,
        UpdateDestination.downFromMid, UpdateDestination.downFromTop, Car.serve, Car.retag,
        RequestTable.get, RequestTable.set]
  · rw [select_emergency c h]
    simp [Car.serve, RequestTable.get, RequestTable.set]

/-- The function `UpdateDestination` leaves every position and the speed alone. -/
theorem UpdateDestination_kinematics (c : Car) :
    (UpdateDestination c).2.cur_loc = c.cur_loc ∧
    (UpdateDestination c).2.cur_speed = c.cur_speed ∧
    (UpdateDestination c).2.requests.r0.feet = c.requests.r0.feet ∧
    (UpdateDestination c).2.requests.r1.feet = c.requests.r1.feet ∧
    (UpdateDestination c).2.requests.r2.feet = c.requests.r2.feet ∧
    (UpdateDestination c).2.requests.r3.feet = c.requests.r3.feet := by
  obtain ⟨k1, k2, k4, k5, k6, k7⟩ := select_kinematics (UpdateDestination.direction c)
  have hsp : (UpdateDestination.direction c).cur_speed = c.cur_speed := by
    rw [direction_eq c]
  have hleds : ∀ x : Car, (UpdateDestination.leds x).cur_speed = x.cur_speed := by
    intro x
    unfold UpdateDestination.leds
    split_ifs <;> rfl
  simp only [direction_requests, direction_cur_loc] at k1 k4 k5 k6 k7
  unfold UpdateDestination
  simp only [leds_cur_loc, leds_requests, hleds]
  exact ⟨k1, k2.trans hsp, k4, k5, k6, k7⟩

/-- The function `UpdateDestination` keeps the positions of the table in the shaft. -/
theorem UpdateDestination_inShaft (c : Car) (h : c.requests.inShaft) :
    (UpdateDestination c).2.requests.inShaft := by
  obtain ⟨⟨p0, p1, p2⟩, p3, p4⟩ := h
  obtain ⟨-, -, k4, k5, k6, k7⟩ := UpdateDestination_kinematics c
  exact ⟨⟨k4.trans p0, k5.trans p1, k6.trans p2⟩, by rw [k7]; exact p3, by rw [k7]; exact p4⟩

/-- Every position of a table in the shaft lies between 0 and 510. -/
theorem feet_bounds (t : RequestTable) (hp : t.inShaft) (i : Fin 4) :
    0 ≤ (t.get i).feet ∧ (t.get i).feet ≤ 510 := by
  obtain ⟨⟨p0, p1, p2⟩, p3, p4⟩ := hp
  fin_cases i
  · simp [RequestTable.get, p0]
  · norm_num [RequestTable.get, p1]
  · norm_num [RequestTable.get, p2]
  · exact ⟨p3, p4⟩

/-- The first part of a pass keeps the positions of the table in the shaft when the
stopping point it stores lies there. -/
theorem retarget_inShaft (fl : ℚ → ℚ) (c : Car) (h : c.requests.inShaft)
    (g : MoveCar.stopInShaft fl c = true) : (MoveCar.retarget fl c).requests.inShaft := by
  obtain ⟨⟨p0, p1, p2⟩, p3, p4⟩ := h
  obtain ⟨-, -, -, -, -, -, f0, f1, f2⟩ := retarget_frame fl c
  refine ⟨⟨by rw [f0]; exact p0, by rw [f1]; exact p1, by rw [f2]; exact p2⟩, ?_⟩
  unfold MoveCar.stopInShaft at g
  rw [decide_eq_true_eq] at g
  by_cases hc : c.emerg_stop_enabled = true ∧ c.going_up = true
  · exact (g hc).2
  · have e : (MoveCar.retarget fl c).requests.r3 = c.requests.r3 := by
      unfold MoveCar.retarget
      split_ifs with h1 h2
      · exact absurd ⟨h1, h2⟩ hc
      · rfl
      · rfl
    rw [e]
    exact ⟨p3, p4⟩

/-- The second part of a pass bound for a position in the shaft leaves the car at or
below the top stop when it is heading up and at or above the ground stop when it is
heading down: whatever the rounding and whatever `sqrtf` returns. -/
theorem advance_far (fl sqrtf : ℚ → ℚ) (c : Car)
    (hf : 0 ≤ (c.requests.get c.dest).feet ∧ (c.requests.get c.dest).feet ≤ 510) :
    (c.going_up = true → (MoveCar.advance fl sqrtf c).cur_loc ≤ 510) ∧
    (c.going_up = false → 0 ≤ (MoveCar.advance fl sqrtf c).cur_loc) := by
  have e : (MoveCar.advance fl sqrtf c).cur_loc =
      if MoveCar.arrived fl sqrtf c = true then (c.requests.get c.dest).feet
      else MoveCar.loc2 fl c := rfl
  rw [e]
  cases ha : MoveCar.arrived fl sqrtf c
  · simp only [Bool.false_eq_true, if_false]
    obtain ⟨-, hd, hu⟩ := not_arrived_pass fl sqrtf c ha
    exact ⟨fun hg => by linarith [hu hg], fun hg => by linarith [hd hg]⟩
  · simp only [if_true]
    exact ⟨fun _ => hf.2, fun _ => hf.1⟩

/-- A pass of the loop of `MoveCar` whose stopping point lies in the shaft keeps the
positions of the table there and leaves the car at or below the top stop when it is
heading up, at or above the ground stop when it is heading down. -/
theorem tick_far (fl sqrtf : ℚ → ℚ) (c : Car) (h : c.requests.inShaft)
    (g : MoveCar.stopInShaft fl c = true) :
    (MoveCar.tick fl sqrtf c).requests.inShaft ∧
    ((MoveCar.tick fl sqrtf c).going_up = true → (MoveCar.tick fl sqrtf c).cur_loc ≤ 510) ∧
    ((MoveCar.tick fl sqrtf c).going_up = false → 0 ≤ (MoveCar.tick fl sqrtf c).cur_loc) := by
  have hr := retarget_inShaft fl c h g
  obtain ⟨-, f2, -, -, -, f6⟩ := advance_frame fl sqrtf (MoveCar.retarget fl c)
  obtain ⟨a1, a2⟩ := advance_far fl sqrtf (MoveCar.retarget fl c)
    (feet_bounds _ hr (MoveCar.retarget fl c).dest)
  unfold MoveCar.tick
  rw [f2, f6]
  exact ⟨hr, a1, a2⟩

/-- One run of the physics task keeps the car from leaving the shaft at the end it is
heading for, when the pass it makes meets `MoveCar.stopInShaft`. -/
theorem far_step (fl sqrtf : ℚ → ℚ) (p : Physics) (h : p.inShaft)
    (g : p.moving = true → p.car.cur_loc ≠ (p.car.requests.get p.car.dest).feet →
      MoveCar.stopInShaft fl p.car = true) :
    (taskPhysics.step fl sqrtf p).inShaft := by
  obtain ⟨hr, hu, hd, hm⟩ := h
  unfold taskPhysics.step
  by_cases hmv : p.moving = true
  · rw [if_pos hmv]
    by_cases hl : p.car.cur_loc ≠ (p.car.requests.get p.car.dest).feet
    · rw [if_pos hl]
      obtain ⟨t1, t2, t3⟩ := tick_far fl sqrtf p.car hr (g hmv hl)
      exact ⟨t1, t2, t3, fun hc => absurd (hmv.symm.trans hc) (by decide)⟩
    · rw [if_neg hl]
      have hl1 : p.car.cur_loc = (p.car.requests.get p.car.dest).feet := not_not.mp hl
      have hb := feet_bounds _ hr p.car.dest
      rw [← hl1] at hb
      split_ifs <;> exact ⟨hr, fun _ => hb.2, fun _ => hb.1, fun _ => hb⟩
  · rw [if_neg hmv]
    have hb := hm (by simpa using hmv)
    obtain ⟨k1, -, -⟩ := UpdateDestination_kinematics p.car
    have hr1 := UpdateDestination_inShaft p.car hr
    rw [← k1] at hb
    split_ifs <;> exact ⟨hr1, fun _ => hb.2, fun _ => hb.1, fun _ => hb⟩

/-- Every event keeps the car from leaving the shaft at the end it is heading for, when
the pass a run makes meets `MoveCar.stopInShaft`. -/
theorem far_apply (fl sqrtf : ℚ → ℚ) (e : PhysicsEvent) (p : Physics) (h : p.inShaft)
    (g : e = .run → p.moving = true →
      p.car.cur_loc ≠ (p.car.requests.get p.car.dest).feet →
      MoveCar.stopInShaft fl p.car = true) :
    (e.apply fl sqrtf p).inShaft := by
  cases e with
  | call floor dir =>
    obtain ⟨⟨⟨p0, p1, p2⟩, p3, p4⟩, hu, hd, hm⟩ := h
    obtain ⟨s0, s1, s2, s3, -, s5, -, -, s8⟩ := SetRequest_frame floor.castSucc dir p.car
    show (⟨SetRequest floor.castSucc dir p.car, p.moving, p.door_rx⟩ : Physics).inShaft
    refine ⟨⟨⟨s0.trans p0, s1.trans p1, s2.trans p2⟩, by rw [s3]; exact p3,
      by rw [s3]; exact p4⟩, ?_, ?_, ?_⟩
    · intro hg
      show (SetRequest floor.castSucc dir p.car).cur_loc ≤ 510
      rw [s5]
      exact hu (s8.symm.trans hg)
    · intro hg
      show 0 ≤ (SetRequest floor.castSucc dir p.car).cur_loc
      rw [s5]
      exact hd (s8.symm.trans hg)
    · intro hg
      show 0 ≤ (SetRequest floor.castSucc dir p.car).cur_loc ∧
        (SetRequest floor.castSucc dir p.car).cur_loc ≤ 510
      rw [s5]
      exact hm hg
  | emergStop => exact h
  | maxSpeed speed => exact h
  | accel new_accel => exact h
  | run => exact far_step fl sqrtf p h (g rfl)

/-- Every run of events whose passes meet `MoveCar.stopInShaft` keeps the car from
leaving the shaft at the end it is heading for. -/
theorem far_run (fl sqrtf : ℚ → ℚ) (evs : List PhysicsEvent) (p : Physics)
    (g : taskPhysics.stopsInShaft fl sqrtf evs p = true) (h : p.inShaft) :
    (taskPhysics.run fl sqrtf evs p).inShaft := by
  induction evs generalizing p with
  | nil => exact h
  | cons e rest ih =>
    unfold taskPhysics.stopsInShaft at g
    rw [Bool.and_eq_true] at g
    obtain ⟨g1, g2⟩ := g
    refine ih (e.apply fl sqrtf p) g2 (far_apply fl sqrtf e p h ?_)
    intro he hm hl
    rw [if_pos ⟨he, hm, hl⟩] at g1
    exact g1

/-! ### The position in arithmetic without rounding and in single precision -/

/-- In arithmetic without rounding, the second part of a pass started at a speed that is
not negative leaves the car at its destination or between where it was and its
destination. -/
theorem advance_between (sqrtf : ℚ → ℚ) (c : Car) (hv : 0 ≤ c.cur_speed) :
    (MoveCar.advance id sqrtf c).cur_loc = (c.requests.get c.dest).feet ∨
    (c.cur_loc ≤ (MoveCar.advance id sqrtf c).cur_loc ∧
      (MoveCar.advance id sqrtf c).cur_loc < (c.requests.get c.dest).feet) ∨
    ((c.requests.get c.dest).feet < (MoveCar.advance id sqrtf c).cur_loc ∧
      (MoveCar.advance id sqrtf c).cur_loc ≤ c.cur_loc) := by
  have e : (MoveCar.advance id sqrtf c).cur_loc =
      if MoveCar.arrived id sqrtf c = true then (c.requests.get c.dest).feet
      else MoveCar.loc2 id c := rfl
  rw [e, arrived_leg]
  cases ha : c.leg.arrived sqrtf c.accel c.max_speed
  · right
    simp only [Bool.false_eq_true, if_false]
    have hpos := (not_arrived sqrtf c.accel c.max_speed c.leg ha).2
    have hle := (r2_le sqrtf c.accel c.max_speed c.leg hv ha).1
    rw [loc2_leg] at hpos hle
    unfold Car.leg at hle
    simp only at hle
    cases hg : c.going_up
    · right
      rw [hg] at hpos hle
      simp only [Bool.false_eq_true, if_false] at hpos hle
      constructor <;> linarith
    · left
      rw [hg] at hpos hle
      simp only [if_true] at hpos hle
      constructor <;> linarith
  · left
    simp only [if_true]

/-- In arithmetic without rounding the second part of a pass keeps the car in the
shaft. -/
theorem keepsInShaft_id (sqrtf : ℚ → ℚ) : MoveCar.keepsInShaft id sqrtf := by
  intro c h0 h1 hv f0 f1
  rcases advance_between sqrtf c hv with e | ⟨e1, e2⟩ | ⟨e1, e2⟩ <;>
    constructor <;> linarith

/-- The clamp never raises the speed. -/
theorem speed2_le_speed1 (fl : ℚ → ℚ) (c : Car) : MoveCar.speed2 fl c ≤ MoveCar.speed1 fl c := by
  unfold MoveCar.speed2
  split_ifs with h
  · exact le_of_lt h
  · exact le_refl _

/-- In single precision, the half step and the correction of a pass that leaves a
positive speed keep a car heading up at or above the ground stop and a car heading down
at or below the top stop. -/
theorem loc2_near (c : Car) (h0 : 0 ≤ c.cur_loc) (h1 : c.cur_loc ≤ 510)
    (hv : 0 ≤ c.cur_speed) (hs : 0 < MoveCar.speed1 fl32 c) :
    (c.going_up = true → 0 ≤ MoveCar.loc2 fl32 c) ∧
    (c.going_up = false → MoveCar.loc2 fl32 c ≤ 510) := by
  have hs0 : 0 ≤ fl32 (c.cur_speed / 2) := fl32_nonneg _ (by linarith)
  have e8 : (0.125 : ℚ) * c.accel = c.accel / 8 := by norm_num; ring
  have e8n : (-0.125 : ℚ) * c.accel = -c.accel / 8 := by norm_num; ring
  constructor
  · intro hg
    have hl1 : MoveCar.loc1 fl32 c = fl32 (c.cur_loc + fl32 (c.cur_speed / 2)) := by
      unfold MoveCar.loc1
      rw [if_pos hg]
    have hl1n : 0 ≤ MoveCar.loc1 fl32 c := by
      rw [hl1]
      exact fl32_nonneg _ (by linarith)
    unfold MoveCar.loc2
    split_ifs with hm hau
    · -- speeding up, below the maximum speed
      have hsp : 0 < fl32 (c.cur_speed + fl32 (c.accel / 2)) := by
        unfold MoveCar.speed1 at hs
        rw [if_pos (by rw [hg, hau])] at hs
        exact hs
      rcases le_total 0 c.accel with ha | ha
      · exact fl32_nonneg _ (by
          have := fl32_nonneg (0.125 * c.accel) (by positivity)
          linarith)
      · have hpos : 0 < c.cur_speed + fl32 (c.accel / 2) := by
          by_contra hc
          exact absurd hsp (not_lt.mpr (fl32_nonpos _ (not_lt.mp hc)))
        have hb := fl32_le_of_nonpos (c.accel / 2) (by linarith)
        have he := fl32_ge_of_nonpos (c.accel / 8) (by linarith)
        rw [hl1, e8]
        apply fl32_near_ground c.cur_loc c.cur_speed (-c.accel) _ h0 (by linarith)
        · norm_num at hb ⊢
          linarith
        · norm_num at he ⊢
          linarith
    · -- slowing down, below the maximum speed
      have hsp : 0 < fl32 (c.cur_speed - fl32 (c.accel / 2)) := by
        unfold MoveCar.speed1 at hs
        rw [if_neg (by rw [hg]; simpa using hau)] at hs
        exact hs
      rcases le_total c.accel 0 with ha | ha
      · exact fl32_nonneg _ (by
          have := fl32_nonneg (-0.125 * c.accel) (by rw [e8n]; linarith)
          linarith)
      · have hpos : 0 < c.cur_speed - fl32 (c.accel / 2) := by
          by_contra hc
          exact absurd hsp (not_lt.mpr (fl32_nonpos _ (not_lt.mp hc)))
        obtain ⟨hb, -⟩ := fl32_bounds (c.accel / 2) (by linarith)
        have he := fl32_ge_of_nonpos (-c.accel / 8) (by linarith)
        rw [hl1, e8n]
        apply fl32_near_ground c.cur_loc c.cur_speed c.accel _ h0 ha
        · norm_num at hb ⊢
          linarith
        · norm_num at he ⊢
          linarith
    · exact hl1n
  · intro hg
    have hl1 : MoveCar.loc1 fl32 c = fl32 (c.cur_loc - fl32 (c.cur_speed / 2)) := by
      unfold MoveCar.loc1
      rw [if_neg (by simp [hg])]
    have hl1t : MoveCar.loc1 fl32 c ≤ 510 := by
      rw [hl1]
      exact (fl32_below_top _ (by linarith)).1
    unfold MoveCar.loc2
    split_ifs with hm hau
    · -- slowing down, below the maximum speed
      have hsp : 0 < fl32 (c.cur_speed - fl32 (c.accel / 2)) := by
        unfold MoveCar.speed1 at hs
        rw [if_neg (by rw [hg, hau]; decide)] at hs
        exact hs
      rcases le_total c.accel 0 with ha | ha
      · exact (fl32_below_top _ (by
          have := fl32_nonpos (0.125 * c.accel) (by rw [e8]; linarith)
          linarith)).1
      · have hpos : 0 < c.cur_speed - fl32 (c.accel / 2) := by
          by_contra hc
          exact absurd hsp (not_lt.mpr (fl32_nonpos _ (not_lt.mp hc)))
        obtain ⟨hb, -⟩ := fl32_bounds (c.accel / 2) (by linarith)
        obtain ⟨-, he⟩ := fl32_bounds (c.accel / 8) (by linarith)
        rw [hl1, e8]
        apply fl32_near_top c.cur_loc c.cur_speed c.accel _ h1 ha
        · norm_num at hb ⊢
          linarith
        · norm_num at he ⊢
          linarith
    · -- speeding up, below the maximum speed
      have hsp : 0 < fl32 (c.cur_speed + fl32 (c.accel / 2)) := by
        unfold MoveCar.speed1 at hs
        rw [if_pos (by rw [hg]; simpa using hau)] at hs
        exact hs
      rcases le_total 0 c.accel with ha | ha
      · exact (fl32_below_top _ (by
          have := fl32_nonpos (-0.125 * c.accel) (by rw [e8n]; linarith)
          linarith)).1
      · have hpos : 0 < c.cur_speed + fl32 (c.accel / 2) := by
          by_contra hc
          exact absurd hsp (not_lt.mpr (fl32_nonpos _ (not_lt.mp hc)))
        have hb := fl32_le_of_nonpos (c.accel / 2) (by linarith)
        obtain ⟨-, he⟩ := fl32_bounds (-c.accel / 8) (by linarith)
        rw [hl1, e8n]
        apply fl32_near_top c.cur_loc c.cur_speed (-c.accel) _ h1 (by linarith)
        · norm_num at hb ⊢
          linarith
        · norm_num at he ⊢
          linarith
    · exact hl1t

/-- In single precision the second part of a pass keeps the car in the shaft, whatever
`sqrtf` returns. -/
theorem keepsInShaft_fl32 (sqrtf : ℚ → ℚ) : MoveCar.keepsInShaft fl32 sqrtf := by
  intro c h0 h1 hv f0 f1
  have e : (MoveCar.advance fl32 sqrtf c).cur_loc =
      if MoveCar.arrived fl32 sqrtf c = true then (c.requests.get c.dest).feet
      else MoveCar.loc2 fl32 c := rfl
  rw [e]
  cases ha : MoveCar.arrived fl32 sqrtf c
  · simp only [Bool.false_eq_true, if_false]
    obtain ⟨h3, hd, hu⟩ := not_arrived_pass fl32 sqrtf c ha
    have hs : 0 < MoveCar.speed1 fl32 c :=
      lt_of_lt_of_le h3 (le_trans (speed3_le fl32 sqrtf c).1 (speed2_le_speed1 fl32 c))
    obtain ⟨n1, n2⟩ := loc2_near c h0 h1 hv hs
    cases hg : c.going_up
    · exact ⟨by linarith [hd hg], n2 hg⟩
    · exact ⟨n1 hg, by linarith [hu hg]⟩
  · simp only [if_true]
    exact ⟨f0, f1⟩

/-- A pass of the loop of `MoveCar` whose stopping point lies in the shaft keeps the car
in the shaft, for a rounding that keeps it there over the second part of a pass. -/
theorem inShaft_tick (fl sqrtf : ℚ → ℚ) (hk : MoveCar.keepsInShaft fl sqrtf) (c : Car)
    (h : c.inShaft) (g : MoveCar.stopInShaft fl c = true) :
    (MoveCar.tick fl sqrtf c).inShaft := by
  obtain ⟨hr, h0, h1, hv⟩ := h
  have hr1 := retarget_inShaft fl c hr g
  obtain ⟨-, -, r3, r4, -⟩ := retarget_frame fl c
  obtain ⟨-, f2, -⟩ := advance_frame fl sqrtf (MoveCar.retarget fl c)
  obtain ⟨fb0, fb1⟩ := feet_bounds _ hr1 (MoveCar.retarget fl c).dest
  have hs := advance_speed_nonneg fl sqrtf (MoveCar.retarget fl c)
  obtain ⟨b0, b1⟩ := hk (MoveCar.retarget fl c) (by rw [r3]; exact h0) (by rw [r3]; exact h1)
    (by rw [r4]; exact hv) fb0 fb1
  unfold MoveCar.tick
  exact ⟨by rw [f2]; exact hr1, b0, b1, hs⟩

/-- The function `UpdateDestination` keeps the car in the shaft, and so does the entry
of `MoveCar`. -/
theorem inShaft_UpdateDestination (c : Car) (h : c.inShaft) :
    (UpdateDestination c).2.inShaft ∧
    ({ (UpdateDestination c).2 with accel_up := (UpdateDestination c).2.going_up } :
      Car).inShaft := by
  obtain ⟨hr, h0, h1, hv⟩ := h
  obtain ⟨k1, k2, -⟩ := UpdateDestination_kinematics c
  have hin : (UpdateDestination c).2.inShaft :=
    ⟨UpdateDestination_inShaft c hr, by rw [k1]; exact h0, by rw [k1]; exact h1,
      by rw [k2]; exact hv⟩
  exact ⟨hin, hin⟩

/-- One run of the physics task keeps the car in the shaft, when the pass it makes meets
`MoveCar.stopInShaft`. -/
theorem inShaft_step (fl sqrtf : ℚ → ℚ) (hk : MoveCar.keepsInShaft fl sqrtf) (p : Physics)
    (h : p.car.inShaft)
    (g : p.moving = true → p.car.cur_loc ≠ (p.car.requests.get p.car.dest).feet →
      MoveCar.stopInShaft fl p.car = true) :
    (taskPhysics.step fl sqrtf p).car.inShaft := by
  unfold taskPhysics.step
  by_cases hm : p.moving = true
  · rw [if_pos hm]
    by_cases hl : p.car.cur_loc ≠ (p.car.requests.get p.car.dest).feet
    · rw [if_pos hl]
      exact inShaft_tick fl sqrtf hk p.car h (g hm hl)
    · rw [if_neg hl]
      split_ifs <;> exact h
  · rw [if_neg hm]
    by_cases hu : (UpdateDestination p.car).1 = true
    · rw [if_pos hu]
      exact (inShaft_UpdateDestination p.car h).2
    · rw [if_neg hu]
      exact (inShaft_UpdateDestination p.car h).1

/-- Every event keeps the car in the shaft, when the pass a run makes meets
`MoveCar.stopInShaft`. -/
theorem inShaft_apply (fl sqrtf : ℚ → ℚ) (hk : MoveCar.keepsInShaft fl sqrtf)
    (e : PhysicsEvent) (p : Physics) (h : p.car.inShaft)
    (g : e = .run → p.moving = true →
      p.car.cur_loc ≠ (p.car.requests.get p.car.dest).feet →
      MoveCar.stopInShaft fl p.car = true) :
    (e.apply fl sqrtf p).car.inShaft := by
  cases e with
  | call floor dir =>
    obtain ⟨⟨⟨p0, p1, p2⟩, p3, p4⟩, h0, h1, hv⟩ := h
    obtain ⟨s0, s1, s2, s3, -, s5, s6, -⟩ := SetRequest_frame floor.castSucc dir p.car
    show (SetRequest floor.castSucc dir p.car).inShaft
    exact ⟨⟨⟨s0.trans p0, s1.trans p1, s2.trans p2⟩, by rw [s3]; exact p3,
      by rw [s3]; exact p4⟩, by rw [s5]; exact h0, by rw [s5]; exact h1, by rw [s6]; exact hv⟩
  | emergStop => exact h
  | maxSpeed speed => exact h
  | accel new_accel => exact h
  | run => exact inShaft_step fl sqrtf hk p h (g rfl)

/-- Every run of events whose passes meet `MoveCar.stopInShaft` keeps the car in the
shaft, for a rounding that keeps it there over the second part of a pass. -/
theorem inShaft_run (fl sqrtf : ℚ → ℚ) (hk : MoveCar.keepsInShaft fl sqrtf)
    (evs : List PhysicsEvent) (p : Physics)
    (g : taskPhysics.stopsInShaft fl sqrtf evs p = true) (h : p.car.inShaft) :
    (taskPhysics.run fl sqrtf evs p).car.inShaft := by
  induction evs generalizing p with
  | nil => exact h
  | cons e rest ih =>
    unfold taskPhysics.stopsInShaft at g
    rw [Bool.and_eq_true] at g
    obtain ⟨g1, g2⟩ := g
    refine ih (e.apply fl sqrtf p) g2 (inShaft_apply fl sqrtf hk e p h ?_)
    intro he hm hl
    rw [if_pos ⟨he, hm, hl⟩] at g1
    exact g1

/-- C15, as stated, fails, in single precision.  After the events `fastThenEmergency`
the car stands inside `MoveCar` at 200 ft doing 800 ft/s with the emergency stop on; the
next pass sets the stopping point at 3400 ft and leaves the car at 612.5 ft, above the
top stop.  And with the settings left alone during the trip: after `SetAccel(5.4)` at
rest, an emergency stop after the 21st pass of the trip from the ground stop to the top
stop makes line 112 store 510 ft at the 22nd pass and 16711681 / 32768 ft, above the top
stop, at the 23rd, and the car comes to rest at 8355841 / 16384 ft, which is
510.00006 ft. -/
theorem taskPhysics_position_above_top :
    (taskPhysics.run fl32 sqrtfNearest fastThenEmergency Physics.startup).moving = true ∧
    (taskPhysics.run fl32 sqrtfNearest fastThenEmergency Physics.startup).car.cur_loc = 200 ∧
    (taskPhysics.run fl32 sqrtfNearest fastThenEmergency
      Physics.startup).car.cur_speed = 800 ∧
    (taskPhysics.run fl32 sqrtfNearest (fastThenEmergency ++ [.run])
      Physics.startup).car.requests.r3.feet = 3400 ∧
    (taskPhysics.run fl32 sqrtfNearest (fastThenEmergency ++ [.run])
      Physics.startup).car.cur_loc = 1225 / 2 ∧
    ¬ ((taskPhysics.run fl32 sqrtfNearest (fastThenEmergency ++ [.run])
      Physics.startup).car.cur_loc ≤ 510) ∧
    fl32 (27 / 5) = 11324621 / 2097152 ∧
    (taskPhysics.run fl32 sqrtfNearest (slowThenEmergency.take 26)
      Physics.startup).car.requests.r3.feet = 510 ∧
    (taskPhysics.run fl32 sqrtfNearest (slowThenEmergency.take 27)
      Physics.startup).car.requests.r3.feet = 16711681 / 32768 ∧
    (taskPhysics.run fl32 sqrtfNearest slowThenEmergency Physics.startup).car.cur_loc =
      8355841 / 16384 ∧
    ¬ ((taskPhysics.run fl32 sqrtfNearest slowThenEmergency Physics.startup).car.cur_loc ≤
      510) := by
  decide!

/-- C15 (amended): in every state reached from the startup state by floor calls,
emergency stops, `SetMaxSpeed` and `SetAccel` events with any finite values and runs of
the physics task (arbitration and passes of the loop of `MoveCar`), provided every pass
that observes the emergency stop while the car is heading up divides by a number that is
not 0 and stores a stopping point between 0 and 510, the position of the car lies
between 0 and 510: in single precision and in arithmetic without rounding, whatever
`sqrtf` returns.  For every other rounding `fl` of the operations, a car heading up is at
or below 510, a car heading down is at or above 0, and a car outside the loop of
`MoveCar` lies between 0 and 510. -/
theorem taskPhysics_position_bounds (fl sqrtf : ℚ → ℚ) (evs : List PhysicsEvent)
    (h : taskPhysics.stopsInShaft fl sqrtf evs Physics.startup = true) :
    ((∀ x, fl x = fl32 x) →
      0 ≤ (taskPhysics.run fl sqrtf evs Physics.startup).car.cur_loc ∧
      (taskPhysics.run fl sqrtf evs Physics.startup).car.cur_loc ≤ 510) ∧
    ((∀ x, fl x = x) →
      0 ≤ (taskPhysics.run fl sqrtf evs Physics.startup).car.cur_loc ∧
      (taskPhysics.run fl sqrtf evs Physics.startup).car.cur_loc ≤ 510) ∧
    ((taskPhysics.run fl sqrtf evs Physics.startup).car.going_up = true →
      (taskPhysics.run fl sqrtf evs Physics.startup).car.cur_loc ≤ 510) ∧
    ((taskPhysics.run fl sqrtf evs Physics.startup).car.going_up = false →
      0 ≤ (taskPhysics.run fl sqrtf evs Physics.startup).car.cur_loc) ∧
    ((taskPhysics.run fl sqrtf evs Physics.startup).moving = false →
      0 ≤ (taskPhysics.run fl sqrtf evs Physics.startup).car.cur_loc ∧
      (taskPhysics.run fl sqrtf evs Physics.startup).car.cur_loc ≤ 510) := by
  have hr : Physics.startup.car.requests.inShaft := by
    refine ⟨⟨rfl, rfl, rfl⟩, ?_, ?_⟩ <;>
      norm_num [Physics.startup, Car.startup, requests]
  have h0 : Physics.startup.inShaft := by
    refine ⟨hr, ?_, ?_, ?_⟩ <;> intro _ <;> norm_num [Physics.startup, Car.startup]
  have h1 : Physics.startup.car.inShaft := by
    refine ⟨hr, ?_, ?_, ?_⟩ <;> norm_num [Physics.startup, Car.startup]
  obtain ⟨-, f1, f2, f3⟩ := far_run fl sqrtf evs Physics.startup h h0
  refine ⟨?_, ?_, f1, f2, f3⟩
  · intro hfl
    obtain rfl : fl = fl32 := funext hfl
    obtain ⟨-, e1, e2, -⟩ :=
      inShaft_run fl32 sqrtf (keepsInShaft_fl32 sqrtf) evs Physics.startup h h1
    exact ⟨e1, e2⟩
  · intro hfl
    obtain rfl : fl = id := funext hfl
    obtain ⟨-, e1, e2, -⟩ :=
      inShaft_run id sqrtf (keepsInShaft_id sqrtf) evs Physics.startup h h1
    exact ⟨e1, e2⟩

/-- Witness for C15 (amended): an emergency stop on the way to the top stop at the
default settings, in single precision and in arithmetic without rounding; the pass that
observes it stores the stopping point 22.5 ft. -/
theorem taskPhysics_position_bounds_witness :
    (taskPhysics.run fl32 sqrtfNearest (emergencyAtDefault.take 7)
      Physics.startup).car.requests.r3.feet = 45 / 2 ∧
    (taskPhysics.stopsInShaft fl32 sqrtfNearest emergencyAtDefault Physics.startup = true ∧
    0 ≤ (taskPhysics.run fl32 sqrtfNearest emergencyAtDefault Physics.startup).car.cur_loc ∧
    (taskPhysics.run fl32 sqrtfNearest emergencyAtDefault
      Physics.startup).car.cur_loc ≤ 510) ∧
    (taskPhysics.stopsInShaft id sqrtfTrunc emergencyAtDefault Physics.startup = true ∧
    0 ≤ (taskPhysics.run id sqrtfTrunc emergencyAtDefault Physics.startup).car.cur_loc ∧
    (taskPhysics.run id sqrtfTrunc emergencyAtDefault Physics.startup).car.cur_loc ≤ 510) :=
  ⟨by decide!,
    ⟨by decide!,
      (taskPhysics_position_bounds fl32 sqrtfNearest emergencyAtDefault (by decide!)).1
        (fun _ => rfl)⟩,
    ⟨by decide!,
      (taskPhysics_position_bounds id sqrtfTrunc emergencyAtDefault (by decide!)).2.1
        (fun _ => rfl)⟩⟩

/-! ## Progress of a pass in single precision -/

/-- The half step up, in single precision, from a position in the shaft: the position
gains a fifth of the speed at least, up to 1/16000 ft. -/
theorem fl32_step_up (loc v : ℚ) (h0 : 0 ≤ loc) (h1 : loc ≤ 510) (hv : 0 ≤ v) :
    loc + v / 5 - 1 / 16000 ≤ fl32 (loc + fl32 (v / 2)) := by
  obtain ⟨s1, -⟩ := fl32_bounds (v / 2) (by linarith)
  have hs0 : 0 ≤ fl32 (v / 2) := fl32_nonneg _ (by linarith)
  generalize fl32 (v / 2) = s at s1 hs0
  obtain ⟨l1, -⟩ := fl32_bounds (loc + s) (by linarith)
  norm_num at s1 l1 ⊢
  linarith

/-- The half step up and a correction `t` of at least a quarter of the speed downwards,
up to rounding, in single precision, from a position in the shaft: the position gains a
fifth of the speed at least, up to 1/16000 ft. -/
theorem fl32_step_up_corr (loc v t : ℚ) (h0 : 0 ≤ loc) (h1 : loc ≤ 510) (hv : 0 ≤ v)
    (ht : -(v / 4 + v / 4 / 2 ^ 20) ≤ t) :
    loc + v / 5 - 1 / 16000 ≤ fl32 (fl32 (loc + fl32 (v / 2)) + t) := by
  obtain ⟨s1, -⟩ := fl32_bounds (v / 2) (by linarith)
  have hs0 : 0 ≤ fl32 (v / 2) := fl32_nonneg _ (by linarith)
  generalize fl32 (v / 2) = s at s1 hs0
  obtain ⟨l1, -⟩ := fl32_bounds (loc + s) (by linarith)
  generalize fl32 (loc + s) = l at l1
  have hx : 0 ≤ l + t := by
    norm_num at s1 l1 ht ⊢
    linarith
  obtain ⟨r1, -⟩ := fl32_bounds (l + t) hx
  norm_num at s1 l1 ht r1 ⊢
  linarith

/-- The half step down, in single precision, from a position in the shaft: the position
loses a fifth of the speed at least, up to 1/16000 ft. -/
theorem fl32_step_down (loc v : ℚ) (h0 : 0 ≤ loc) (h1 : loc ≤ 510) (hv : 0 ≤ v) :
    fl32 (loc - fl32 (v / 2)) ≤ loc - v / 5 + 1 / 16000 := by
  obtain ⟨s1, -⟩ := fl32_bounds (v / 2) (by linarith)
  have hs0 : 0 ≤ fl32 (v / 2) := fl32_nonneg _ (by linarith)
  generalize fl32 (v / 2) = s at s1 hs0
  rcases le_total 0 (loc - s) with hp | hn
  · obtain ⟨-, l1⟩ := fl32_bounds (loc - s) hp
    norm_num at s1 l1 ⊢
    linarith
  · have l1 := fl32_le_of_nonpos (loc - s) hn
    norm_num at s1 l1 ⊢
    linarith

/-- The half step down and a correction `t` of at most a quarter of the speed upwards,
up to rounding, in single precision, from a position in the shaft: the position loses a
fifth of the speed at least, up to 1/16000 ft. -/
theorem fl32_step_down_corr (loc v t : ℚ) (h0 : 0 ≤ loc) (h1 : loc ≤ 510) (hv : 0 ≤ v)
    (ht : t ≤ v / 4 + v / 4 / 2 ^ 20) :
    fl32 (fl32 (loc - fl32 (v / 2)) + t) ≤ loc - v / 5 + 1 / 16000 := by
  obtain ⟨s1, -⟩ := fl32_bounds (v / 2) (by linarith)
  have hs0 : 0 ≤ fl32 (v / 2) := fl32_nonneg _ (by linarith)
  generalize fl32 (v / 2) = s at s1 hs0
  have hl : fl32 (loc - s) ≤ loc - s + loc / 2 ^ 24 - s + s / 2 ^ 24 + s := by
    rcases le_total 0 (loc - s) with hp | hn
    · obtain ⟨-, l1⟩ := fl32_bounds (loc - s) hp
      norm_num at l1 ⊢
      linarith
    · have l1 := fl32_le_of_nonpos (loc - s) hn
      norm_num at l1 ⊢
      linarith
  generalize fl32 (loc - s) = l at hl
  rcases le_total 0 (l + t) with hp | hn
  · obtain ⟨-, r1⟩ := fl32_bounds (l + t) hp
    norm_num at s1 hl ht r1 ⊢
    linarith
  · have r1 := fl32_le_of_nonpos (l + t) hn
    norm_num at s1 hl ht r1 ⊢
    linarith

/-- In single precision, a pass that leaves a positive speed moves a car in the shaft
towards its destination by a fifth of its speed at least, up to 1/16000 ft, for an
acceleration that is not negative. -/
theorem loc2_progress (c : Car) (h0 : 0 ≤ c.cur_loc) (h1 : c.cur_loc ≤ 510)
    (hv : 0 ≤ c.cur_speed) (ha : 0 ≤ c.accel) (hs : 0 < MoveCar.speed1 fl32 c) :
    (c.going_up = true →
      c.cur_loc + c.cur_speed / 5 - 1 / 16000 ≤ MoveCar.loc2 fl32 c) ∧
    (c.going_up = false →
      MoveCar.loc2 fl32 c ≤ c.cur_loc - c.cur_speed / 5 + 1 / 16000) := by
  have e8 : (0.125 : ℚ) * c.accel = c.accel / 8 := by norm_num; ring
  have e8n : (-0.125 : ℚ) * c.accel = -c.accel / 8 := by norm_num; ring
  have hq : 0 ≤ c.cur_speed / 4 + c.cur_speed / 4 / 2 ^ 20 := by positivity
  constructor
  · intro hg
    have hl1 : MoveCar.loc1 fl32 c = fl32 (c.cur_loc + fl32 (c.cur_speed / 2)) := by
      unfold MoveCar.loc1
      rw [if_pos hg]
    unfold MoveCar.loc2
    split_ifs with hm hau
    · -- speeding up, below the maximum speed
      rw [hl1, e8]
      apply fl32_step_up_corr c.cur_loc c.cur_speed _ h0 h1 hv
      have := fl32_nonneg (c.accel / 8) (by linarith)
      linarith
    · -- slowing down, below the maximum speed
      have hsp : 0 < fl32 (c.cur_speed - fl32 (c.accel / 2)) := by
        unfold MoveCar.speed1 at hs
        rw [if_neg (by rw [hg]; simpa using hau)] at hs
        exact hs
      have hpos : 0 < c.cur_speed - fl32 (c.accel / 2) := by
        by_contra hc
        exact absurd hsp (not_lt.mpr (fl32_nonpos _ (not_lt.mp hc)))
      obtain ⟨hb, -⟩ := fl32_bounds (c.accel / 2) (by linarith)
      have he := fl32_ge_of_nonpos (-c.accel / 8) (by linarith)
      rw [hl1, e8n]
      apply fl32_step_up_corr c.cur_loc c.cur_speed _ h0 h1 hv
      norm_num at hb he ⊢
      linarith
    · rw [hl1]
      exact fl32_step_up c.cur_loc c.cur_speed h0 h1 hv
  · intro hg
    have hl1 : MoveCar.loc1 fl32 c = fl32 (c.cur_loc - fl32 (c.cur_speed / 2)) := by
      unfold MoveCar.loc1
      rw [if_neg (by simp [hg])]
    unfold MoveCar.loc2
    split_ifs with hm hau
    · -- slowing down, below the maximum speed
      have hsp : 0 < fl32 (c.cur_speed - fl32 (c.accel / 2)) := by
        unfold MoveCar.speed1 at hs
        rw [if_neg (by rw [hg, hau]; decide)] at hs
        exact hs
      have hpos : 0 < c.cur_speed - fl32 (c.accel / 2) := by
        by_contra hc
        exact absurd hsp (not_lt.mpr (fl32_nonpos _ (not_lt.mp hc)))
      obtain ⟨hb, -⟩ := fl32_bounds (c.accel / 2) (by linarith)
      obtain ⟨-, he⟩ := fl32_bounds (c.accel / 8) (by linarith)
      rw [hl1, e8]
      apply fl32_step_down_corr c.cur_loc c.cur_speed _ h0 h1 hv
      norm_num at hb he ⊢
      linarith
    · -- speeding up, below the maximum speed
      rw [hl1, e8n]
      apply fl32_step_down_corr c.cur_loc c.cur_speed _ h0 h1 hv
      have := fl32_nonpos (-c.accel / 8) (by linarith)
      linarith
    · rw [hl1]
      exact fl32_step_down c.cur_loc c.cur_speed h0 h1 hv

/-- In single precision, with an acceleration and a maximum speed of 1/1000 at least, a
car in its acceleration phase has a speed of 1/2001 at least after the half step and
the clamp. -/
theorem speed2_floor (c : Car) (hv : 0 ≤ c.cur_speed) (ha : 1 / 1000 ≤ c.accel)
    (hm : 1 / 1000 ≤ c.max_speed) (hu : c.going_up = c.accel_up) :
    1 / 2001 ≤ MoveCar.speed2 fl32 c := by
  obtain ⟨hb, -⟩ := fl32_bounds (c.accel / 2) (by linarith)
  have hh0 : 0 ≤ fl32 (c.accel / 2) := fl32_nonneg _ (by linarith)
  obtain ⟨h1, -⟩ := fl32_bounds (c.cur_speed + fl32 (c.accel / 2)) (by linarith)
  unfold MoveCar.speed2 MoveCar.speed1
  rw [if_pos hu]
  split_ifs
  · linarith
  · norm_num at hb h1 ⊢
    linarith

/-- In single precision, with an acceleration of 1/1000 at least, a car in its
deceleration phase that the half step leaves with a positive speed has a speed of
1/2001 at least. -/
theorem speed_slowing (c : Car) (ha : 1 / 1000 ≤ c.accel) (hu : c.going_up ≠ c.accel_up)
    (hs : 0 < MoveCar.speed1 fl32 c) : 1 / 2001 ≤ c.cur_speed := by
  unfold MoveCar.speed1 at hs
  rw [if_neg hu] at hs
  have hpos : 0 < c.cur_speed - fl32 (c.accel / 2) := by
    by_contra hc
    exact absurd hs (not_lt.mpr (fl32_nonpos _ (not_lt.mp hc)))
  obtain ⟨hb, -⟩ := fl32_bounds (c.accel / 2) (by linarith)
  norm_num at hb ⊢
  linarith

/-- Rounding up: a quantity that drops by one at least, from a value that is not
negative, has a smaller ceiling. -/
theorem ceil_lt_of_add_one_le (x y : ℚ) (hx : 0 ≤ x) (h : x + 1 ≤ y) : ⌈x⌉₊ < ⌈y⌉₊ := by
  rw [Nat.lt_ceil]
  exact lt_of_lt_of_le (Nat.ceil_lt_add_one hx) h

/-- Adding three raises the ceiling by three at most. -/
theorem ceil_add_three_le (x y : ℚ) (h : y ≤ x + 3) : ⌈y⌉₊ ≤ ⌈x⌉₊ + 3 := by
  rw [Nat.ceil_le]
  push_cast
  have := Nat.le_ceil x
  linarith

/-- In single precision, with an acceleration and a maximum speed of 1/1000 at least, a
pass that does not arrive lowers the bound `MoveCar.passesLeft` of a car in the shaft. -/
theorem passesLeft_decreases (sqrtf : ℚ → ℚ) (c : Car) (h0 : 0 ≤ c.cur_loc)
    (h1 : c.cur_loc ≤ 510) (hv : 0 ≤ c.cur_speed) (ha : 1 / 1000 ≤ c.accel)
    (hm : 1 / 1000 ≤ c.max_speed) (harr : MoveCar.arrived fl32 sqrtf c = false) :
    MoveCar.passesLeft (MoveCar.advance fl32 sqrtf c) < MoveCar.passesLeft c := by
  obtain ⟨h3, hd, hu⟩ := not_arrived_pass fl32 sqrtf c harr
  have hs1 : 0 < MoveCar.speed1 fl32 c :=
    lt_of_lt_of_le h3 (le_trans (speed3_le fl32 sqrtf c).1 (speed2_le_speed1 fl32 c))
  obtain ⟨pu, pd⟩ := loc2_progress c h0 h1 hv (by linarith) hs1
  have eloc : (MoveCar.advance fl32 sqrtf c).cur_loc = MoveCar.loc2 fl32 c := by
    have e : (MoveCar.advance fl32 sqrtf c).cur_loc =
        if MoveCar.arrived fl32 sqrtf c = true then (c.requests.get c.dest).feet
        else MoveCar.loc2 fl32 c := rfl
    rw [e, harr]
    simp
  have espd : (MoveCar.advance fl32 sqrtf c).cur_speed = MoveCar.speed3 fl32 sqrtf c := by
    have e : (MoveCar.advance fl32 sqrtf c).cur_speed =
        if MoveCar.arrived fl32 sqrtf c = true then 0 else MoveCar.speed3 fl32 sqrtf c := rfl
    rw [e, harr]
    simp
  have eau : (MoveCar.advance fl32 sqrtf c).accel_up =
      if MoveCar.over fl32 sqrtf c = true then
        (if c.accel_up = c.going_up then !c.accel_up else c.accel_up)
      else c.accel_up := rfl
  have egu : (MoveCar.advance fl32 sqrtf c).going_up = c.going_up := rfl
  have hind : ¬ ((MoveCar.advance fl32 sqrtf c).accel_up =
      (MoveCar.advance fl32 sqrtf c).going_up ∧
      (MoveCar.advance fl32 sqrtf c).cur_speed < 1 / 2001) := by
    rintro ⟨q1, q2⟩
    rw [eau, egu] at q1
    rw [espd] at q2
    by_cases hup : c.accel_up = c.going_up
    · cases ho : MoveCar.over fl32 sqrtf c
      · have e3 : MoveCar.speed3 fl32 sqrtf c = MoveCar.speed2 fl32 c := by
          unfold MoveCar.speed3
          rw [ho]
          simp
        have := speed2_floor c hv ha hm hup.symm
        rw [e3] at q2
        linarith
      · rw [ho, if_pos rfl, if_pos hup, hup] at q1
        cases hg : c.going_up <;> rw [hg] at q1 <;> exact absurd q1 (by decide)
    · split_ifs at q1
      exact hup q1
      exact hup q1
  have hslow : ¬ (c.accel_up = c.going_up ∧ c.cur_speed < 1 / 2001) →
      1 / 2001 ≤ c.cur_speed := by
    intro hi
    by_cases hup : c.accel_up = c.going_up
    · by_contra hc
      exact hi ⟨hup, not_le.mp hc⟩
    · exact speed_slowing c ha (fun h => hup h.symm) hs1
  unfold MoveCar.passesLeft
  rw [if_neg hind, advance_feet, egu, eloc]
  cases hg : c.going_up
  · have hdn := hd hg
    have hp := pd hg
    simp only [Bool.false_eq_true, if_false]
    by_cases hi : c.accel_up = false ∧ c.cur_speed < 1 / 2001
    · rw [if_pos hi]
      have := ceil_add_three_le ((c.cur_loc - (c.requests.get c.dest).feet) * 32768)
        ((MoveCar.loc2 fl32 c - (c.requests.get c.dest).feet) * 32768) (by linarith)
      omega
    · rw [if_neg hi]
      have hv1 := hslow (by rw [hg]; exact hi)
      have := ceil_lt_of_add_one_le
        ((MoveCar.loc2 fl32 c - (c.requests.get c.dest).feet) * 32768)
        ((c.cur_loc - (c.requests.get c.dest).feet) * 32768) (by linarith) (by linarith)
      omega
  · have hup := hu hg
    have hp := pu hg
    simp only [if_true]
    by_cases hi : c.accel_up = true ∧ c.cur_speed < 1 / 2001
    · rw [if_pos hi]
      have := ceil_add_three_le (((c.requests.get c.dest).feet - c.cur_loc) * 32768)
        (((c.requests.get c.dest).feet - MoveCar.loc2 fl32 c) * 32768) (by linarith)
      omega
    · rw [if_neg hi]
      have hv1 := hslow (by rw [hg]; exact hi)
      have := ceil_lt_of_add_one_le
        (((c.requests.get c.dest).feet - MoveCar.loc2 fl32 c) * 32768)
        (((c.requests.get c.dest).feet - c.cur_loc) * 32768) (by linarith) (by linarith)
      omega

/-! ## The loop of `MoveCar` ends -/

/-- A pass that does not end the leg lowers the bound `Leg.ticksLeft`, for positive
acceleration and maximum speed and a speed that is not negative. -/
theorem ticksLeft_decreases (sqrtf : ℚ → ℚ) (a top : ℚ) (g : Leg) (ha : 0 < a)
    (ht : 0 < top) (hv : 0 ≤ g.speed) (h : g.arrived sqrtf a top = false) :
    (g.tick sqrtf a top).ticksLeft a top < g.ticksLeft a top := by
  obtain ⟨h3, hr⟩ := not_arrived sqrtf a top g h
  have h32 := v3_le_v2 sqrtf a top g
  have h2t := v2_le_top a top g
  obtain ⟨hle, hle2⟩ := r2_le sqrtf a top g hv h
  have hm : 0 < min (a / 2) top := lt_min (by linarith) ht
  unfold Leg.tick Leg.ticksLeft
  rw [h]
  simp only [Bool.false_eq_true, if_false]
  cases hs : g.speeding
  · -- slowing down
    simp only [Bool.false_and, Bool.false_eq_true, if_false]
    have e := v2_slowing a top g hs
    have h2 : g.v2 a top ≤ g.speed - a / 2 := by
      rw [e]
      exact min_le_left _ _
    apply ceil_lt_of_add_one_le
    · exact div_nonneg (by linarith) (le_of_lt ha)
    · rw [div_add_one (ne_of_gt ha)]
      exact div_le_div_of_nonneg_right (by linarith) (le_of_lt ha)
  · simp only [Bool.true_and, if_true]
    cases ho : g.over sqrtf a top
    · -- still speeding
      simp only [Bool.not_false, if_true]
      have e := v2_speeding a top g hs
      have e3 : g.v3 sqrtf a top = g.v2 a top := by
        unfold Leg.v3
        rw [ho]
        simp
      have hge : min (a / 2) top ≤ g.v3 sqrtf a top := by
        rw [e3, e]
        exact min_le_min (by linarith) (le_refl _)
      rw [if_neg (not_lt.mpr hge)]
      by_cases hslow : g.speed < min (a / 2) top
      · rw [if_pos hslow]
        have : ⌈2 * g.r2 a top / min (a / 2) top⌉₊ ≤ ⌈2 * g.dist / min (a / 2) top⌉₊ :=
          Nat.ceil_mono (div_le_div_of_nonneg_right (by linarith) (le_of_lt hm))
        omega
      · rw [if_neg hslow]
        have hlt : ⌈2 * g.r2 a top / min (a / 2) top⌉₊ < ⌈2 * g.dist / min (a / 2) top⌉₊ := by
          apply ceil_lt_of_add_one_le
          · exact div_nonneg (by linarith) (le_of_lt hm)
          · rw [div_add_one (ne_of_gt hm)]
            have := hle2 ha hs
            have hsp := not_lt.mp hslow
            exact div_le_div_of_nonneg_right (by linarith) (le_of_lt hm)
        omega
    · -- the deceleration point is reached
      simp only [Bool.not_true, Bool.false_eq_true, if_false]
      have : ⌈2 * g.v3 sqrtf a top / a⌉₊ ≤ ⌈2 * top / a⌉₊ :=
        Nat.ceil_mono (div_le_div_of_nonneg_right (by linarith) (le_of_lt ha))
      omega

/-- From rest, with an acceleration or a maximum speed that is not positive, the first
pass ends the leg. -/
theorem arrived_first (sqrtf : ℚ → ℚ) (a top : ℚ) (g : Leg) (hv : g.speed = 0)
    (hs : g.speeding = true) (h : a ≤ 0 ∨ top ≤ 0) : g.arrived sqrtf a top = true := by
  have h32 := v3_le_v2 sqrtf a top g
  have e := v2_speeding a top g hs
  have h2 : g.v2 a top ≤ 0 := by
    rw [e, hv]
    rcases h with h | h
    · exact le_trans (min_le_left _ _) (by linarith)
    · exact le_trans (min_le_right _ _) h
  unfold Leg.arrived
  simp only [decide_eq_true_eq]
  exact Or.inl (le_trans h32 h2)

/-- A car that the second part of a pass leaves at its destination is at rest: whatever
the rounding and whatever `sqrtf` returns. -/
theorem advance_at_rest (fl sqrtf : ℚ → ℚ) (c : Car)
    (h : (MoveCar.advance fl sqrtf c).cur_loc = (c.requests.get c.dest).feet) :
    (MoveCar.advance fl sqrtf c).cur_speed = 0 := by
  cases ha : MoveCar.arrived fl sqrtf c
  · have e : (MoveCar.advance fl sqrtf c).cur_loc =
        if MoveCar.arrived fl sqrtf c = true then (c.requests.get c.dest).feet
        else MoveCar.loc2 fl c := rfl
    rw [e, ha] at h
    simp only [Bool.false_eq_true, if_false] at h
    obtain ⟨-, hd, hu⟩ := not_arrived_pass fl sqrtf c ha
    cases hg : c.going_up
    · exact absurd h (ne_of_gt (hd hg))
    · exact absurd h (ne_of_lt (hu hg))
  · exact (advance_arrived fl sqrtf c ha).2

/-- Whenever the loop of `MoveCar` is left, with no emergency stop on, the car is at its
destination and at rest, and the destination and the request table are as they were:
whatever the rounding and whatever `sqrtf` returns. -/
theorem loop_returns_at_rest (fl sqrtf : ℚ → ℚ) (n : Nat) (c r : Car)
    (he : c.emerg_stop_enabled = false)
    (hs : c.cur_loc = (c.requests.get c.dest).feet → c.cur_speed = 0)
    (h : MoveCar.loop fl sqrtf n c = some r) :
    r.cur_loc = (c.requests.get c.dest).feet ∧ r.cur_speed = 0 ∧
      r.dest = c.dest ∧ r.requests = c.requests := by
  induction n generalizing c with
  | zero =>
    unfold MoveCar.loop at h
    split_ifs at h with hc
    obtain rfl : c = r := Option.some.inj h
    exact ⟨hc, hs hc, rfl, rfl⟩
  | succ k ih =>
    rw [MoveCar.loop] at h
    split_ifs at h with hc
    · obtain rfl : c = r := Option.some.inj h
      exact ⟨hc, hs hc, rfl, rfl⟩
    · have ht1 : MoveCar.tick fl sqrtf c = MoveCar.advance fl sqrtf c := by
        unfold MoveCar.tick
        rw [retarget_clear fl c he]
      rw [ht1] at h
      obtain ⟨f1, f2, f3, -, -, -⟩ := advance_frame fl sqrtf c
      obtain ⟨h1, h2, h3, h4⟩ := ih (MoveCar.advance fl sqrtf c) (by rw [f3]; exact he)
        (fun hd => advance_at_rest fl sqrtf c (by rw [advance_feet] at hd; exact hd)) h
      exact ⟨by rw [h1, advance_feet], h2, by rw [h3, f1], by rw [h4, f2]⟩

/-- In arithmetic without rounding, with positive acceleration and maximum speed, no
emergency stop on and a speed that is not negative, the loop of `MoveCar` is left after
at most `Leg.ticksLeft + 1` passes. -/
theorem loop_terminates (sqrtf : ℚ → ℚ) (k : Nat) (c : Car)
    (he : c.emerg_stop_enabled = false) (ha : 0 < c.accel) (ht : 0 < c.max_speed)
    (hv : 0 ≤ c.cur_speed) (hk : c.leg.ticksLeft c.accel c.max_speed ≤ k)
    (hne : c.cur_loc ≠ (c.requests.get c.dest).feet) :
    ∃ r : Car, MoveCar.loop id sqrtf (k + 1) c = some r := by
  induction k generalizing c with
  | zero =>
    have ht1 : MoveCar.tick id sqrtf c = MoveCar.advance id sqrtf c := by
      unfold MoveCar.tick
      rw [retarget_clear id c he]
    rw [MoveCar.loop, if_neg hne, ht1]
    cases harr : c.leg.arrived sqrtf c.accel c.max_speed
    · have := ticksLeft_decreases sqrtf c.accel c.max_speed c.leg ha ht hv harr
      omega
    · obtain ⟨a1, -⟩ := advance_arrived id sqrtf c ((arrived_leg sqrtf c).trans harr)
      refine ⟨MoveCar.advance id sqrtf c, ?_⟩
      rw [MoveCar.loop, if_pos (by rw [advance_feet]; exact a1)]
  | succ n ih =>
    have ht1 : MoveCar.tick id sqrtf c = MoveCar.advance id sqrtf c := by
      unfold MoveCar.tick
      rw [retarget_clear id c he]
    obtain ⟨f1, f2, f3, f4, f5, f6⟩ := advance_frame id sqrtf c
    rw [MoveCar.loop, if_neg hne, ht1]
    cases harr : c.leg.arrived sqrtf c.accel c.max_speed
    · have hdec := ticksLeft_decreases sqrtf c.accel c.max_speed c.leg ha ht hv harr
      rw [← advance_leg] at hdec
      obtain ⟨h3, hr⟩ := not_arrived sqrtf c.accel c.max_speed c.leg harr
      have hne1 : (MoveCar.advance id sqrtf c).cur_loc ≠
          ((MoveCar.advance id sqrtf c).requests.get (MoveCar.advance id sqrtf c).dest).feet := by
        intro hc
        have hz := (leg_dist_zero (MoveCar.advance id sqrtf c)).mpr hc
        rw [advance_leg] at hz
        unfold Leg.tick at hz
        rw [harr] at hz
        simp only [Bool.false_eq_true, if_false] at hz
        exact absurd hz (ne_of_gt hr)
      have hv1 := advance_speed_nonneg id sqrtf c
      exact ih (MoveCar.advance id sqrtf c) (by rw [f3]; exact he) (by rw [f4]; exact ha)
          (by rw [f5]; exact ht) hv1 (by rw [f4, f5]; omega) hne1
    · obtain ⟨a1, -⟩ := advance_arrived id sqrtf c ((arrived_leg sqrtf c).trans harr)
      refine ⟨MoveCar.advance id sqrtf c, ?_⟩
      have : MoveCar.loop id sqrtf 0 (MoveCar.advance id sqrtf c) =
          some (MoveCar.advance id sqrtf c) := by
        rw [MoveCar.loop, if_pos (by rw [advance_feet]; exact a1)]
      exact loop_mono_le id sqrtf 0 (n + 1) _ _ (Nat.zero_le _) this

/-- In arithmetic without rounding, from rest, in the acceleration phase and with no
emergency stop on, the loop of `MoveCar` is left after finitely many passes. -/
theorem loop_from_rest (sqrtf : ℚ → ℚ) (c : Car) (hs : c.cur_speed = 0)
    (he : c.emerg_stop_enabled = false) (hu : c.accel_up = c.going_up) :
    ∃ (n : Nat) (r : Car), MoveCar.loop id sqrtf n c = some r := by
  by_cases hat : c.cur_loc = (c.requests.get c.dest).feet
  · refine ⟨0, c, ?_⟩
    unfold MoveCar.loop
    exact if_pos hat
  · by_cases hpos : 0 < c.accel ∧ 0 < c.max_speed
    · obtain ⟨r, h1⟩ :=
        loop_terminates sqrtf (c.leg.ticksLeft c.accel c.max_speed) c he hpos.1 hpos.2
          (le_of_eq hs.symm) (le_refl _) hat
      exact ⟨_, r, h1⟩
    · have hno : c.accel ≤ 0 ∨ c.max_speed ≤ 0 := by
        by_contra hcon
        push_neg at hcon
        exact hpos hcon
      have harr := arrived_first sqrtf c.accel c.max_speed c.leg hs
        (by simp [Car.leg, hu]) hno
      obtain ⟨a1, -⟩ := advance_arrived id sqrtf c ((arrived_leg sqrtf c).trans harr)
      refine ⟨1, MoveCar.advance id sqrtf c, ?_⟩
      have ht1 : MoveCar.tick id sqrtf c = MoveCar.advance id sqrtf c := by
        unfold MoveCar.tick
        rw [retarget_clear id c he]
      rw [MoveCar.loop, if_neg hat, ht1, MoveCar.loop,
        if_pos (by rw [advance_feet]; exact a1)]

/-- In single precision, with an acceleration and a maximum speed of 1/1000 at least and
no emergency stop on, a car in the shaft bound for a position in the shaft leaves the
loop of `MoveCar` after at most `MoveCar.passesLeft + 1` passes, whatever `sqrtf`
returns. -/
theorem loop_terminates_fl32 (sqrtf : ℚ → ℚ) (k : Nat) (c : Car)
    (he : c.emerg_stop_enabled = false) (ha : 1 / 1000 ≤ c.accel)
    (hm : 1 / 1000 ≤ c.max_speed) (h0 : 0 ≤ c.cur_loc) (h1 : c.cur_loc ≤ 510)
    (hv : 0 ≤ c.cur_speed) (f0 : 0 ≤ (c.requests.get c.dest).feet)
    (f1 : (c.requests.get c.dest).feet ≤ 510) (hk : MoveCar.passesLeft c ≤ k)
    (hne : c.cur_loc ≠ (c.requests.get c.dest).feet) :
    ∃ r : Car, MoveCar.loop fl32 sqrtf (k + 1) c = some r := by
  induction k generalizing c with
  | zero =>
    have ht1 : MoveCar.tick fl32 sqrtf c = MoveCar.advance fl32 sqrtf c := by
      unfold MoveCar.tick
      rw [retarget_clear fl32 c he]
    rw [MoveCar.loop, if_neg hne, ht1]
    cases harr : MoveCar.arrived fl32 sqrtf c
    · have := passesLeft_decreases sqrtf c h0 h1 hv ha hm harr
      omega
    · obtain ⟨a1, -⟩ := advance_arrived fl32 sqrtf c harr
      refine ⟨MoveCar.advance fl32 sqrtf c, ?_⟩
      rw [MoveCar.loop, if_pos (by rw [advance_feet]; exact a1)]
  | succ n ih =>
    have ht1 : MoveCar.tick fl32 sqrtf c = MoveCar.advance fl32 sqrtf c := by
      unfold MoveCar.tick
      rw [retarget_clear fl32 c he]
    obtain ⟨f1a, f2a, f3, f4, f5, f6⟩ := advance_frame fl32 sqrtf c
    rw [MoveCar.loop, if_neg hne, ht1]
    cases harr : MoveCar.arrived fl32 sqrtf c
    · have hdec := passesLeft_decreases sqrtf c h0 h1 hv ha hm harr
      obtain ⟨-, hd, hu⟩ := not_arrived_pass fl32 sqrtf c harr
      have eloc : (MoveCar.advance fl32 sqrtf c).cur_loc = MoveCar.loc2 fl32 c := by
        have e : (MoveCar.advance fl32 sqrtf c).cur_loc =
            if MoveCar.arrived fl32 sqrtf c = true then (c.requests.get c.dest).feet
            else MoveCar.loc2 fl32 c := rfl
        rw [e, harr]
        simp
      have hne1 : (MoveCar.advance fl32 sqrtf c).cur_loc ≠
          ((MoveCar.advance fl32 sqrtf c).requests.get
            (MoveCar.advance fl32 sqrtf c).dest).feet := by
        rw [advance_feet, eloc]
        cases hg : c.going_up
        · exact ne_of_gt (hd hg)
        · exact ne_of_lt (hu hg)
      obtain ⟨k0, k1⟩ := keepsInShaft_fl32 sqrtf c h0 h1 hv f0 f1
      exact ih (MoveCar.advance fl32 sqrtf c) (by rw [f3]; exact he) (by rw [f4]; exact ha)
          (by rw [f5]; exact hm) k0 k1 (advance_speed_nonneg fl32 sqrtf c)
          (by rw [advance_feet]; exact f0) (by rw [advance_feet]; exact f1) (by omega) hne1
    · obtain ⟨a1, -⟩ := advance_arrived fl32 sqrtf c harr
      refine ⟨MoveCar.advance fl32 sqrtf c, ?_⟩
      have : MoveCar.loop fl32 sqrtf 0 (MoveCar.advance fl32 sqrtf c) =
          some (MoveCar.advance fl32 sqrtf c) := by
        rw [MoveCar.loop, if_pos (by rw [advance_feet]; exact a1)]
      exact loop_mono_le fl32 sqrtf 0 (n + 1) _ _ (Nat.zero_le _) this

/-- In single precision, from rest in the acceleration phase, with an acceleration or a
maximum speed that is not positive, the first pass arrives. -/
theorem arrived_first_fl32 (sqrtf : ℚ → ℚ) (c : Car) (hs : c.cur_speed = 0)
    (hu : c.accel_up = c.going_up) (h : c.accel ≤ 0 ∨ c.max_speed ≤ 0) :
    MoveCar.arrived fl32 sqrtf c = true := by
  obtain ⟨h32, h2m⟩ := speed3_le fl32 sqrtf c
  have h21 := speed2_le_speed1 fl32 c
  have h3 : MoveCar.speed3 fl32 sqrtf c ≤ 0 := by
    rcases h with h | h
    · have h1 : MoveCar.speed1 fl32 c ≤ 0 := by
        unfold MoveCar.speed1
        rw [if_pos hu.symm, hs]
        have := fl32_nonpos (c.accel / 2) (by linarith)
        exact fl32_nonpos _ (by linarith)
      linarith
    · linarith
  unfold MoveCar.arrived
  simp only [decide_eq_true_eq]
  exact Or.inl h3

/-- In single precision, from rest in the acceleration phase with no emergency stop on,
a car in the shaft bound for a position in the shaft leaves the loop of `MoveCar` within
16711685 passes, for an acceleration and a maximum speed that are 1/1000 at least, or
one of them not positive, whatever `sqrtf` returns. -/
theorem loop_from_rest_fl32 (sqrtf : ℚ → ℚ) (c : Car) (hs : c.cur_speed = 0)
    (he : c.emerg_stop_enabled = false) (hu : c.accel_up = c.going_up)
    (h0 : 0 ≤ c.cur_loc) (h1 : c.cur_loc ≤ 510) (f0 : 0 ≤ (c.requests.get c.dest).feet)
    (f1 : (c.requests.get c.dest).feet ≤ 510)
    (hset : c.accel ≤ 0 ∨ c.max_speed ≤ 0 ∨
      (1 / 1000 ≤ c.accel ∧ 1 / 1000 ≤ c.max_speed)) :
    ∃ r : Car, MoveCar.loop fl32 sqrtf 16711685 c = some r := by
  by_cases hat : c.cur_loc = (c.requests.get c.dest).feet
  · refine ⟨c, loop_mono_le fl32 sqrtf 0 _ c c (Nat.zero_le _) ?_⟩
    unfold MoveCar.loop
    exact if_pos hat
  · have ht1 : MoveCar.tick fl32 sqrtf c = MoveCar.advance fl32 sqrtf c := by
      unfold MoveCar.tick
      rw [retarget_clear fl32 c he]
    have hfirst : c.accel ≤ 0 ∨ c.max_speed ≤ 0 →
        ∃ r : Car, MoveCar.loop fl32 sqrtf 16711685 c = some r := by
      intro hno
      have harr := arrived_first_fl32 sqrtf c hs hu hno
      obtain ⟨a1, -⟩ := advance_arrived fl32 sqrtf c harr
      refine ⟨MoveCar.advance fl32 sqrtf c,
        loop_mono_le fl32 sqrtf 1 _ c _ (by norm_num) ?_⟩
      rw [MoveCar.loop, if_neg hat, ht1, MoveCar.loop,
        if_pos (by rw [advance_feet]; exact a1)]
    rcases hset with h | h | ⟨ha, hm⟩
    · exact hfirst (Or.inl h)
    · exact hfirst (Or.inr h)
    · have hk : MoveCar.passesLeft c ≤ 16711684 := by
        unfold MoveCar.passesLeft
        have hc : ⌈(if c.going_up = true then (c.requests.get c.dest).feet - c.cur_loc
            else c.cur_loc - (c.requests.get c.dest).feet) * 32768⌉₊ ≤ 16711680 := by
          rw [Nat.ceil_le]
          push_cast
          split_ifs <;> linarith
        have hi : (if c.accel_up = c.going_up ∧ c.cur_speed < 1 / 2001 then 4 else 0) ≤ 4 := by
          split_ifs <;> omega
        omega
      obtain ⟨r, hr⟩ := loop_terminates_fl32 sqrtf 16711684 c he ha hm h0 h1
        (le_of_eq hs.symm) f0 f1 hk hat
      exact ⟨r, hr⟩

/-- In single precision each trip between two stops at the default settings leaves the
loop of `MoveCar` within 31 passes. -/
theorem default_trips_return (src dst : Fin 3) :
    (MoveCar fl32 sqrtfNearest 31 (Car.trip src dst)).isSome = true := by
  revert src dst
  decide!

/-- C16, as stated, fails, in single precision: after `SetMaxSpeed(2⁻¹⁶)` a car at rest
at the mid stop and bound for the top stop never leaves the loop of `MoveCar`.  The first
pass leaves it at 500 ft with the speed 2⁻¹⁶, every later pass adds 2⁻¹⁷ to 500, which
rounds back to 500, and clamps the speed to 2⁻¹⁶ again. -/
theorem MoveCar_never_returns :
    Car.creeping.cur_speed = 0 ∧ Car.creeping.emerg_stop_enabled = false ∧
    Car.creeping.cur_loc = 500 ∧
    (Car.creeping.requests.get Car.creeping.dest).feet = 510 ∧
    Car.creeping.accel = 10 ∧ Car.creeping.max_speed = 1 / 65536 ∧
    MoveCar.loc1 fl32 (MoveCar.tick fl32 sqrtfNearest Car.creeping) = 500 ∧
    ∀ n : Nat, MoveCar fl32 sqrtfNearest n Car.creeping = none := by
  refine ⟨by decide!, by decide!, by decide!, by decide!, by decide!, by decide!,
    by decide!, ?_⟩
  intro n
  have hne : ({ Car.creeping with accel_up := Car.creeping.going_up } : Car).cur_loc ≠
      (({ Car.creeping with accel_up := Car.creeping.going_up } : Car).requests.get
        ({ Car.creeping with accel_up := Car.creeping.going_up } : Car).dest).feet := by
    decide!
  cases n with
  | zero =>
    unfold MoveCar MoveCar.loop
    exact if_neg hne
  | succ k =>
    unfold MoveCar
    rw [MoveCar.loop, if_neg hne]
    exact loop_stuck fl32 sqrtfNearest _ (by decide!) (by decide!) k

/-- C16 (amended): for every acceleration and every maximum speed, and every car at rest
with no emergency stop on: whenever `MoveCar` returns, the car is at rest (`cur_speed`
is 0) exactly at the position of its destination, and the destination and the request
table are as they were, whatever the rounding `fl` of the operations and whatever
`sqrtf` returns; in arithmetic without rounding `MoveCar` returns once its loop is given
enough passes, and more passes do not change what it returns; in single precision, for
each trip between two stops at the default acceleration 10 and maximum speed 50,
`MoveCar` returns within 31 passes of its loop; and in single precision, whatever
`sqrtf` returns, for a car between 0 and 510 ft bound for a position between 0 and
510 ft, with an acceleration and a maximum speed that are both 1/1000 at least, or one
of them not positive, `MoveCar` returns within 16711685 passes of its loop. -/
theorem MoveCar_terminates (fl sqrtf : ℚ → ℚ) (c : Car) (hs : c.cur_speed = 0)
    (he : c.emerg_stop_enabled = false) :
    (∀ (n : Nat) (r : Car), MoveCar fl sqrtf n c = some r →
      r.cur_loc = (c.requests.get c.dest).feet ∧ r.cur_speed = 0 ∧
        r.dest = c.dest ∧ r.requests = c.requests) ∧
    ((∀ x, fl x = x) →
      ∃ (n : Nat) (r : Car), ∀ m : Nat, n ≤ m → MoveCar fl sqrtf m c = some r) ∧
    (∀ src dst : Fin 3, c = Car.trip src dst →
      ∃ r : Car, (∀ m : Nat, 31 ≤ m → MoveCar fl32 sqrtfNearest m c = some r) ∧
        r.cur_loc = (c.requests.get c.dest).feet ∧ r.cur_speed = 0) ∧
    (0 ≤ c.cur_loc → c.cur_loc ≤ 510 →
      0 ≤ (c.requests.get c.dest).feet → (c.requests.get c.dest).feet ≤ 510 →
      (c.accel ≤ 0 ∨ c.max_speed ≤ 0 ∨ (1 / 1000 ≤ c.accel ∧ 1 / 1000 ≤ c.max_speed)) →
      ∃ r : Car, (∀ m : Nat, 16711685 ≤ m → MoveCar fl32 sqrtf m c = some r) ∧
        r.cur_loc = (c.requests.get c.dest).feet ∧ r.cur_speed = 0) := by
  have hA : ∀ (f s : ℚ → ℚ) (n : Nat) (r : Car), MoveCar f s n c = some r →
      r.cur_loc = (c.requests.get c.dest).feet ∧ r.cur_speed = 0 ∧
        r.dest = c.dest ∧ r.requests = c.requests := by
    intro f s n r h
    exact loop_returns_at_rest f s n ({ c with accel_up := c.going_up } : Car) r he
      (fun _ => hs) h
  refine ⟨hA fl sqrtf, ?_, ?_, ?_⟩
  · intro hfl
    obtain rfl : fl = id := funext hfl
    obtain ⟨n, r, h1⟩ :=
      loop_from_rest sqrtf ({ c with accel_up := c.going_up } : Car) hs he rfl
    exact ⟨n, r, fun m hm => loop_mono_le id sqrtf n m _ r hm h1⟩
  · intro src dst hc
    have hsome := default_trips_return src dst
    rw [← hc] at hsome
    obtain ⟨r, hr⟩ := Option.isSome_iff_exists.mp hsome
    obtain ⟨h1, h2, -, -⟩ := hA fl32 sqrtfNearest 31 r hr
    exact ⟨r, fun m hm => loop_mono_le fl32 sqrtfNearest 31 m _ r hm hr, h1, h2⟩
  · intro h0 h1 f0 f1 hset
    obtain ⟨r, hr⟩ :=
      loop_from_rest_fl32 sqrtf ({ c with accel_up := c.going_up } : Car) hs he rfl
        h0 h1 f0 f1 hset
    obtain ⟨g1, g2, -, -⟩ := hA fl32 sqrtf 16711685 r hr
    exact ⟨r, fun m hm => loop_mono_le fl32 sqrtf 16711685 m _ r hm hr, g1, g2⟩

/-- Witness for C16 (amended): the trip from the ground stop to the mid stop at the
default acceleration 10 and maximum speed 50, in single precision: `MoveCar` returns
after exactly 30 passes of its loop, with the car at rest at 500 ft; it returns in
arithmetic without rounding; and the trip from the ground stop to the top stop with the
acceleration and the maximum speed both set to 1/1000 returns in single precision, with
the car at rest at 510 ft. -/
theorem MoveCar_terminates_witness :
    (Car.trip 0 1).cur_speed = 0 ∧
    (Car.trip 0 1).emerg_stop_enabled = false ∧
    (Car.trip 0 1).cur_loc = 0 ∧
    ((Car.trip 0 1).requests.get (Car.trip 0 1).dest).feet = 500 ∧
    (MoveCar fl32 sqrtfNearest 30 (Car.trip 0 1)).map (fun r => (r.cur_loc, r.cur_speed))
      = some (500, 0) ∧
    MoveCar fl32 sqrtfNearest 29 (Car.trip 0 1) = none ∧
    (∃ (n : Nat) (r : Car),
      ∀ m : Nat, n ≤ m → MoveCar id sqrtfTrunc m (Car.trip 0 1) = some r) ∧
    (∃ r : Car,
      (∀ m : Nat, 16711685 ≤ m →
        MoveCar fl32 sqrtfNearest m
          ({ Car.trip 0 2 with accel := 1 / 1000, max_speed := 1 / 1000 } : Car) = some r) ∧
      r.cur_loc = 510 ∧ r.cur_speed = 0) ∧
    ((∀ (n : Nat) (r : Car), MoveCar fl32 sqrtfNearest n (Car.trip 0 1) = some r →
      r.cur_loc = ((Car.trip 0 1).requests.get (Car.trip 0 1).dest).feet ∧
        r.cur_speed = 0 ∧
        r.dest = (Car.trip 0 1).dest ∧ r.requests = (Car.trip 0 1).requests) ∧
    ((∀ x, fl32 x = x) →
      ∃ (n : Nat) (r : Car),
        ∀ m : Nat, n ≤ m → MoveCar fl32 sqrtfNearest m (Car.trip 0 1) = some r) ∧
    (∀ src dst : Fin 3, Car.trip 0 1 = Car.trip src dst →
      ∃ r : Car,
        (∀ m : Nat, 31 ≤ m → MoveCar fl32 sqrtfNearest m (Car.trip 0 1) = some r) ∧
        r.cur_loc = ((Car.trip 0 1).requests.get (Car.trip 0 1).dest).feet ∧
        r.cur_speed = 0) ∧
    (0 ≤ (Car.trip 0 1).cur_loc → (Car.trip 0 1).cur_loc ≤ 510 →
      0 ≤ ((Car.trip 0 1).requests.get (Car.trip 0 1).dest).feet →
      ((Car.trip 0 1).requests.get (Car.trip 0 1).dest).feet ≤ 510 →
      ((Car.trip 0 1).accel ≤ 0 ∨ (Car.trip 0 1).max_speed ≤ 0 ∨
        (1 / 1000 ≤ (Car.trip 0 1).accel ∧ 1 / 1000 ≤ (Car.trip 0 1).max_speed)) →
      ∃ r : Car,
        (∀ m : Nat, 16711685 ≤ m → MoveCar fl32 sqrtfNearest m (Car.trip 0 1) = some r) ∧
        r.cur_loc = ((Car.trip 0 1).requests.get (Car.trip 0 1).dest).feet ∧
        r.cur_speed = 0)) :=
  ⟨by decide!, by decide!, by decide!, by decide!, by decide!, by decide!,
    (MoveCar_terminates id sqrtfTrunc (Car.trip 0 1) (by decide!) (by decide!)).2.1
      (fun _ => rfl),
    (MoveCar_terminates fl32 sqrtfNearest
      ({ Car.trip 0 2 with accel := 1 / 1000, max_speed := 1 / 1000 } : Car)
      (by decide!) (by decide!)).2.2.2 (by decide!) (by decide!) (by decide!) (by decide!)
      (Or.inr (Or.inr ⟨by decide!, by decide!⟩)),
    MoveCar_terminates fl32 sqrtfNearest (Car.trip 0 1) (by decide!) (by decide!)⟩

/-! ## Rounding to single precision is monotone -/

/-- C19: `GetIsMoving` is true exactly when the position differs from that of the
destination or the speed is not 0.  When it is true, the open-door block of
`taskButtons` and `prvDoorInterferenceCommand` post nothing on `door_rx_queue` and only
hand out the line of refusal; when it is false, each posts exactly one
`OPEN_CLOSE_SEQ`. -/
theorem open_door_requests (c : Car) :
    (GetIsMoving c = true ↔
      (c.cur_loc ≠ (c.requests.get c.dest).feet ∨ c.cur_speed ≠ 0)) ∧
    (GetIsMoving c = true →
      taskButtons.openDoor c =
        { door_posts := [], line := "Can\x27t open door while car is moving\r\n" } ∧
      prvDoorInterferenceCommand c =
        { door_posts := [], line := "Can\x27t open door while car is moving\r\n" }) ∧
    (GetIsMoving c = false →
      taskButtons.openDoor c =
        { door_posts := [DOOR_MSG.OPEN_CLOSE_SEQ], line := "Door Opening\r\n" } ∧
      prvDoorInterferenceCommand c =
        { door_posts := [DOOR_MSG.OPEN_CLOSE_SEQ], line := "Door Opening\r\n" }) := by
  refine ⟨?_, ?_, ?_⟩
  · unfold GetIsMoving
    simp only [Bool.not_eq_true', Bool.and_eq_false_imp, decide_eq_true_eq,
      decide_eq_false_iff_not]
    tauto
  · intro h
    unfold taskButtons.openDoor prvDoorInterferenceCommand
    rw [h]
    exact ⟨rfl, rfl⟩
  · intro h
    unfold taskButtons.openDoor prvDoorInterferenceCommand
    rw [h]
    exact ⟨rfl, rfl⟩

/-- What `SetRequest` does to the table: the slot it names is marked requested, every
other slot is left alone, and the table is left as it was exactly when that slot was
already requested with the same tag. -/
theorem SetRequest_table (i : Fin 4) (dir : DIR) (c : Car) :
    ((SetRequest i dir c).requests.get i).isRequested = true ∧
    (∀ j : Fin 4, j ≠ i → (SetRequest i dir c).requests.get j = c.requests.get j) ∧
    SetRequest i dir c = { c with requests := (SetRequest i dir c).requests } ∧
    ((SetRequest i dir c).requests = c.requests ↔
      ((c.requests.get i).isRequested = true ∧ (c.requests.get i).dir = dir)) := by
  obtain ⟨loc, dest, sp, ms, ac, gu, au, es,
    ⟨⟨q0, d0, f0, a0⟩, ⟨q1, d1, f1, a1⟩, ⟨q2, d2, f2, a2⟩, ⟨q3, d3, f3, a3⟩⟩, b4, b5⟩ := c
  refine ⟨?_, ?_, rfl, ?_⟩
  · fin_cases i <;> simp [SetRequest, RequestTable.get, RequestTable.set]
  · intro j hj
    fin_cases i <;> fin_cases j <;>
      first
      | exact absurd rfl hj
      | simp [SetRequest, RequestTable.get, RequestTable.set]
  · fin_cases i
    · cases q0 <;> cases d0 <;> cases dir <;>
        simp [SetRequest, RequestTable.get, RequestTable.set]
    · cases q1 <;> cases d1 <;> cases dir <;>
        simp [SetRequest, RequestTable.get, RequestTable.set]
    · cases q2 <;> cases d2 <;> cases dir <;>
        simp [SetRequest, RequestTable.get, RequestTable.set]
    · cases q3 <;> cases d3 <;> cases dir <;>
        simp [SetRequest, RequestTable.get, RequestTable.set]

/-- C20, as stated, fails: with the mid stop already called Up and the car heading up,
the command for floor 1, which is within 0..2, leaves the request table as it was. -/
theorem prvSendToFloorCommand_in_range_unmodified :
    (0 : Int) ≤ 1 ∧ (1 : Int) ≤ 2 ∧
    (prvSendToFloorCommand 1 Car.midAlreadyCalled).1.requests =
      Car.midAlreadyCalled.requests ∧
    (prvSendToFloorCommand 1 Car.midAlreadyCalled).2 = "Floor Requested\r\n" := by
  decide

/-- C20 (amended): for every integer `floor` outside 0..2 the command leaves the car and
its request table as they were and only hands out the line of refusal.  For `floor`
within 0..2 it hands out `Floor Requested` and calls `SetRequest(floor, UP)` when the
car is heading up and `SetRequest(floor, DOWN)` otherwise: the record with that index is
marked requested, no other record and nothing else of the car changes, and the table is
left as it was exactly when that record was already requested with that tag.  So the
table is modified only if `floor` is within 0..2. -/
theorem prvSendToFloorCommand_effect (floor : Int) (c : Car) :
    (¬ (0 ≤ floor ∧ floor ≤ 2) →
      prvSendToFloorCommand floor c = (c, "Floor number has to be between 0 and 2\r\n")) ∧
    ((prvSendToFloorCommand floor c).1.requests ≠ c.requests → 0 ≤ floor ∧ floor ≤ 2) ∧
    (0 ≤ floor ∧ floor ≤ 2 →
      (prvSendToFloorCommand floor c).2 = "Floor Requested\r\n" ∧
      (prvSendToFloorCommand floor c).1 =
        SetRequest (Fin.ofNat floor.toNat) (if c.going_up = true then .UP else .DOWN) c ∧
      (Fin.ofNat floor.toNat : Fin 4).val = floor ∧
      ((prvSendToFloorCommand floor c).1.requests.get (Fin.ofNat floor.toNat)).isRequested
        = true ∧
      (∀ j : Fin 4, j ≠ Fin.ofNat floor.toNat →
        (prvSendToFloorCommand floor c).1.requests.get j = c.requests.get j) ∧
      (prvSendToFloorCommand floor c).1 =
        { c with requests := (prvSendToFloorCommand floor c).1.requests } ∧
      ((prvSendToFloorCommand floor c).1.requests = c.requests ↔
        ((c.requests.get (Fin.ofNat floor.toNat)).isRequested = true ∧
          (c.requests.get (Fin.ofNat floor.toNat)).dir =
            (if c.going_up = true then .UP else .DOWN)))) := by
  have hout : ¬ (0 ≤ floor ∧ floor ≤ 2) →
      prvSendToFloorCommand floor c = (c, "Floor number has to be between 0 and 2\r\n") := by
    intro h
    unfold prvSendToFloorCommand
    rw [if_neg h]
  refine ⟨hout, ?_, ?_⟩
  · intro hne
    by_contra h
    rw [hout h] at hne
    exact hne rfl
  · intro h
    have e : (prvSendToFloorCommand floor c).1 =
        SetRequest (Fin.ofNat floor.toNat) (if c.going_up = true then .UP else .DOWN) c := by
      unfold prvSendToFloorCommand GetGoingUp
      rw [if_pos h]
      split_ifs <;> rfl
    have e2 : (prvSendToFloorCommand floor c).2 = "Floor Requested\r\n" := by
      unfold prvSendToFloorCommand
      rw [if_pos h]
    obtain ⟨s1, s2, s3, s4⟩ :=
      SetRequest_table (Fin.ofNat floor.toNat) (if c.going_up = true then .UP else .DOWN) c
    rw [e]
    refine ⟨e2, rfl, ?_, s1, s2, s3, s4⟩
    obtain ⟨h0, h2⟩ := h
    interval_cases floor <;> rfl

/-- Witness for C20 (amended): floor 2 from the startup car. -/
theorem prvSendToFloorCommand_effect_witness :
    (prvSendToFloorCommand 2 Car.startup).1.requests ≠ Car.startup.requests ∧
    (prvSendToFloorCommand 7 Car.startup) =
      (Car.startup, "Floor number has to be between 0 and 2\r\n") ∧
    ((0 : Int) ≤ 2 ∧ (2 : Int) ≤ 2) :=
  ⟨by decide,
    (prvSendToFloorCommand_effect 7 Car.startup).1 (by decide),
    (prvSendToFloorCommand_effect 2 Car.startup).2.1 (by decide)⟩

/-! ## Where `EITHER` can arise -/

/-- The tag that `SetRequest` leaves on each slot. -/
theorem SetRequest_dir (i j : Fin 4) (dir : DIR) (c : Car) :
    ((SetRequest i dir c).requests.get j).dir =
      if j = i then (if (c.requests.get i).opposes dir then DIR.EITHER else dir)
      else (c.requests.get j).dir := by
  unfold FloorRequest.opposes
  fin_cases i <;> fin_cases j <;>
    simp [SetRequest, RequestTable.get, RequestTable.set] <;>
    split_ifs <;> simp_all

/-- The scan never writes the tag of the ground stop or of the top stop. -/
theorem select_tags (c : Car) :
    (UpdateDestination.select c).2.requests.r0.dir = c.requests.r0.dir ∧
    (UpdateDestination.select c).2.requests.r2.dir = c.requests.r2.dir := by
  cases h : c.emerg_stop_enabled
  · rcases select_cases c h with ⟨-, -, hs⟩ | ⟨-, -, -, hs⟩ | ⟨-, -, hs⟩ | ⟨-, -, -, hs⟩ | hs <;>
      rw [hs] <;>
      obtain ⟨loc, dest, sp, ms, ac, gu, au, es,
        ⟨⟨q0, d0, f0, a0⟩, ⟨q1, d1, f1, a1⟩, ⟨q2, d2, f2, a2⟩, r3⟩, b4, b5⟩ := c <;>
      cases q0 <;> cases q1 <;> cases q2 <;> cases d1 <;>
      simp [UpdateDestination.upFromGround, UpdateDestination.upFromMid,
        UpdateDestination.downFromMid, UpdateDestination.downFromTop, Car.serve, Car.retag,
        RequestTable.get, RequestTable.set]
  · rw [select_emergency c h]
    simp [Car.serve, RequestTable.get, RequestTable.set]

/-- The function `UpdateDestination` never writes the tag of the ground stop or of the
top stop. -/
theorem UpdateDestination_tags (c : Car) :
    (UpdateDestination c).2.requests.r0.dir = c.requests.r0.dir ∧
    (UpdateDestination c).2.requests.r2.dir = c.requests.r2.dir := by
  obtain ⟨k0, k2⟩ := select_tags (UpdateDestination.direction c)
  simp only [direction_requests] at k0 k2
  unfold UpdateDestination
  simp only [leds_requests]
  exact ⟨k0, k2⟩

/-- A pass of the loop of `MoveCar` leaves the records of the three stops alone. -/
theorem tick_tags (fl sqrtf : ℚ → ℚ) (c : Car) :
    (MoveCar.tick fl sqrtf c).requests.r0 = c.requests.r0 ∧
    (MoveCar.tick fl sqrtf c).requests.r2 = c.requests.r2 := by
  obtain ⟨-, ha, -⟩ := advance_frame fl sqrtf (MoveCar.retarget fl c)
  obtain ⟨-, -, -, -, -, -, r0, -, r2⟩ := retarget_frame fl c
  unfold MoveCar.tick
  rw [ha]
  exact ⟨r0, r2⟩

/-- An event that makes a floor call is that call of `SetRequest`, and the tag it passes
is Up or Down. -/
theorem apply_request (fl sqrtf : ℚ → ℚ) (e : CallEvent) (c : Car) (i : Fin 4) (dir : DIR)
    (h : e.request c = some (i, dir)) :
    e.apply fl sqrtf c = SetRequest i dir c ∧ dir ≠ .EITHER := by
  cases e with
  | GDCall | P1DNCall | P1UPCall | P2Call =>
    simp only [CallEvent.request, Option.some.injEq, Prod.mk.injEq] at h
    obtain ⟨rfl, rfl⟩ := h
    exact ⟨rfl, by decide⟩
  | sendToFloor floor =>
    simp only [CallEvent.request] at h
    split_ifs at h with hr hg
    · simp only [Option.some.injEq, Prod.mk.injEq] at h
      obtain ⟨rfl, rfl⟩ := h
      refine ⟨?_, by decide⟩
      show (prvSendToFloorCommand floor c).1 = _
      unfold prvSendToFloorCommand
      rw [if_pos hr, if_pos hg]
    · simp only [Option.some.injEq, Prod.mk.injEq] at h
      obtain ⟨rfl, rfl⟩ := h
      refine ⟨?_, by decide⟩
      show (prvSendToFloorCommand floor c).1 = _
      unfold prvSendToFloorCommand
      rw [if_pos hr, if_neg hg]
  | SW1 | SW2 | SW3 =>
    simp only [CallEvent.request] at h
    split_ifs at h with hg <;>
      (simp only [Option.some.injEq, Prod.mk.injEq] at h
       obtain ⟨rfl, rfl⟩ := h
       refine ⟨?_, by decide⟩
       simp [CallEvent.apply, SendToFloor, hg])
  | arbitrate => simp [CallEvent.request] at h
  | pass => simp [CallEvent.request] at h

/-- An event that makes no floor call leaves the tags of the ground stop and of the top
stop as they were. -/
theorem apply_no_request (fl sqrtf : ℚ → ℚ) (e : CallEvent) (c : Car)
    (h : e.request c = none) :
    (e.apply fl sqrtf c).requests.r0.dir = c.requests.r0.dir ∧
    (e.apply fl sqrtf c).requests.r2.dir = c.requests.r2.dir := by
  cases e with
  | GDCall | P1DNCall | P1UPCall | P2Call | SW1 | SW2 | SW3 =>
    simp [CallEvent.request] at h
  | sendToFloor floor =>
    simp only [CallEvent.request] at h
    split_ifs at h with hr
    show (prvSendToFloorCommand floor c).1.requests.r0.dir = _ ∧
      (prvSendToFloorCommand floor c).1.requests.r2.dir = _
    unfold prvSendToFloorCommand
    rw [if_neg hr]
    exact ⟨rfl, rfl⟩
  | arbitrate => exact UpdateDestination_tags c
  | pass =>
    obtain ⟨k0, k2⟩ := tick_tags fl sqrtf c
    show (MoveCar.tick fl sqrtf c).requests.r0.dir = _ ∧
      (MoveCar.tick fl sqrtf c).requests.r2.dir = _
    rw [k0, k2]
    exact ⟨rfl, rfl⟩

/-- An event leaves `EITHER` on the ground record or on the top record, neither of which
held it before, exactly when it clashes. -/
theorem apply_either_iff (fl sqrtf : ℚ → ℚ) (e : CallEvent) (c : Car)
    (h0 : c.requests.r0.dir ≠ .EITHER) (h2 : c.requests.r2.dir ≠ .EITHER) :
    ((e.apply fl sqrtf c).requests.r0.dir = .EITHER ∨
      (e.apply fl sqrtf c).requests.r2.dir = .EITHER) ↔ e.clashes c = true := by
  unfold CallEvent.clashes
  cases hq : e.request c with
  | none =>
    obtain ⟨k0, k2⟩ := apply_no_request fl sqrtf e c hq
    rw [k0, k2]
    simp [h0, h2]
  | some q =>
    obtain ⟨i, dir⟩ := q
    obtain ⟨ha, hd⟩ := apply_request fl sqrtf e c i dir hq
    rw [ha]
    have e0 := SetRequest_dir i 0 dir c
    have e2 := SetRequest_dir i 2 dir c
    simp only [RequestTable.get] at e0 e2
    rw [e0, e2]
    simp only [decide_eq_true_eq]
    fin_cases i
    · simp only [Fin.zero_eta, if_true]
      have : ((2 : Fin 4) = 0) = False := by decide
      simp only [this, if_false, RequestTable.get]
      constructor
      · rintro (h | h)
        · split_ifs at h with ho
          · exact ⟨Or.inl trivial, ho⟩
          · exact absurd h hd
        · exact absurd h h2
      · rintro ⟨-, ho⟩
        left
        rw [if_pos ho]
    · have a1 : ((0 : Fin 4) = 1) = False := by decide
      have a2 : ((2 : Fin 4) = 1) = False := by decide
      have a3 : ((1 : Fin 4) = 0) = False := by decide
      have a4 : ((1 : Fin 4) = 2) = False := by decide
      simp [a1, a2, a3, a4, h0, h2, RequestTable.get]
    · have : ((0 : Fin 4) = 2) = False := by decide
      simp only [Fin.reduceFinMk, this, if_false, if_true, RequestTable.get]
      constructor
      · rintro (h | h)
        · exact absurd h h0
        · split_ifs at h with ho
          · exact ⟨Or.inr trivial, ho⟩
          · exact absurd h hd
      · rintro ⟨-, ho⟩
        right
        rw [if_pos ho]
    · have a1 : ((0 : Fin 4) = 3) = False := by decide
      have a2 : ((2 : Fin 4) = 3) = False := by decide
      have a3 : ((3 : Fin 4) = 0) = False := by decide
      have a4 : ((3 : Fin 4) = 2) = False := by decide
      simp [a1, a2, a3, a4, h0, h2, RequestTable.get]

/-- Events none of which clashes leave `EITHER` neither on the ground record nor on the
top record. -/
theorem run_no_either (fl sqrtf : ℚ → ℚ) (evs : List CallEvent) (c : Car)
    (h0 : c.requests.r0.dir ≠ .EITHER) (h2 : c.requests.r2.dir ≠ .EITHER)
    (hn : CallEvent.noClash fl sqrtf evs c = true) (k : Nat) :
    (CallEvent.run fl sqrtf (evs.take k) c).requests.r0.dir ≠ .EITHER ∧
    (CallEvent.run fl sqrtf (evs.take k) c).requests.r2.dir ≠ .EITHER := by
  induction evs generalizing c k with
  | nil =>
    rw [List.take_nil]
    exact ⟨h0, h2⟩
  | cons e rest ih =>
    cases k with
    | zero => exact ⟨h0, h2⟩
    | succ j =>
      simp only [CallEvent.noClash, Bool.and_eq_true, Bool.not_eq_true'] at hn
      have hne := (apply_either_iff fl sqrtf e c h0 h2).not.mpr (by simp [hn.1])
      push_neg at hne
      exact ih (e.apply fl sqrtf c) hne.1 hne.2 hn.2 j

/-- C21, as stated, fails: from the startup state the console call for the top stop
followed by the P2 button of the car, or by the send-to-floor command for floor 2, which
tag their request Up because the car is heading up, leaves the top record requested with
direction `EITHER`. -/
theorem floor_calls_either_on_top :
    Car.startup.going_up = true ∧
    (CallEvent.run fl32 sqrtfNearest [.P2Call] Car.startup).requests.r2.isRequested = true ∧
    (CallEvent.run fl32 sqrtfNearest [.P2Call] Car.startup).requests.r2.dir = .DOWN ∧
    (CallEvent.run fl32 sqrtfNearest [.P2Call, .SW1] Car.startup).requests.r2.dir =
      .EITHER ∧
    (CallEvent.run fl32 sqrtfNearest [.P2Call, .sendToFloor 2] Car.startup).requests.r2.dir =
      .EITHER := by
  decide!

/-- C21 (amended): from a table whose ground record and top record do not hold `EITHER`,
as in the initial table, an event (a call command of the console, the send-to-floor
command, a floor button of the car, a call of `UpdateDestination` or a pass of the loop of
`MoveCar`) leaves `EITHER` on the ground record or on the top record exactly when it is a
floor call for that stop made while its record is requested with the opposite tag; hence
in every sequence of events without such a call neither record ever holds `EITHER`. -/
theorem floor_calls_either_only_mid (fl sqrtf : ℚ → ℚ) (evs : List CallEvent) (c : Car)
    (h0 : c.requests.r0.dir ≠ .EITHER) (h2 : c.requests.r2.dir ≠ .EITHER) :
    (∀ e : CallEvent,
      ((e.apply fl sqrtf c).requests.r0.dir = .EITHER ∨
        (e.apply fl sqrtf c).requests.r2.dir = .EITHER) ↔ e.clashes c = true) ∧
    (CallEvent.noClash fl sqrtf evs c = true →
      ∀ k : Nat,
        (CallEvent.run fl sqrtf (evs.take k) c).requests.r0.dir ≠ .EITHER ∧
        (CallEvent.run fl sqrtf (evs.take k) c).requests.r2.dir ≠ .EITHER) :=
  ⟨fun e => apply_either_iff fl sqrtf e c h0 h2,
    fun hn k => run_no_either fl sqrtf evs c h0 h2 hn k⟩

/-- Witness for C21 (amended): from the startup state, the P2 button pressed while the
car is heading up, which tags the top record Up, calls for the ground stop from the
console and by send-to-floor, arbitration, and calls for the mid stop from the console
and the P1 button; none clashes, the mid record holds `EITHER` at the end, the other two
do not. -/
theorem floor_calls_either_only_mid_witness :
    Car.startup.requests.r0.dir ≠ .EITHER ∧ Car.startup.requests.r2.dir ≠ .EITHER ∧
    (CallEvent.run fl32 sqrtfNearest [.SW1] Car.startup).requests.r2.dir = .UP ∧
    (CallEvent.run fl32 sqrtfNearest
      [.SW1, .GDCall, .sendToFloor 0, .arbitrate, .P1DNCall, .SW2, .SW3]
      Car.startup).requests.r1.dir = .EITHER ∧
    CallEvent.noClash fl32 sqrtfNearest
      [.SW1, .GDCall, .sendToFloor 0, .arbitrate, .P1DNCall, .SW2, .SW3]
      Car.startup = true ∧
    (∀ k : Nat,
      (CallEvent.run fl32 sqrtfNearest
        (([.SW1, .GDCall, .sendToFloor 0, .arbitrate, .P1DNCall, .SW2, .SW3] :
          List CallEvent).take k) Car.startup).requests.r0.dir ≠ .EITHER ∧
      (CallEvent.run fl32 sqrtfNearest
        (([.SW1, .GDCall, .sendToFloor 0, .arbitrate, .P1DNCall, .SW2, .SW3] :
          List CallEvent).take k) Car.startup).requests.r2.dir ≠ .EITHER) :=
  ⟨by decide!, by decide!, by decide!, by decide!, by decide!,
    (floor_calls_either_only_mid fl32 sqrtfNearest
      [.SW1, .GDCall, .sendToFloor 0, .arbitrate, .P1DNCall, .SW2, .SW3] Car.startup
      (by decide!) (by decide!)).2 (by decide!)⟩

/-! ## Calling `SetRequest` twice -/

/-- C25, as stated, fails: with the mid stop called Up, one call `SetRequest(1, DOWN)`
leaves the record tagged `EITHER` and a second one leaves it tagged `DOWN`. -/
theorem SetRequest_twice_differs :
    (SetRequest 1 .DOWN Car.groundCallMidUp).requests.r1.dir = .EITHER ∧
    (SetRequest 1 .DOWN (SetRequest 1 .DOWN Car.groundCallMidUp)).requests.r1.dir = .DOWN ∧
    SetRequest 1 .DOWN (SetRequest 1 .DOWN Car.groundCallMidUp) ≠
      SetRequest 1 .DOWN Car.groundCallMidUp := by
  decide!

/-- C25, amended: on a table whose record `i` is not requested with the direction
opposite to `dir`, a second call `SetRequest(i, dir)` leaves the globals as the first
did.  On every table the second call keeps every requested flag and every record other
than `i`. -/
theorem SetRequest_twice (i : Fin 4) (dir : DIR) (c : Car) :
    (¬ (c.requests.get i).opposes dir →
      SetRequest i dir (SetRequest i dir c) = SetRequest i dir c) ∧
    (∀ j : Fin 4,
      ((SetRequest i dir (SetRequest i dir c)).requests.get j).isRequested =
        ((SetRequest i dir c).requests.get j).isRequested) ∧
    (∀ j : Fin 4, j ≠ i →
      (SetRequest i dir (SetRequest i dir c)).requests.get j =
        (SetRequest i dir c).requests.get j) := by
  obtain ⟨loc, dest, sp, ms, ac, gu, au, es,
    ⟨⟨q0, d0, f0, a0⟩, ⟨q1, d1, f1, a1⟩, ⟨q2, d2, f2, a2⟩, ⟨q3, d3, f3, a3⟩⟩, b4, b5⟩ := c
  refine ⟨?_, ?_, ?_⟩
  · fin_cases i
    · cases q0 <;> cases d0 <;> cases dir <;>
        simp [SetRequest, RequestTable.get, RequestTable.set, FloorRequest.opposes]
    · cases q1 <;> cases d1 <;> cases dir <;>
        simp [SetRequest, RequestTable.get, RequestTable.set, FloorRequest.opposes]
    · cases q2 <;> cases d2 <;> cases dir <;>
        simp [SetRequest, RequestTable.get, RequestTable.set, FloorRequest.opposes]
    · cases q3 <;> cases d3 <;> cases dir <;>
        simp [SetRequest, RequestTable.get, RequestTable.set, FloorRequest.opposes]
  · intro j
    fin_cases i <;> fin_cases j <;>
      simp [SetRequest, RequestTable.get, RequestTable.set]
  · intro j hj
    fin_cases i <;> fin_cases j <;>
      first
      | exact absurd rfl hj
      | simp [SetRequest, RequestTable.get, RequestTable.set]

/-- The amended C25 at a test point: the mid stop called Up is called Up twice more, and
the top stop, not requested, is called Down twice. -/
theorem SetRequest_twice_witness :
    ¬ (Car.groundCallMidUp.requests.get 1).opposes .UP ∧
    SetRequest 1 .UP (SetRequest 1 .UP Car.groundCallMidUp) =
      SetRequest 1 .UP Car.groundCallMidUp ∧
    (SetRequest 1 .UP Car.groundCallMidUp).requests.r1.isRequested = true :=
  ⟨by decide!, (SetRequest_twice 1 .UP Car.groundCallMidUp).1 (by decide!), by decide!⟩

/-! ## The phases of the door stay within 0 to 4 -/

/-- C24: from a door at rest, whatever is drained and whenever, `cur_state` and
`next_state` are at most 4 between two receives.  In the animation loop, when the
condition for `next_state += 2` holds the sum is at most 4, so that nothing is lost in a
`uint8_t`; `next_state` is at most 4 after the drain, and the phase the switch then
runs, which is that value, is at most 4: the `default` branch is not taken. -/
theorem taskDoor_phases_within_4 (d0 : Door) (h0 : d0.isIdle)
    (rxs : List (Option DOOR_MSG)) (rx : Option DOOR_MSG) :
    (taskDoor.run rxs d0).cur_state ≤ 4 ∧
    (taskDoor.run rxs d0).next_state ≤ 4 ∧
    ((taskDoor.run rxs d0).loop = .animation →
      ((taskDoor.run rxs d0).reverses → (taskDoor.run rxs d0).next_state + 2 ≤ 4) ∧
      (taskDoor.drain rx (taskDoor.run rxs d0)).next_state ≤ 4 ∧
      (taskDoor.phase (taskDoor.drain rx (taskDoor.run rxs d0))).cur_state =
        (taskDoor.drain rx (taskDoor.run rxs d0)).next_state ∧
      (taskDoor.phase (taskDoor.drain rx (taskDoor.run rxs d0))).cur_state ≤ 4) := by
  have hi := inv_run rxs d0 (inv_of_isIdle d0 h0)
  generalize taskDoor.run rxs d0 = d at hi
  unfold Door.inv at hi
  cases hl : d.loop
  · rw [hl] at hi
    obtain ⟨e1, e2, -⟩ := hi
    exact ⟨by omega, by omega, fun h => absurd h (by decide)⟩
  · rw [hl] at hi
    obtain ⟨e1, e2, e3, e4⟩ := hi
    obtain ⟨g1, -, g3, -⟩ := drain_facts rx d e3 e4
    obtain ⟨p1, -⟩ := phase_facts (taskDoor.drain rx d) g1 (by rw [g3, e1])
    refine ⟨e2, e3, fun _ => ⟨fun hr => ?_, g1, p1, by rw [p1]; exact g1⟩⟩
    obtain ⟨r1, -, r3, -⟩ := hr
    have := e4 r1
    omega

/-- C24 at a test point: the door `Door.closingFromOpen` stands in phase 3 with phase 2
due next; the condition for `next_state += 2` holds, and `OPEN_CLOSE_SEQ` sends it to
phase 4. -/
theorem taskDoor_phases_within_4_witness :
    Door.startup.isIdle ∧
    Door.closingFromOpen.loop = .animation ∧
    Door.closingFromOpen.reverses ∧
    Door.closingFromOpen.next_state + 2 ≤ 4 ∧
    (taskDoor.phase (taskDoor.drain (some .OPEN_CLOSE_SEQ) Door.closingFromOpen)).cur_state
      = 4 :=
  ⟨by decide, by decide, by decide,
    (taskDoor_phases_within_4 Door.startup (by decide)
      (some .OPEN_CLOSE_SEQ :: List.replicate 6 none) none).2.2 (by decide) |>.1 (by decide),
    by decide⟩

/-! ## The lamps of the door -/

/-- Draining a message writes no lamp, and leaves phase 4 due next only from phase 3. -/
theorem drain_lamps (rx : Option DOOR_MSG) (d : Door)
    (ho : d.opening = false → d.next_state + 1 = d.cur_state)
    (h4 : d.next_state = 4 → d.cur_state = 3) :
    (taskDoor.drain rx d).lamps = d.lamps ∧
    ((taskDoor.drain rx d).next_state = 4 → d.cur_state = 3) := by
  obtain ⟨op, cs, ns, so, ad, l1, l2, l3, tx, lp⟩ := d
  simp only at ho h4
  rcases rx with _ | m
  · exact ⟨rfl, h4⟩
  · cases m
    · simp only [taskDoor.drain]
      split_ifs with hc
      · obtain ⟨h1, -, h3, -⟩ := hc
        have := ho h1
        refine ⟨rfl, fun hn => ?_⟩
        change (ns + 2) % 256 = 4 at hn
        show cs = 3
        omega
      · exact ⟨rfl, h4⟩
    · exact ⟨rfl, h4⟩
    · simp only [taskDoor.drain]
      split_ifs <;> exact ⟨rfl, h4⟩
    · exact ⟨rfl, h4⟩

/-- The phase switch, entered with the lamps showing the pattern of the phase before and
with phase 4 due only from phase 3, leaves the lamps showing the pattern of the phase it
ran, and again leaves phase 4 due next only from phase 3. -/
theorem phase_lamps (d : Door) (hn : d.next_state ≤ 4)
    (hL : lampsFor d.cur_state = some d.lamps) (h4 : d.next_state = 4 → d.cur_state = 3) :
    lampsFor (taskDoor.phase d).cur_state = some (taskDoor.phase d).lamps ∧
    ((taskDoor.phase d).next_state = 4 → (taskDoor.phase d).cur_state = 3) ∧
    ((taskDoor.phase d).cur_state = 4 →
      d.cur_state = 3 ∧ (taskDoor.phase d).lamps = d.lamps) := by
  obtain ⟨op, cs, ns, so, ad, l1, l2, l3, tx, lp⟩ := d
  simp only at hn hL h4
  interval_cases ns
  · cases op <;> cases so <;>
      simp [taskDoor.phase, setLED, LED1, LED2, LED3, lampsFor, Door.lamps]
  · cases op <;> cases so <;>
      simp [taskDoor.phase, setLED, LED1, LED2, LED3, lampsFor, Door.lamps]
  · cases op <;> cases so <;>
      simp [taskDoor.phase, setLED, LED1, LED2, LED3, lampsFor, Door.lamps]
  · cases op <;> cases so <;>
      simp [taskDoor.phase, setLED, LED1, LED2, LED3, lampsFor, Door.lamps]
  · have hc := h4 rfl
    subst hc
    simp only [lampsFor, Door.lamps, Option.some.injEq, Prod.mk.injEq] at hL
    obtain ⟨e1, e2, e3⟩ := hL
    subst e1 e2 e3
    simp [taskDoor.phase, lampsFor, Door.lamps]

/-- One receive of the door task keeps the lamps in step with the phase. -/
theorem lampsInv_step (rx : Option DOOR_MSG) (d : Door) (hd : d.inv) (hL : d.lampsInv) :
    (taskDoor.step rx d).lampsInv := by
  obtain ⟨hL1, hL4⟩ := hL
  cases hl : d.loop
  · unfold taskDoor.step
    rw [hl]
    rcases rx with _ | m
    · exact ⟨hL1, hL4⟩
    · simp only
      have hi : (taskDoor.idle m d).cur_state = d.cur_state ∧
          (taskDoor.idle m d).next_state = d.next_state ∧
          (taskDoor.idle m d).lamps = d.lamps := by
        cases m <;> exact ⟨rfl, rfl, rfl⟩
      obtain ⟨i1, i2, i3⟩ := hi
      have hk : (taskDoor.idle m d).lampsInv := by
        unfold Door.lampsInv
        rw [i1, i2, i3]
        exact ⟨hL1, hL4⟩
      unfold Door.inv at hd
      rw [hl] at hd
      obtain ⟨c0, n0, -⟩ := hd
      split_ifs
      · rcases test_facts (taskDoor.idle m d) with ⟨-, te⟩ | ⟨-, te⟩
        · rw [te]
          exact hk
        · rw [te]
          unfold Door.lampsInv
          refine ⟨?_, fun h => absurd (show (0 : Nat) = 4 from h) (by decide)⟩
          show lampsFor 0 = some (taskDoor.idle m d).lamps
          rw [i3, ← c0]
          exact hL1
      · exact hk
  · unfold Door.inv at hd
    rw [hl] at hd
    obtain ⟨e1, h4, hn, ho⟩ := hd
    obtain ⟨g1, g2, g3, -⟩ := drain_facts rx d hn ho
    obtain ⟨q1, q2⟩ := drain_lamps rx d ho hL4
    obtain ⟨p1, -, p3, -⟩ := phase_facts (taskDoor.drain rx d) g1 (by rw [g3, e1])
    obtain ⟨m1, m2, -⟩ := phase_lamps (taskDoor.drain rx d) g1 (by rw [g2, q1]; exact hL1)
      (by rw [g2]; exact q2)
    unfold taskDoor.step
    rw [hl]
    simp only
    rcases test_facts (taskDoor.phase (taskDoor.drain rx d)) with ⟨-, te⟩ | ⟨ta, te⟩
    · rw [te]
      exact ⟨m1, m2⟩
    · rw [te]
      unfold Door.lampsInv
      refine ⟨?_, fun h => absurd (show (0 : Nat) = 4 from h) (by decide)⟩
      show lampsFor 0 = some (taskDoor.phase (taskDoor.drain rx d)).lamps
      rw [← (p3 ta).1]
      exact m1

/-- Every run of the door task from a door at rest with its three lamps lit keeps the
lamps in step with the phase. -/
theorem lampsInv_run (rxs : List (Option DOOR_MSG)) (d : Door) (hd : d.inv)
    (hL : d.lampsInv) : (taskDoor.run rxs d).lampsInv := by
  induction rxs generalizing d with
  | nil => exact hL
  | cons rx rest ih => exact ih (taskDoor.step rx d) (inv_step rx d hd) (lampsInv_step rx d hd hL)

/-- C22: from a door at rest with its three lamps lit, whatever is drained and whenever,
the lamps after an iteration of the animation loop show the pattern of the table for the
phase that iteration ran, which is one of 0 to 4; an iteration in phase 4 follows a state
in phase 3 and leaves the lamps as phase 3 set them, all clear.  Between two receives the
lamps show the pattern of `cur_state` as well. -/
theorem taskDoor_lamps (d0 : Door) (h0 : d0.isIdle) (hl0 : d0.lamps = (true, true, true))
    (rxs : List (Option DOOR_MSG)) (rx : Option DOOR_MSG)
    (hl : (taskDoor.run rxs d0).loop = .animation) :
    lampsFor (taskDoor.phase (taskDoor.drain rx (taskDoor.run rxs d0))).cur_state =
      some (taskDoor.phase (taskDoor.drain rx (taskDoor.run rxs d0))).lamps ∧
    ((taskDoor.phase (taskDoor.drain rx (taskDoor.run rxs d0))).cur_state = 4 →
      (taskDoor.run rxs d0).cur_state = 3 ∧
      (taskDoor.phase (taskDoor.drain rx (taskDoor.run rxs d0))).lamps =
        (false, false, false)) ∧
    lampsFor (taskDoor.run rxs d0).cur_state = some (taskDoor.run rxs d0).lamps ∧
    lampsFor (taskDoor.step rx (taskDoor.run rxs d0)).cur_state =
      some (taskDoor.step rx (taskDoor.run rxs d0)).lamps := by
  have hi0 := inv_of_isIdle d0 h0
  have hL0 : d0.lampsInv := by
    obtain ⟨-, c0, n0, -⟩ := h0
    unfold Door.lampsInv
    rw [c0, n0, hl0]
    exact ⟨rfl, fun h => absurd h (by decide)⟩
  have hi := inv_run rxs d0 hi0
  have hL := lampsInv_run rxs d0 hi0 hL0
  have hs := lampsInv_step rx _ hi hL
  generalize taskDoor.run rxs d0 = d at hi hL hl hs
  obtain ⟨hL1, hL4⟩ := hL
  unfold Door.inv at hi
  rw [hl] at hi
  obtain ⟨e1, h4, hn, ho⟩ := hi
  obtain ⟨g1, g2, g3, -⟩ := drain_facts rx d hn ho
  obtain ⟨q1, q2⟩ := drain_lamps rx d ho hL4
  obtain ⟨m1, -, m3⟩ := phase_lamps (taskDoor.drain rx d) g1 (by rw [g2, q1]; exact hL1)
    (by rw [g2]; exact q2)
  refine ⟨m1, fun h => ?_, hL1, hs.1⟩
  obtain ⟨c3, k⟩ := m3 h
  rw [g2] at c3
  refine ⟨c3, ?_⟩
  rw [k, q1]
  rw [c3] at hL1
  simp only [lampsFor, Option.some.injEq] at hL1
  exact hL1.symm

/-- C22 at a test point: `OPEN_CLOSE_SEQ` and four iterations with nothing drained bring
the door to phase 3; the next iteration runs phase 4 with all three lamps clear. -/
theorem taskDoor_lamps_witness :
    Door.startup.isIdle ∧ Door.startup.lamps = (true, true, true) ∧
    (taskDoor.run (some .OPEN_CLOSE_SEQ :: List.replicate 4 none) Door.startup).loop =
      .animation ∧
    (taskDoor.phase (taskDoor.drain none
      (taskDoor.run (some .OPEN_CLOSE_SEQ :: List.replicate 4 none) Door.startup))).cur_state
      = 4 ∧
    (taskDoor.phase (taskDoor.drain none
      (taskDoor.run (some .OPEN_CLOSE_SEQ :: List.replicate 4 none) Door.startup))).lamps =
      (false, false, false) :=
  ⟨by decide, by decide, by decide, by decide,
    ((taskDoor_lamps Door.startup (by decide) (by decide)
      (some .OPEN_CLOSE_SEQ :: List.replicate 4 none) none (by decide)).2.1 (by decide)).2⟩

/-! ## The deceleration threshold -/

end Elevator
